import Mathlib

/-!
EntropySource: entropy block conditioning

A shallow embedding of the block update path of the entropy pool
(`src/pool/entropy_block.c`, `src/pool/entropy_block_digest.c`,
`src/crypto/digest.c`, `src/global/math_defs.c`) and the properties of it that
the specification states.

Conventions of the embedding

* A `char` is a natural number below 256; a `char` array is a `List Nat` whose
  length is the number of bytes allocated. A pointer argument `const char *` is
  `Option (List Nat)`: `none` is `NULL`, `some a` is the memory that starts at the
  pointer.
* `int`, `long` and `size_t` values are integers; array sizes are taken to fit an
  `int`, the one conversion to `size_t` that can wrap is written out.
* `double` values are rationals: the arithmetic of the threshold test is exact.
* `malloc` and `strdup` are taken to succeed. GLib is a parameter (`GLib`): it
  says for which kinds `g_checksum_new` yields a checksum and what string
  `g_checksum_get_string` returns.
* A store through an index outside the array does not change the array.
-/

namespace EntropySource

/-! ## `global/defs.h`, `global/math_defs.c` -/

/-- `ES_SUCCESS` is `EXIT_SUCCESS`. -/
def ES_SUCCESS : Int := 0

/-- `ES_FAILURE` is `EXIT_FAILURE`. -/
def ES_FAILURE : Int := 1

/-- The C operator `!` on an `int`. -/
def c_not (x : Int) : Int := if x = 0 then 1 else 0

/-- `es_min`: the minimum of two `long` values. -/
def es_min (x y : Int) : Int := if x < y then x else y

/-- Conversion of a signed value to `size_t` (64 bits). -/
def size_t_of_int (x : Int) : Nat := (x % 2 ^ 64).toNat

/-! ## C strings and the `string.h` functions the code calls -/

/-- The bytes of the C string that starts an array: those before the first zero. -/
def cstr (a : List Nat) : List Nat := a.takeWhile (fun c => c != 0)

/-- `strlen`: the number of bytes before the first zero byte. -/
def strlen (a : List Nat) : Nat := (cstr a).length

/-- `strdup`: a fresh array holding the string and its terminator. -/
def strdup (a : List Nat) : List Nat := cstr a ++ [0]

/-- `memset(a, 0, n)`. -/
def memset_zero (a : List Nat) (n : Nat) : List Nat :=
  List.replicate (min n a.length) 0 ++ a.drop n

/-- Stores `bytes` into `a` from offset `off` on; bytes past the end of `a` are
not part of the array. -/
def memwrite (a : List Nat) (off : Nat) (bytes : List Nat) : List Nat :=
  (a.take off ++ bytes ++ a.drop (off + bytes.length)).take a.length

/-- The assignment `a[i] = v`. -/
def store (a : List Nat) (i : Int) (v : Nat) : List Nat :=
  if 0 ≤ i then a.set i.toNat v else a

/-- `strncat(dest, src, n)`: at most `n` bytes of the string `src` are written
over the terminator of `dest`, followed by a new terminator. -/
def strncat (dest src : List Nat) (n : Nat) : List Nat :=
  memwrite dest (strlen dest) ((cstr src).take n ++ [0])

/-- `strncpy(dest, src, n)`: exactly `n` bytes are written, the string `src` cut
at `n` bytes and then zeros. -/
def strncpy (dest src : List Nat) (n : Nat) : List Nat :=
  memwrite dest 0 ((cstr src).take n ++ List.replicate (n - strlen src) 0)

/-! ## GLib checksums -/

/-- `G_CHECKSUM_MD5`, the first value of GLib's `GChecksumType`. -/
def ES_MD5_DIGEST : Int := 0

/-- `G_CHECKSUM_SHA1`. -/
def ES_SHA1_DIGEST : Int := 1

/-- `G_CHECKSUM_SHA256`. -/
def ES_SHA256_DIGEST : Int := 2

/-- `G_CHECKSUM_SHA512`. -/
def ES_SHA512_DIGEST : Int := 3

/-- The part of GLib the code relies on. `checksum_new_ok kind` tells whether
`g_checksum_new(kind)` returns a checksum; `checksum_string kind input` is the
hexadecimal string `g_checksum_get_string` returns for a checksum of that kind
that was fed `input`. -/
structure GLib where
  checksum_new_ok : Int → Bool
  checksum_string : Int → List Nat → List Nat

/-- A `GChecksum`: its kind and the bytes fed to it so far. -/
structure GChecksum where
  kind : Int
  fed : List Nat
deriving DecidableEq

/-- `g_checksum_new`. -/
def g_checksum_new (gl : GLib) (checksum_type : Int) : Option GChecksum :=
  if gl.checksum_new_ok checksum_type then some ⟨checksum_type, []⟩ else none

/-- `g_checksum_update(checksum, data, length)`. -/
def g_checksum_update (c : GChecksum) (data : List Nat) (length : Nat) : GChecksum :=
  { c with fed := c.fed ++ data.take length }

/-- `g_checksum_get_string`. -/
def g_checksum_get_string (gl : GLib) (c : GChecksum) : List Nat :=
  gl.checksum_string c.kind c.fed

/-! ## `crypto/digest.c` -/

/-- `struct es_digest`. -/
structure es_digest where
  type : Int
  algorithm : Option GChecksum
deriving DecidableEq

/-- `es_validate_digest_type`. -/
def es_validate_digest_type (digest_type : Int) : Int :=
  if digest_type = ES_MD5_DIGEST ∨ digest_type = ES_SHA1_DIGEST
      ∨ digest_type = ES_SHA256_DIGEST ∨ digest_type = ES_SHA512_DIGEST then
    ES_SUCCESS
  else
    ES_FAILURE

/-- `es_alloc_digest`. The field `type` is not written here (the model keeps 0
in it until `es_init_digest` stores the kind). -/
def es_alloc_digest (gl : GLib) (digest_type : Int) : Option es_digest :=
  if es_validate_digest_type digest_type ≠ ES_SUCCESS then none
  else
    match g_checksum_new gl digest_type with
    | none => none
    | some algorithm => some { type := 0, algorithm := some algorithm }

/-- `es_init_digest`, on an allocated digest: the status and the digest. -/
def es_init_digest (digest : es_digest) (digest_type : Int) : Int × es_digest :=
  if es_validate_digest_type digest_type ≠ ES_SUCCESS then (ES_FAILURE, digest)
  else (ES_SUCCESS, { digest with type := digest_type })

/-- `es_create_digest`. -/
def es_create_digest (gl : GLib) (digest_type : Int) : Option es_digest :=
  if es_validate_digest_type digest_type ≠ ES_SUCCESS then none
  else
    match es_alloc_digest gl digest_type with
    | none => none
    | some digest =>
      if (es_init_digest digest digest_type).1 ≠ ES_SUCCESS then none
      else some (es_init_digest digest digest_type).2

/-- `es_validate_digest`, on an allocated digest. -/
def es_validate_digest (digest : es_digest) : Int :=
  match digest.algorithm with
  | none => ES_FAILURE
  | some _ =>
    if es_validate_digest_type digest.type ≠ ES_SUCCESS then ES_FAILURE
    else ES_SUCCESS

/-- `es_update_digest`: the status and the digest afterwards. -/
def es_update_digest (digest : es_digest) (data : Option (List Nat)) :
    Int × es_digest :=
  if es_validate_digest digest ≠ ES_SUCCESS then (ES_FAILURE, digest)
  else
    match data, digest.algorithm with
    | some data, some algorithm =>
      (ES_SUCCESS,
        { digest with algorithm := some (g_checksum_update algorithm data (strlen data)) })
    | _, _ => (ES_FAILURE, digest)

/-- `es_get_digest_string`: `none` is `NULL`. -/
def es_get_digest_string (gl : GLib) (digest : es_digest) : Option (List Nat) :=
  if es_validate_digest digest ≠ ES_SUCCESS then none
  else
    match digest.algorithm with
    | none => none
    | some algorithm => some (strdup (g_checksum_get_string gl algorithm))

/-! ## `pool/entropy_block_digest.c` -/

/-- `es_compute_digest_1`, called with `*digest_data == NULL` as its caller does.
`some d`: the function returns `ES_SUCCESS` and `*digest_data` is `d`;
`none`: it returns `ES_FAILURE` and `*digest_data` is still `NULL`. -/
def es_compute_digest_1 (gl : GLib) (digest_type : Int) (data : Option (List Nat)) :
    Option (List Nat) :=
  if es_validate_digest_type digest_type ≠ ES_SUCCESS then none
  else
    match data with
    | none => none
    | some data =>
      match es_create_digest gl digest_type with
      | none => none
      | some digest =>
        if (es_update_digest digest (some data)).1 ≠ ES_SUCCESS then none
        else es_get_digest_string gl (es_update_digest digest (some data)).2

/-- The loop `for(i = 0; i < n; ++i) destination_data[i] ^= source_data[i]`. -/
def xor_loop : List Nat → List Nat → Nat → List Nat
  | d :: ds, s :: ss, n + 1 => (d ^^^ s) :: xor_loop ds ss n
  | ds, _, _ => ds

/-- `es_compute_digest_2`, with the same reading of the result as
`es_compute_digest_1`. -/
def es_compute_digest_2 (gl : GLib) (digest_type : Int)
    (data_1 data_2 : Option (List Nat)) : Option (List Nat) :=
  if es_validate_digest_type digest_type ≠ ES_SUCCESS then none
  else
    match data_1, data_2 with
    | some data_1, some data_2 =>
      let data_1_size : Int := strlen data_1
      let data_2_size : Int := strlen data_2
      let minimum_digest_size : Int := es_min data_1_size data_2_size
      let destination_data :=
        if data_1_size > data_2_size then strdup data_1 else strdup data_2
      let source_data :=
        if data_1_size < data_2_size then strdup data_1 else strdup data_2
      es_compute_digest_1 gl digest_type
        (some (xor_loop destination_data source_data minimum_digest_size.toNat))
    | _, _ => none

/-! ## `pool/entropy_block.c` -/

/-- `ES_CLEAN_BLOCK_STATE`. -/
def ES_CLEAN_BLOCK_STATE : Int := 0

/-- `ES_DIRTY_BLOCK_STATE`. -/
def ES_DIRTY_BLOCK_STATE : Int := 1

/-- `ES_MINIMUM_BLOCK_THRESHOLD`. -/
def ES_MINIMUM_BLOCK_THRESHOLD : ℚ := 0

/-- `ES_MAXIMUM_BLOCK_THRESHOLD`. -/
def ES_MAXIMUM_BLOCK_THRESHOLD : ℚ := 100

/-- `struct es_entropy_block`, without its mutex. Both arrays are allocated, as
they are in every block `es_alloc_entropy_block` returns. -/
structure es_entropy_block where
  size : Int
  content : List Nat
  buffer : List Nat
  state : Int
  threshold : ℚ
  digest_type : Int
deriving DecidableEq

/-- `es_clear_entropy_array`: `memset(array, 0, strlen(array))`. -/
def es_clear_entropy_array (array : List Nat) : List Nat :=
  memset_zero array (strlen array)

/-- `es_compute_array_entropy_percentage`: the quotient
`(strlen(array) * 100.0) / size` as an exact rational. The source computes it as
a `double`: the product is exact there, and the division rounds the exact
quotient to the nearest `double`, a relative error of at most `2 ^ (-53)`; the
two agree whenever the exact quotient is a `double`, as it is when `size` is a
power of two. -/
def es_compute_array_entropy_percentage (array : List Nat) (size : Int) : ℚ :=
  ((strlen array : ℚ) * ES_MAXIMUM_BLOCK_THRESHOLD) / (size : ℚ)

/-- `es_init_entropy_block`, on an allocated block. -/
def es_init_entropy_block (block : es_entropy_block) (size : Int) :
    Int × es_entropy_block :=
  if size ≤ 0 then (ES_FAILURE, block)
  else
    (ES_SUCCESS,
      { block with
        size := size
        state := ES_DIRTY_BLOCK_STATE
        threshold := ES_MINIMUM_BLOCK_THRESHOLD
        digest_type := ES_SHA512_DIGEST })

/-- `es_validate_entropy_block_state`. -/
def es_validate_entropy_block_state (block_state : Int) : Int :=
  if block_state = ES_CLEAN_BLOCK_STATE ∨ block_state = ES_DIRTY_BLOCK_STATE then
    ES_SUCCESS
  else
    ES_FAILURE

/-- `es_validate_entropy_block`, on an allocated block. The last test is the
source's `!es_validate_digest_type(block->digest_type) != ES_SUCCESS`. -/
def es_validate_entropy_block (block : es_entropy_block) : Int :=
  if es_validate_entropy_block_state block.state ≠ ES_SUCCESS then ES_FAILURE
  else if block.threshold < ES_MINIMUM_BLOCK_THRESHOLD
      ∨ ES_MINIMUM_BLOCK_THRESHOLD > ES_MAXIMUM_BLOCK_THRESHOLD then ES_FAILURE
  else if c_not (es_validate_digest_type block.digest_type) ≠ ES_SUCCESS then
    ES_FAILURE
  else ES_SUCCESS

/-- The `return` statement by which `es_update_entropy_block_content` ends:
`rejected` is one of the sanity checks (lines 334 to 341), `staged` the return
below the threshold (line 366), `hash_failed` the return after
`es_compute_digest_2` failed (line 377), `mixed` the last one (line 400). -/
inductive UpdateOutcome where
  | rejected
  | staged
  | hash_failed
  | mixed
deriving DecidableEq

/-- The value `es_update_entropy_block_content` returns at each `return`. -/
def UpdateOutcome.status : UpdateOutcome → Int
  | .rejected => ES_FAILURE
  | .staged => ES_SUCCESS
  | .hash_failed => ES_FAILURE
  | .mixed => ES_SUCCESS

/-- Lines 351 to 354 of `es_update_entropy_block_content`: the array
`block->buffer` after
`buffer_size = strlen(block->buffer);`
`copy_size = es_min(strlen(content), block->size - buffer_size - 1);`
`strncat(block->buffer, content, copy_size);`
`block->buffer[buffer_size - 1] = 0;`. -/
def es_update_buffer (block : es_entropy_block) (content : List Nat) : List Nat :=
  let buffer_size : Int := strlen block.buffer
  let copy_size : Int := es_min (strlen content) (block.size - buffer_size - 1)
  store (strncat block.buffer content (size_t_of_int copy_size)) (buffer_size - 1) 0

/-- `es_update_entropy_block_content`: the `return` taken and the block
afterwards. -/
def es_update_entropy_block_content (gl : GLib) (block : es_entropy_block)
    (content : Option (List Nat)) : UpdateOutcome × es_entropy_block :=
  if c_not (es_validate_entropy_block block) ≠ ES_SUCCESS then (.rejected, block)
  else
    match content with
    | none => (.rejected, block)
    | some content =>
      let block := { block with buffer := es_update_buffer block content }
      let block_percentage :=
        es_compute_array_entropy_percentage block.buffer block.size
      if block.threshold > block_percentage then (.staged, block)
      else
        match es_compute_digest_2 gl block.digest_type
            (some block.content) (some block.buffer) with
        | none => (.hash_failed, block)
        | some digest =>
          let content := es_clear_entropy_array block.content
          let buffer := es_clear_entropy_array block.buffer
          let content := strncpy content digest (size_t_of_int (block.size - 1))
          let content := store content (block.size - 1) 0
          (.mixed,
            { block with
              content := content
              buffer := buffer
              state := ES_CLEAN_BLOCK_STATE })

/-! ## Blocks and inputs used in the examples -/

/-- A stand-in for GLib in the examples: every checksum can be created, and the
string of a checksum is one lower-case letter per input byte followed by sixteen
times the letter h. It is not a cryptographic hash. -/
def sample_glib : GLib where
  checksum_new_ok := fun _ => true
  checksum_string := fun _ input =>
    input.map (fun c => 97 + c % 16) ++ List.replicate 16 104

/-- A GLib in which no checksum can be created. -/
def failing_glib : GLib where
  checksum_new_ok := fun _ => false
  checksum_string := fun _ _ => []

/-- A block as `es_create_entropy_block(size, ES_CLEAN_ALLOC)` leaves it, with
the given threshold stored in it. -/
def fresh_block (size : Nat) (threshold : ℚ) : es_entropy_block where
  size := size
  content := List.replicate size 0
  buffer := List.replicate size 0
  state := ES_DIRTY_BLOCK_STATE
  threshold := threshold
  digest_type := ES_SHA512_DIGEST

/-- A block is well formed when its size is a positive `int`, both arrays have
`size` bytes and each holds a terminated string. -/
def es_entropy_block.WellFormed (b : es_entropy_block) : Prop :=
  1 ≤ b.size ∧ b.size < 2 ^ 31 ∧ (b.content.length : Int) = b.size
    ∧ (b.buffer.length : Int) = b.size ∧ 0 ∈ b.content ∧ 0 ∈ b.buffer

instance es_entropy_block.decidableWellFormed (b : es_entropy_block) :
    Decidable b.WellFormed := by
  unfold es_entropy_block.WellFormed
  infer_instance

/-- The string "AAAA" with its terminator. -/
def str_AAAA : List Nat := [65, 65, 65, 65, 0]

/-- The string "BBBB" with its terminator. -/
def str_BBBB : List Nat := [66, 66, 66, 66, 0]

/-- The string "abcdefg" with its terminator, the reading of scenario S1. -/
def str_abcdefg : List Nat := [97, 98, 99, 100, 101, 102, 103, 0]

/-- The block of scenario S2 once "AAAA" is staged: size 16, threshold as given,
zeroed content. -/
def staged_AAAA_block (threshold : ℚ) : es_entropy_block :=
  { fresh_block 16 threshold with buffer := str_AAAA ++ List.replicate 11 0 }

/-- The block of scenario S1 after its update, at the sample GLib. -/
def S1_block_after : es_entropy_block :=
  { fresh_block 8 0 with
    content := [98, 99, 100, 101, 102, 103, 104, 0]
    state := ES_CLEAN_BLOCK_STATE }

/-- The block of size 8 with threshold 0 after an update with the empty string,
at the sample GLib. -/
def empty_update_block_after : es_entropy_block :=
  { fresh_block 8 0 with
    content := [104, 104, 104, 104, 104, 104, 104, 0]
    state := ES_CLEAN_BLOCK_STATE }

/-- The string "A" with its terminator. -/
def str_A : List Nat := [65, 0]

/-- Fourteen times the letter B, with the terminator. -/
def str_B14 : List Nat := List.replicate 14 66 ++ [0]

/-- Eight times the letter F, with the terminator. -/
def str_F8 : List Nat := List.replicate 8 70 ++ [0]

/-- A block of size 16 with zeroed content, in state DIRTY, with the given
threshold and staging array. -/
def staging_block (threshold : ℚ) (buffer : List Nat) : es_entropy_block :=
  { fresh_block 16 threshold with buffer := buffer }

/-- The specification's `combine(a, b)` on two byte strings: the first
`min(|a|,|b|)` bytes are the XOR of the corresponding bytes of the two inputs,
the remaining bytes are the tail of the longer input. -/
def combine (a b : List Nat) : List Nat :=
  List.zipWith (fun x y => x ^^^ y) a b
    ++ (if b.length ≤ a.length then a else b).drop (min a.length b.length)

/-! ## `global/alloc_type.h` and the allocation of blocks (`pool/entropy_block.c`) -/

/-- `ES_NO_ALLOC`. -/
def ES_NO_ALLOC : Int := 0

/-- `ES_NORMAL_ALLOC`: the array comes from `malloc`. -/
def ES_NORMAL_ALLOC : Int := 1

/-- `ES_CLEAN_ALLOC`: the array comes from `calloc`. -/
def ES_CLEAN_ALLOC : Int := 2

/-- What the constructors take from outside the sources at hand:
`es_validate_alloc_type`, which `global/alloc_type.h` declares and whose
definition is not among the sources, and the byte a `malloc`ed array holds at
each offset before anything is written to it. -/
structure AllocEnv where
  es_validate_alloc_type : Int → Int
  malloc_byte : Nat → Nat

/-- `es_alloc_entropy_array`: `none` is `NULL`. -/
def es_alloc_entropy_array (env : AllocEnv) (size : Int) (alloc_type : Int) :
    Option (List Nat) :=
  if alloc_type = ES_NORMAL_ALLOC then
    some ((List.range size.toNat).map env.malloc_byte)
  else if alloc_type = ES_CLEAN_ALLOC then
    some (List.replicate size.toNat 0)
  else
    none

/-- `es_alloc_entropy_block`. The fields `size`, `state`, `threshold` and
`digest_type` are not written here (the model keeps 0 in them until
`es_init_entropy_block` stores the defaults). -/
def es_alloc_entropy_block (env : AllocEnv) (size : Int) (alloc_type : Int) :
    Option es_entropy_block :=
  if size ≤ 0 then none
  else if env.es_validate_alloc_type alloc_type ≠ ES_SUCCESS then none
  else
    match es_alloc_entropy_array env size alloc_type with
    | none => none
    | some content =>
      match es_alloc_entropy_array env size alloc_type with
      | none => none
      | some buffer =>
        some
          { size := 0
            content := content
            buffer := buffer
            state := 0
            threshold := 0
            digest_type := 0 }

/-- `es_create_entropy_block`. -/
def es_create_entropy_block (env : AllocEnv) (size : Int) (alloc_type : Int) :
    Option es_entropy_block :=
  if size ≤ 0 then none
  else if env.es_validate_alloc_type alloc_type ≠ ES_SUCCESS then none
  else
    match es_alloc_entropy_block env size alloc_type with
    | none => none
    | some block =>
      if (es_init_entropy_block block size).1 ≠ ES_SUCCESS then none
      else some (es_init_entropy_block block size).2

/-! ## `collections/queue.c` -/

/-- `FALSE`. -/
def FALSE : Int := 0

/-- `TRUE`, defined as `!(FALSE)`. -/
def TRUE : Int := c_not FALSE

/-- `struct es_queue` with its `GQueue` allocated: the elements from head to
tail. The pool queues hold pointers to `int`; an element is the `int` pointed
to. -/
structure es_queue where
  queue : List Int
deriving DecidableEq

/-- `es_create_queue`, the allocation taken to succeed: an empty queue. -/
def es_create_queue : es_queue := { queue := [] }

/-- `es_validate_queue`, on an allocated queue. -/
def es_validate_queue (_queue : es_queue) : Int := ES_SUCCESS

/-- `es_check_queue_is_empty`. -/
def es_check_queue_is_empty (queue : es_queue) : Int :=
  if es_validate_queue queue ≠ ES_SUCCESS then TRUE
  else if queue.queue.isEmpty then TRUE else FALSE

/-- `es_push_queue`: the status and the queue afterwards (`g_queue_push_tail`). -/
def es_push_queue (queue : es_queue) (element : Int) : Int × es_queue :=
  if es_validate_queue queue ≠ ES_SUCCESS then (ES_FAILURE, queue)
  else (ES_SUCCESS, { queue := queue.queue ++ [element] })

/-- `es_pop_queue`: the element returned (`none` is `NULL`) and the queue
afterwards (`g_queue_pop_head`). -/
def es_pop_queue (queue : es_queue) : Option Int × es_queue :=
  if es_validate_queue queue ≠ ES_SUCCESS then (none, queue)
  else
    match queue.queue with
    | [] => (none, queue)
    | element :: rest => (some element, { queue := rest })

/-! ## `pool/entropy_pool.c` -/

/-- `struct es_entropy_pool`, without its mutex, with the block array and both
queues allocated. An entry of `blocks` is `none` once the block it pointed to has
been destroyed. -/
structure es_entropy_pool where
  size : Int
  blocks : List (Option es_entropy_block)
  dirty_queue : es_queue
  clean_queue : es_queue
deriving DecidableEq

/-- The block `pool->blocks[index]`, when the index is inside the array and the
block has not been destroyed. -/
def es_entropy_pool.block_at (pool : es_entropy_pool) (index : Int) :
    Option es_entropy_block :=
  if 0 ≤ index then (pool.blocks[index.toNat]?).join else none

/-- The pool with `blocks[index]` replaced. -/
def es_entropy_pool.set_block (pool : es_entropy_pool) (index : Int)
    (block : Option es_entropy_block) : es_entropy_pool :=
  if 0 ≤ index then { pool with blocks := pool.blocks.set index.toNat block } else pool

/-- The loop of `es_alloc_entropy_pool` (lines 109 to 124), with `n` iterations
left and loop variable `i`: a block is created and `i` is pushed on the dirty
queue. -/
def es_alloc_entropy_pool_loop (env : AllocEnv) (block_size alloc_type : Int) :
    Nat → Int → es_entropy_pool → Option es_entropy_pool
  | 0, _, pool => some pool
  | n + 1, i, pool =>
    match es_create_entropy_block env block_size alloc_type with
    | none => none
    | some block =>
      if (es_push_queue pool.dirty_queue i).1 ≠ ES_SUCCESS then none
      else
        es_alloc_entropy_pool_loop env block_size alloc_type n (i + 1)
          { pool with
            blocks := pool.blocks ++ [some block]
            dirty_queue := (es_push_queue pool.dirty_queue i).2 }

/-- `es_alloc_entropy_pool`. The field `size` is not written here (the model
keeps 0 in it until `es_init_entropy_pool`). -/
def es_alloc_entropy_pool (env : AllocEnv) (pool_size block_size alloc_type : Int) :
    Option es_entropy_pool :=
  if pool_size ≤ 0 then none
  else if block_size ≤ 0 then none
  else if env.es_validate_alloc_type alloc_type ≠ ES_SUCCESS then none
  else
    es_alloc_entropy_pool_loop env block_size alloc_type pool_size.toNat 0
      { size := 0
        blocks := []
        dirty_queue := es_create_queue
        clean_queue := es_create_queue }

/-- `es_init_entropy_pool`, on an allocated pool. -/
def es_init_entropy_pool (pool : es_entropy_pool) (size : Int) : Int × es_entropy_pool :=
  if size ≤ 0 then (ES_FAILURE, pool)
  else (ES_SUCCESS, { pool with size := size })

/-- `es_create_entropy_pool`. -/
def es_create_entropy_pool (env : AllocEnv) (pool_size block_size alloc_type : Int) :
    Option es_entropy_pool :=
  if pool_size ≤ 0 then none
  else if block_size ≤ 0 then none
  else if env.es_validate_alloc_type alloc_type ≠ ES_SUCCESS then none
  else
    match es_alloc_entropy_pool env pool_size block_size alloc_type with
    | none => none
    | some pool =>
      if (es_init_entropy_pool pool pool_size).1 ≠ ES_SUCCESS then none
      else some (es_init_entropy_pool pool pool_size).2

/-- `es_validate_entropy_pool`, on an allocated pool. -/
def es_validate_entropy_pool (pool : es_entropy_pool) : Int :=
  if es_validate_queue pool.dirty_queue ≠ ES_SUCCESS then ES_FAILURE
  else if es_validate_queue pool.clean_queue ≠ ES_SUCCESS then ES_FAILURE
  else if pool.size ≤ 0 then ES_FAILURE
  else ES_SUCCESS

/-! ## `generator/entropy_generator.c` -/

/-- `es_get_entropy_block_index`: the index returned (`none` is `NULL`) and the
pool afterwards. For a state that is neither CLEAN nor DIRTY the local `queue`
stays `NULL`, which `es_check_queue_is_empty` reports as empty. -/
def es_get_entropy_block_index (pool : es_entropy_pool) (state : Int) :
    Option Int × es_entropy_pool :=
  if es_validate_entropy_pool pool ≠ ES_SUCCESS then (none, pool)
  else if state = ES_CLEAN_BLOCK_STATE then
    if c_not (es_check_queue_is_empty pool.clean_queue) ≠ 0 then
      ((es_pop_queue pool.clean_queue).1,
        { pool with clean_queue := (es_pop_queue pool.clean_queue).2 })
    else (none, pool)
  else if state = ES_DIRTY_BLOCK_STATE then
    if c_not (es_check_queue_is_empty pool.dirty_queue) ≠ 0 then
      ((es_pop_queue pool.dirty_queue).1,
        { pool with dirty_queue := (es_pop_queue pool.dirty_queue).2 })
    else (none, pool)
  else (none, pool)

/-- `es_get_dirty_entropy_block_index`. -/
def es_get_dirty_entropy_block_index (pool : es_entropy_pool) :
    Option Int × es_entropy_pool :=
  es_get_entropy_block_index pool ES_DIRTY_BLOCK_STATE

/-- `es_get_clean_entropy_block_index`. -/
def es_get_clean_entropy_block_index (pool : es_entropy_pool) :
    Option Int × es_entropy_pool :=
  es_get_entropy_block_index pool ES_CLEAN_BLOCK_STATE

/-- The shape of `es_request_entropy_block_content(block, content)`, which
`es_consume_entropy_block` calls and whose definition is not among the sources:
the status returned, the value of `*content` and the block afterwards. -/
abbrev ExtractFn := es_entropy_block → Int × Option (List Nat) × es_entropy_block

/-- Lines 152 to 172 of `es_consume_entropy_block`, reached with `*index` in
hand: the extract on `pool->blocks[*index]`, then either the block is destroyed
and the index freed, or the index is pushed on the dirty queue. The result is
the status, `*content` and the pool; `none` when `blocks[*index]` is not a live
block. -/
def es_consume_entropy_block_at (extract : ExtractFn) (pool : es_entropy_pool)
    (index : Int) : Option (Int × Option (List Nat) × es_entropy_pool) :=
  match pool.block_at index with
  | none => none
  | some block =>
    if (extract block).1 ≠ ES_SUCCESS then
      some ((extract block).1, (extract block).2.1, pool.set_block index none)
    else
      some ((extract block).1, (extract block).2.1,
        { pool.set_block index (some (extract block).2.2) with
          dirty_queue := (es_push_queue pool.dirty_queue index).2 })

/-- `es_consume_entropy_block`, run on its own: the status, `*content` and the
pool afterwards. `none` when the clean queue is empty: the `while(TRUE)` loop
then sleeps and polls until another thread queues a clean index. -/
def es_consume_entropy_block (extract : ExtractFn) (pool : es_entropy_pool) :
    Option (Int × Option (List Nat) × es_entropy_pool) :=
  if es_validate_entropy_pool pool ≠ ES_SUCCESS then some (ES_FAILURE, none, pool)
  else
    match es_get_clean_entropy_block_index pool with
    | (none, _) => none
    | (some index, pool) => es_consume_entropy_block_at extract pool index

/-- The loop of `es_clean_entropy_block` on one block. The list holds what the
successive calls of `es_read_device_data` deliver: `none` for a failed read,
`some buffer` for the read buffer of a successful one. The result is `ret` and
the block; `none` when the readings end while the block is still DIRTY. -/
def es_clean_entropy_block_loop (gl : GLib) :
    List (Option (List Nat)) → es_entropy_block → Option (Int × es_entropy_block)
  | [], block =>
    if block.state = ES_DIRTY_BLOCK_STATE then none else some (ES_SUCCESS, block)
  | reading :: rest, block =>
    if block.state = ES_DIRTY_BLOCK_STATE then
      match reading with
      | none => some (ES_FAILURE, block)
      | some buffer =>
        if (es_update_entropy_block_content gl block (some buffer)).1.status
            ≠ ES_SUCCESS then
          some (ES_FAILURE, (es_update_entropy_block_content gl block (some buffer)).2)
        else
          es_clean_entropy_block_loop gl rest
            (es_update_entropy_block_content gl block (some buffer)).2
    else some (ES_SUCCESS, block)

/-- `es_clean_entropy_block` on the pool of the bundle: the status and the pool
afterwards. -/
def es_clean_entropy_block (gl : GLib) (readings : List (Option (List Nat)))
    (pool : es_entropy_pool) (index : Int) : Option (Int × es_entropy_pool) :=
  if index < 0 then some (ES_FAILURE, pool)
  else
    match pool.block_at index with
    | none => none
    | some block =>
      match es_clean_entropy_block_loop gl readings block with
      | none => none
      | some (ret, block) => some (ret, pool.set_block index (some block))

/-- Lines 251 to 265 of `es_clean_entropy_pool`, reached with a dirty `*index`
in hand: `es_clean_entropy_block`, then either the block is destroyed and the
index freed, or the index is pushed on the clean queue. The result is `ret` and
the pool. -/
def es_clean_entropy_pool_at (gl : GLib) (readings : List (Option (List Nat)))
    (pool : es_entropy_pool) (index : Int) : Option (Int × es_entropy_pool) :=
  match es_clean_entropy_block gl readings pool index with
  | none => none
  | some (ret, pool) =>
    if ret ≠ ES_SUCCESS then some (ret, pool.set_block index none)
    else
      some (ret,
        { pool with clean_queue := (es_push_queue pool.clean_queue index).2 })

/-! ## The pool shared by the worker threads -/

/-- The pool together with the indices the threads hold in their local
variables: `refilling` are the indices device threads took from the dirty queue
and have not yet pushed back or freed, `dispatching` those request threads took
from the clean queue, `lost` the indices that were freed. -/
structure PoolSystem where
  pool : es_entropy_pool
  refilling : List Int
  dispatching : List Int
  lost : List Int
deriving DecidableEq

/-- What a thread does while it holds the pool mutex or a block mutex. -/
inductive WorkerAction where
  | take_dirty
  | refill (index : Int) (readings : List (Option (List Nat)))
  | take_clean
  | dispatch (index : Int)

/-- One action of one thread. `none` when the action cannot be taken in this
state (the thread does not hold the index, or the call does not return). -/
def worker_step (gl : GLib) (extract : ExtractFn) (s : PoolSystem) :
    WorkerAction → Option PoolSystem
  | .take_dirty =>
    match es_get_dirty_entropy_block_index s.pool with
    | (none, pool) => some { s with pool := pool }
    | (some index, pool) =>
      some { s with pool := pool, refilling := index :: s.refilling }
  | .refill index readings =>
    if index ∈ s.refilling then
      match es_clean_entropy_pool_at gl readings s.pool index with
      | none => none
      | some (ret, pool) =>
        if ret ≠ ES_SUCCESS then
          some
            { s with
              pool := pool
              refilling := s.refilling.erase index
              lost := index :: s.lost }
        else some { s with pool := pool, refilling := s.refilling.erase index }
    else none
  | .take_clean =>
    match es_get_clean_entropy_block_index s.pool with
    | (none, pool) => some { s with pool := pool }
    | (some index, pool) =>
      some { s with pool := pool, dispatching := index :: s.dispatching }
  | .dispatch index =>
    if index ∈ s.dispatching then
      match es_consume_entropy_block_at extract s.pool index with
      | none => none
      | some (status, _, pool) =>
        if status ≠ ES_SUCCESS then
          some
            { s with
              pool := pool
              dispatching := s.dispatching.erase index
              lost := index :: s.lost }
        else some { s with pool := pool, dispatching := s.dispatching.erase index }
    else none

/-- A sequence of actions, from the first on. -/
def run_workers (gl : GLib) (extract : ExtractFn) :
    PoolSystem → List WorkerAction → Option PoolSystem
  | s, [] => some s
  | s, action :: rest =>
    match worker_step gl extract s action with
    | none => none
    | some s' => run_workers gl extract s' rest

/-- The system right after `es_create_entropy_pool`: no thread holds an index. -/
def initial_system (pool : es_entropy_pool) : PoolSystem :=
  { pool := pool, refilling := [], dispatching := [], lost := [] }

/-- The indices `0, 1, ..., n - 1`. -/
def pool_indices (n : Nat) : List Int := (List.range n).map Int.ofNat

/-- How many times an index occurs in the queues, in the hands of the threads
and among the lost indices. -/
def PoolSystem.occurrences (s : PoolSystem) (index : Int) : Nat :=
  s.pool.dirty_queue.queue.count index + s.pool.clean_queue.queue.count index
    + s.refilling.count index + s.dispatching.count index + s.lost.count index

/-! ## The extract operation -/

/-- Modelled from the spec: `es_request_entropy_block_content`, the extract
operation that `es_consume_entropy_block` calls, is neither defined nor declared
in the sources. Section 4.2: "extract(out): precondition state = CLEAN. Copy
content into out, zero content and staging, set state = DIRTY." A call on a
block that is not CLEAN is taken to fail and to change nothing. -/
def es_request_entropy_block_content : ExtractFn := fun block =>
  if block.state ≠ ES_CLEAN_BLOCK_STATE then (ES_FAILURE, none, block)
  else
    (ES_SUCCESS, some block.content,
      { block with
        content := List.replicate block.content.length 0
        buffer := List.replicate block.buffer.length 0
        state := ES_DIRTY_BLOCK_STATE })

/-! ## `component/entropy/entropy_server.c` -/

/-- `strcpy(dest, src)`: the string `src` and its terminator. -/
def strcpy (dest src : List Nat) : List Nat :=
  memwrite dest 0 (cstr src ++ [0])

/-- `process_request` of the entropy server, on the file-scope `pool`:
the status, `out_buff`, `*out_buff_size` and the pool afterwards. `in_buff` is
not read. `none` when `es_consume_entropy_block` does not return or returns
`ES_SUCCESS` with `*content` still `NULL`. -/
def process_request (extract : ExtractFn) (pool : es_entropy_pool)
    (out_buff : List Nat) (out_buff_size : Int) :
    Option (Int × List Nat × Int × es_entropy_pool) :=
  match es_consume_entropy_block extract pool with
  | none => none
  | some (status, temp, pool) =>
    if status ≠ ES_SUCCESS then some (ES_FAILURE, out_buff, out_buff_size, pool)
    else
      match temp with
      | none => none
      | some temp =>
        let out_buff := strcpy out_buff temp
        let out_buff_size : Int := strlen out_buff
        let out_buff := store out_buff (out_buff_size - 1) 0
        some (ES_SUCCESS, out_buff, out_buff_size, pool)

/-- The bytes `es_handle_ssl_request` writes to the client:
`es_write_ssl_descriptor(descriptor, out_buffer, out_buffer_size)`. -/
def reply_bytes (out_buffer : List Nat) (out_buffer_size : Int) : List Nat :=
  out_buffer.take out_buffer_size.toNat

/-! ## Environments and pools used in the examples -/

/-- An allocation environment for the examples: `es_validate_alloc_type` accepts
the two codes that name an allocation function, and `malloc`ed bytes hold 170. -/
def sample_alloc_env : AllocEnv where
  es_validate_alloc_type := fun alloc_type =>
    if alloc_type = ES_NORMAL_ALLOC ∨ alloc_type = ES_CLEAN_ALLOC then ES_SUCCESS
    else ES_FAILURE
  malloc_byte := fun _ => 170

/-- A pool of `n` fresh blocks of the given size, all indices in the dirty queue. -/
def fresh_pool (n block_size : Nat) : es_entropy_pool where
  size := n
  blocks := List.replicate n (some (fresh_block block_size 0))
  dirty_queue := { queue := pool_indices n }
  clean_queue := { queue := [] }

/-- Successive calls of `es_push_queue` on one queue, as the threads make them
when they return indices: the queue after the last call. -/
def es_push_queue_all (queue : es_queue) : List Int → es_queue
  | [] => queue
  | element :: rest => es_push_queue_all (es_push_queue queue element).2 rest

/-- The given number of successive calls of `es_get_entropy_block_index` for one
state: what each call returned, and the pool after the last call. -/
def es_get_entropy_block_index_repeat (state : Int) :
    Nat → es_entropy_pool → List (Option Int) × es_entropy_pool
  | 0, pool => ([], pool)
  | n + 1, pool =>
    ((es_get_entropy_block_index pool state).1
        :: (es_get_entropy_block_index_repeat state n
            (es_get_entropy_block_index pool state).2).1,
      (es_get_entropy_block_index_repeat state n
        (es_get_entropy_block_index pool state).2).2)

/-- What holds of the system between any two actions: the pool passes
`es_validate_entropy_pool`; every index below `n` occurs exactly once in the
queues, the hands of the threads and the lost indices, and no other index
occurs; the blocks queued clean are CLEAN, the blocks queued dirty or being
refilled are DIRTY. -/
def PoolSystem.Invariant (s : PoolSystem) (n : Nat) : Prop :=
  es_validate_entropy_pool s.pool = ES_SUCCESS
    ∧ (∀ index : Int,
        s.occurrences index = if 0 ≤ index ∧ index < (n : Int) then 1 else 0)
    ∧ (∀ i ∈ s.pool.clean_queue.queue,
        ∃ b, s.pool.block_at i = some b ∧ b.state = ES_CLEAN_BLOCK_STATE)
    ∧ (∀ i ∈ s.pool.dirty_queue.queue,
        ∃ b, s.pool.block_at i = some b ∧ b.state = ES_DIRTY_BLOCK_STATE)
    ∧ (∀ i ∈ s.refilling,
        ∃ b, s.pool.block_at i = some b ∧ b.state = ES_DIRTY_BLOCK_STATE)

/-- A run of two device threads and one request thread on a pool of two blocks:
block 0 is refilled from the reading "abcdefg" and dispatched, the read for
block 1 fails. -/
def sample_actions : List WorkerAction :=
  [.take_dirty, .refill 0 [some str_abcdefg], .take_clean, .take_dirty, .dispatch 0,
    .refill 1 [none]]

/-- The system after `sample_actions`, at the sample GLib with the extract of the
specification: index 0 is back in the dirty queue, index 1 is lost. -/
def sample_actions_result : PoolSystem where
  pool :=
    { size := 2
      blocks := [some (fresh_block 8 0), none]
      dirty_queue := { queue := [0] }
      clean_queue := { queue := [] } }
  refilling := []
  dispatching := []
  lost := [1]

/-- The system after a device thread took index 0 and refilled block 0 from the
reading "abcdefg", at the sample GLib. -/
def sample_refilled_system : PoolSystem where
  pool :=
    { size := 2
      blocks := [some S1_block_after, some (fresh_block 8 0)]
      dirty_queue := { queue := [1] }
      clean_queue := { queue := [0] } }
  refilling := []
  dispatching := []
  lost := []

/-- A CLEAN block of the given size whose content is the given string followed
by its terminator. -/
def clean_block (size : Nat) (content : List Nat) : es_entropy_block :=
  { fresh_block size 0 with
    content := content ++ [0]
    state := ES_CLEAN_BLOCK_STATE }

/-- A pool of one block, queued clean. -/
def one_clean_block_pool (block : es_entropy_block) : es_entropy_pool where
  size := 1
  blocks := [some block]
  dirty_queue := { queue := [] }
  clean_queue := { queue := [0] }

/-! ## `collections/hashtable.c` -/

/-- `struct es_hashtable`. A pointer is `none` when it is `NULL`; a function
pointer or a GLib table is otherwise named by a number. -/
structure es_hashtable where
  hashtable : Option Nat
  es_compute_hashcode : Option Nat
  es_check_equal_keys : Option Nat
  es_free_key : Option Nat
  es_free_value : Option Nat
  deriving DecidableEq, Repr

/-- The allocator seen by `hashtable.c`: whether `malloc` succeeds, the bytes
found in the structure it returns, and the result of `g_hash_table_new_full`. -/
structure HashtableEnv where
  malloc_ok : Bool
  malloc_fields : es_hashtable
  g_hash_table_new_full : Option Nat → Option Nat → Option Nat → Option Nat → Option Nat

/-- `es_alloc_hashtable` (lines 47 to 86). -/
def es_alloc_hashtable (env : HashtableEnv)
    (es_compute_hashcode es_check_equal_keys es_free_key es_free_value : Option Nat) :
    Option es_hashtable :=
  if es_compute_hashcode.isNone then none
  else if es_check_equal_keys.isNone then none
  else if ¬ env.malloc_ok then none
  else
    let hashtable :=
      { env.malloc_fields with
        hashtable := env.g_hash_table_new_full es_compute_hashcode es_check_equal_keys
          es_free_key es_free_value }
    if hashtable.hashtable.isNone then none
    else some hashtable

/-- `es_init_hashtable` (lines 122 to 146). -/
def es_init_hashtable (hashtable : Option es_hashtable)
    (es_compute_hashcode es_check_equal_keys es_free_key es_free_value : Option Nat) :
    Int × Option es_hashtable :=
  match hashtable with
  | none => (ES_FAILURE, none)
  | some h =>
    if es_compute_hashcode.isNone then (ES_FAILURE, some h)
    else if es_check_equal_keys.isNone then (ES_FAILURE, some h)
    else
      (ES_SUCCESS,
        some { h with
          es_compute_hashcode := es_compute_hashcode
          es_check_equal_keys := es_check_equal_keys
          es_free_key := es_free_key
          es_free_value := es_free_value })

/-- `es_create_hashtable` (lines 160 to 203). The test after the call of
`es_init_hashtable` is the source's `!= ES_FAILURE`; at `exit` a table is
destroyed, and `NULL` returned, when `status` is still `ES_FAILURE`. -/
def es_create_hashtable (env : HashtableEnv)
    (es_compute_hashcode es_check_equal_keys es_free_key es_free_value : Option Nat) :
    Option es_hashtable :=
  if es_compute_hashcode.isNone then none
  else if es_check_equal_keys.isNone then none
  else
    match es_alloc_hashtable env es_compute_hashcode es_check_equal_keys es_free_key
        es_free_value with
    | none => none
    | some hashtable =>
      let r := es_init_hashtable (some hashtable) es_compute_hashcode es_check_equal_keys
        es_free_key es_free_value
      if r.1 ≠ ES_FAILURE then none
      else r.2

/-- `es_validate_hashtable` (lines 222 to 239). -/
def es_validate_hashtable (hashtable : Option es_hashtable) : Int :=
  match hashtable with
  | none => ES_FAILURE
  | some h =>
    if h.hashtable.isNone then ES_FAILURE
    else if h.es_compute_hashcode.isNone then ES_FAILURE
    else if h.es_check_equal_keys.isNone then ES_FAILURE
    else ES_SUCCESS

/-- An allocator for which every allocation succeeds; the structure comes back
from `malloc` with unset fields. -/
def sample_hashtable_env : HashtableEnv :=
  { malloc_ok := true
    malloc_fields :=
      { hashtable := none, es_compute_hashcode := none, es_check_equal_keys := none,
        es_free_key := none, es_free_value := none }
    g_hash_table_new_full := fun _ _ _ _ => some 1 }

/-- A block in a valid state whose threshold is 150 and whose digest kind is
none of the four supported ones. -/
def threshold_150_block : es_entropy_block :=
  { fresh_block 8 150 with digest_type := 7 }

/-- A block of four bytes whose arrays hold the empty string and a byte 7
behind it, as `malloc` may leave them. -/
def garbage_tail_block : es_entropy_block where
  size := 4
  content := [0, 0, 0, 7]
  buffer := [0, 0, 0, 7]
  state := ES_DIRTY_BLOCK_STATE
  threshold := 100
  digest_type := ES_SHA512_DIGEST

/-- The indices of `block->buffer` at which lines 353 and 354 of
`es_update_entropy_block_content` store a byte, in the order of the stores:
`strncat` stores the bytes it copies and then the terminator from index
`buffer_size` on, and line 354 stores at index `buffer_size - 1`. -/
def es_update_buffer_writes (block : es_entropy_block) (content : List Nat) : List Int :=
  let buffer_size : Int := strlen block.buffer
  let copy_size : Int := es_min (strlen content) (block.size - buffer_size - 1)
  let copied : Nat := ((cstr content).take (size_t_of_int copy_size)).length
  (List.range (copied + 1)).map (fun (j : Nat) => buffer_size + (j : Int))
    ++ [buffer_size - 1]

/-- The indices at which `es_clear_entropy_array` stores a zero:
`memset(array, 0, strlen(array))`. -/
def es_clear_entropy_array_writes (array : List Nat) : List Int :=
  (List.range (strlen array)).map (fun (j : Nat) => (j : Int))

/-! ## `device/serial_driver.c` -/

/-- `ES_SERIAL_START_TRANSFER_CODE`, the character `^`. -/
def ES_SERIAL_START_TRANSFER_CODE : Nat := 94

/-- `ES_SERIAL_STOP_TRANSFER_CODE`, the character `$`. -/
def ES_SERIAL_STOP_TRANSFER_CODE : Nat := 36

/-- A call of `write` or `read` on the descriptor inside `es_read_device_data`,
with the value `buffer_size` has at the call: `write code buffer_size ok` sends
the byte `code` and `ok` tells whether the call succeeded. -/
inductive DeviceEvent
  | write (code : Nat) (buffer_size : Int) (ok : Bool)
  | read (buffer_size : Int)
deriving DecidableEq, Repr

/-- The device and the allocator as one call of `es_read_device_data` sees
them: whether the descriptor is valid, whether `malloc` and the two calls of
`write` succeed, and what the successive calls of `read` return: `none` for a
negative result, `some data` for the bytes received (`read` is asked for at most
`size` bytes). -/
structure SerialDevice where
  descriptor_ok : Bool
  malloc_ok : Bool
  start_ok : Bool
  stop_ok : Bool
  reads : List (Option (List Nat))

/-- The branch `buffer_size == size - 1` of the loop of `es_read_device_data`
(lines 233 to 243): the stop code is written, then `buffer[buffer_size] = 0`. -/
def es_read_device_data_stop (stop_ok : Bool) (buffer : List Nat) (buffer_size : Int) :
    Int × List Nat × List DeviceEvent :=
  if ¬ stop_ok then
    (ES_FAILURE, buffer, [.write ES_SERIAL_STOP_TRANSFER_CODE buffer_size false])
  else
    (ES_SUCCESS, store buffer buffer_size 0,
      [.write ES_SERIAL_STOP_TRANSFER_CODE buffer_size true])

/-- The loop `while(TRUE)` of `es_read_device_data` (lines 232 to 256), from the
given `buffer` and `buffer_size` on. The result is `ret`, `buffer` and the calls
made when the loop is left; `none` when the readings are used up before the loop
is left. -/
def es_read_device_data_loop (size : Int) (stop_ok : Bool) :
    List (Option (List Nat)) → List Nat → Int → Option (Int × List Nat × List DeviceEvent)
  | [], buffer, buffer_size =>
    if buffer_size = size - 1 then some (es_read_device_data_stop stop_ok buffer buffer_size)
    else none
  | reading :: rest, buffer, buffer_size =>
    if buffer_size = size - 1 then some (es_read_device_data_stop stop_ok buffer buffer_size)
    else
      match reading with
      | none => some (ES_FAILURE, buffer, [.read buffer_size])
      | some data =>
        let tmp_buffer := memwrite (List.replicate size.toNat 0) 0 (data.take size.toNat)
        let rbytes : Int := (data.take size.toNat).length
        let copy_size := es_min rbytes (size - buffer_size - 1)
        match es_read_device_data_loop size stop_ok rest
            (strncat buffer tmp_buffer (size_t_of_int copy_size))
            (buffer_size + copy_size) with
        | none => none
        | some (ret, buffer, events) => some (ret, buffer, .read buffer_size :: events)

/-- The block at the label `exit` of `es_read_device_data` when `ret` is
`ES_FAILURE`: `memset(buffer, 0, size)` and `buffer[0] = 0`. -/
def es_read_device_data_exit (size : Int) (buffer : List Nat) : List Nat :=
  store (memset_zero buffer (size_t_of_int size)) 0 0

/-- `es_read_device_data` (lines 190 to 272) on a buffer that is not `NULL`:
`ret`, the buffer and the calls of `write` and `read` made on the descriptor. -/
def es_read_device_data (device : SerialDevice) (size : Int) (buffer : List Nat) :
    Option (Int × List Nat × List DeviceEvent) :=
  if ¬ device.descriptor_ok then some (ES_FAILURE, es_read_device_data_exit size buffer, [])
  else if size ≤ 0 then some (ES_FAILURE, es_read_device_data_exit size buffer, [])
  else
    let buffer := memset_zero buffer size.toNat
    if ¬ device.malloc_ok then some (ES_FAILURE, es_read_device_data_exit size buffer, [])
    else if ¬ device.start_ok then
      some (ES_FAILURE, es_read_device_data_exit size buffer,
        [.write ES_SERIAL_START_TRANSFER_CODE 0 false])
    else
      match es_read_device_data_loop size device.stop_ok device.reads buffer 0 with
      | none => none
      | some (ret, buffer, events) =>
        some (ret,
          if ret = ES_FAILURE then es_read_device_data_exit size buffer else buffer,
          .write ES_SERIAL_START_TRANSFER_CODE 0 true :: events)

/-- A device on which every call succeeds and `read` returns the given
readings. -/
def working_device (readings : List (List Nat)) : SerialDevice :=
  { descriptor_ok := true, malloc_ok := true, start_ok := true, stop_ok := true
    reads := readings.map some }

/-! ## The calls on the mutexes and the I/O calls of a worker thread -/

/-- A call made by a worker thread: `pthread_mutex_lock` or
`pthread_mutex_unlock` on `pool->mutex` or on the mutex of `pool->blocks[index]`,
a call of `es_read_device_data`, or a call of `es_write_ssl_descriptor`. -/
inductive SyncEvent
  | lock_pool
  | unlock_pool
  | lock_block (index : Int)
  | unlock_block (index : Int)
  | device_read
  | stream_write
deriving DecidableEq, Repr

/-- The mutexes a thread holds: whether it holds `pool->mutex`, and the indices
of the blocks whose mutex it holds. -/
structure HeldLocks where
  pool : Bool
  blocks : List Int
deriving DecidableEq, Repr

/-- No mutex held. -/
def HeldLocks.none : HeldLocks := { pool := false, blocks := [] }

/-- The mutexes held after a call. -/
def HeldLocks.step (held : HeldLocks) : SyncEvent → HeldLocks
  | .lock_pool => { held with pool := true }
  | .unlock_pool => { held with pool := false }
  | .lock_block index => { held with blocks := index :: held.blocks }
  | .unlock_block index => { held with blocks := held.blocks.erase index }
  | .device_read => held
  | .stream_write => held

/-- The mutexes held after a sequence of calls. -/
def held_after (held : HeldLocks) (events : List SyncEvent) : HeldLocks :=
  events.foldl HeldLocks.step held

/-- Whether `pool->mutex` and the mutex of a block are held together. -/
def HeldLocks.both (held : HeldLocks) : Bool := held.pool && !held.blocks.isEmpty

/-- Whether at no point of the sequence of calls, its start and its end
included, `pool->mutex` and the mutex of a block are held together. -/
def never_both_held : HeldLocks → List SyncEvent → Bool
  | held, [] => !held.both
  | held, event :: rest => !held.both && never_both_held (held.step event) rest

/-- The mutexes held at each call of `es_read_device_data` and of
`es_write_ssl_descriptor` in the sequence of calls. -/
def held_at_transfer : HeldLocks → List SyncEvent → List HeldLocks
  | _, [] => []
  | held, .device_read :: rest => held :: held_at_transfer held rest
  | held, .stream_write :: rest => held :: held_at_transfer held rest
  | held, event :: rest => held_at_transfer (held.step event) rest

/-- The calls of `es_get_entropy_block_index` (lines 53 to 84). -/
def es_get_entropy_block_index_events (pool : es_entropy_pool) : List SyncEvent :=
  if es_validate_entropy_pool pool ≠ ES_SUCCESS then []
  else [.lock_pool, .unlock_pool]

/-- The calls of the loop of `es_clean_entropy_block` (lines 201 to 219), on the
readings of `es_clean_entropy_block_loop`. -/
def es_clean_entropy_block_loop_events (gl : GLib) :
    List (Option (List Nat)) → es_entropy_block → List SyncEvent
  | [], _ => []
  | reading :: rest, block =>
    if block.state = ES_DIRTY_BLOCK_STATE then
      .device_read ::
        (match reading with
        | none => []
        | some buffer =>
          if (es_update_entropy_block_content gl block (some buffer)).1.status
              ≠ ES_SUCCESS then []
          else
            es_clean_entropy_block_loop_events gl rest
              (es_update_entropy_block_content gl block (some buffer)).2)
    else []

/-- The calls of `es_clean_entropy_block` (lines 182 to 223): the mutex of the
block is locked before the loop and unlocked once the loop is left. -/
def es_clean_entropy_block_events (gl : GLib) (readings : List (Option (List Nat)))
    (pool : es_entropy_pool) (index : Int) : List SyncEvent :=
  if index < 0 then []
  else
    match pool.block_at index with
    | none => []
    | some block =>
      .lock_block index :: es_clean_entropy_block_loop_events gl readings block
        ++ (if (es_clean_entropy_block_loop gl readings block).isSome then
              [.unlock_block index]
            else [])

/-- The calls of one iteration of the loop of `es_clean_entropy_pool` (lines 240
to 291) on a runnable descriptor: the dirty index is taken, the block is
cleaned, and `pool->mutex` is locked around the push or the destruction. -/
def es_clean_entropy_pool_step_events (gl : GLib) (readings : List (Option (List Nat)))
    (pool : es_entropy_pool) : List SyncEvent :=
  es_get_entropy_block_index_events pool
    ++ (match es_get_dirty_entropy_block_index pool with
        | (none, _) => []
        | (some index, pool) =>
          es_clean_entropy_block_events gl readings pool index
            ++ (if (es_clean_entropy_block gl readings pool index).isSome then
                  [.lock_pool, .unlock_pool]
                else []))

/-- The calls of `es_consume_entropy_block` (lines 121 to 172) when the given
number of polls of the clean queue found it empty before the poll on the given
pool. -/
def es_consume_entropy_block_events (polls : Nat) (pool : es_entropy_pool) :
    List SyncEvent :=
  if es_validate_entropy_pool pool ≠ ES_SUCCESS then []
  else
    (List.replicate polls [SyncEvent.lock_pool, SyncEvent.unlock_pool]).flatten
      ++ es_get_entropy_block_index_events pool
      ++ (match es_get_clean_entropy_block_index pool with
          | (none, _) => []
          | (some index, pool) =>
            match pool.block_at index with
            | none => []
            | some _ =>
              [.lock_block index, .unlock_block index, .lock_pool, .unlock_pool])

/-- The calls of `es_handle_ssl_request` (ssl_server.c, lines 133 to 182) with
`process_request` of the entropy server: when the request was accepted and read
(`request_ok`), `es_consume_entropy_block` runs, and the reply is written when
`process_request` returned `ES_SUCCESS`. -/
def es_handle_ssl_request_events (extract : ExtractFn) (request_ok : Bool) (polls : Nat)
    (pool : es_entropy_pool) (out_buff : List Nat) (out_buff_size : Int) :
    List SyncEvent :=
  if ¬ request_ok then []
  else
    es_consume_entropy_block_events polls pool
      ++ (match process_request extract pool out_buff out_buff_size with
          | none => []
          | some (status, _, _, _) =>
            if status ≠ ES_SUCCESS then [] else [.stream_write])

/-! ## Lemmas on the string functions -/

theorem cstr_take_strlen (a : List Nat) : a.take (strlen a) = cstr a := by
  unfold strlen cstr
  induction a with
  | nil => simp
  | cons x xs ih =>
    by_cases hx : x = 0
    · simp [List.takeWhile_cons, hx]
    · simp [List.takeWhile_cons, hx, ih]

theorem cstr_ne_zero (a : List Nat) : ∀ x ∈ cstr a, x ≠ 0 := by
  intro x hx
  have := List.mem_takeWhile_imp hx
  simpa using this

theorem strlen_le_length (a : List Nat) : strlen a ≤ a.length := by
  unfold strlen
  rw [← cstr_take_strlen]
  simp

theorem cstr_append_zero (p z : List Nat) (hp : ∀ x ∈ p, x ≠ 0) :
    cstr (p ++ 0 :: z) = p := by
  unfold cstr
  induction p with
  | nil => simp
  | cons x xs ih =>
    have hx : x ≠ 0 := hp x (by simp)
    rw [List.cons_append, List.takeWhile_cons]
    simp only [bne_iff_ne, ne_eq, hx, not_false_eq_true, ↓reduceIte]
    rw [ih (fun w hw => hp w (List.mem_cons_of_mem _ hw))]

theorem cstr_strdup (a : List Nat) : cstr (strdup a) = cstr a :=
  cstr_append_zero (cstr a) [] (cstr_ne_zero a)

theorem cstr_set_last_append (p : List Nat) (hp : ∀ x ∈ p, x ≠ 0) (hne : p ≠ []) (z : List Nat) :
    cstr (p.set (p.length - 1) 0 ++ z) = p.take (p.length - 1) := by
  induction p with
  | nil => exact absurd rfl hne
  | cons x xs ih =>
    cases xs with
    | nil => simp [cstr]
    | cons y ys =>
      have hx : x ≠ 0 := hp x (by simp)
      have ih2 := ih (fun w hw => hp w (List.mem_cons_of_mem _ hw)) (by simp)
      simp only [List.length_cons, Nat.add_sub_cancel] at ih2 ⊢
      simp only [List.set_cons_succ, List.take_succ_cons, List.cons_append]
      unfold cstr at ih2 ⊢
      rw [List.takeWhile_cons]
      simp only [bne_iff_ne, ne_eq, hx, not_false_eq_true, ↓reduceIte]
      rw [ih2]

theorem size_t_of_int_eq (x : Int) (h0 : 0 ≤ x) (h1 : x < 2 ^ 64) :
    size_t_of_int x = x.toNat := by
  unfold size_t_of_int
  rw [Int.emod_eq_of_lt h0 h1]

theorem length_es_clear_entropy_array (a : List Nat) :
    (es_clear_entropy_array a).length = a.length := by
  have := strlen_le_length a
  simp [es_clear_entropy_array, memset_zero]
  omega

theorem strncpy_set_last (a d : List Nat) (n : Nat) (ha : a.length = n + 1) :
    (strncpy a d n).set n 0
      = (cstr d).take n ++ List.replicate (n - strlen d) 0 ++ [0] := by
  have hlen : ((cstr d).take n ++ List.replicate (n - strlen d) 0).length = n := by
    simp only [List.length_append, List.length_take, List.length_replicate]
    unfold strlen
    omega
  obtain ⟨x, hx⟩ : ∃ x, a.drop n = [x] := by
    apply List.length_eq_one.mp
    simp [ha]
  unfold strncpy memwrite
  rw [hlen, List.take_zero, List.nil_append, Nat.zero_add, hx, List.take_of_length_le,
    List.set_append]
  · simp [hlen]
  · simp only [List.length_append, hlen, List.length_singleton, ha, le_refl]

theorem xor_loop_zero (d s : List Nat) : xor_loop d s 0 = d := by
  cases d <;> cases s <;> rfl

theorem cstr_xor_loop_self (p : List Nat) (n : Nat) (h : p = [] ∨ 1 ≤ n) :
    cstr (xor_loop (p ++ [0]) (p ++ [0]) n) = [] := by
  cases p with
  | nil =>
    cases n with
    | zero => rfl
    | succ m => rfl
  | cons x xs =>
    cases n with
    | zero => simp at h
    | succ m =>
      simp [xor_loop, cstr]

theorem xor_loop_append_zero (p : List Nat) :
    ∀ q : List Nat, p.length ≤ q.length →
      xor_loop (q ++ [0]) (p ++ [0]) p.length
        = List.zipWith (fun x y => x ^^^ y) p q ++ q.drop p.length ++ [0] := by
  induction p with
  | nil =>
    intro q _
    simp [xor_loop_zero]
  | cons x xs ih =>
    intro q hq
    cases q with
    | nil => simp at hq
    | cons y ys =>
      have hle : xs.length ≤ ys.length := by simpa using hq
      have ih2 := ih ys hle
      simp only [List.cons_append, List.length_cons, xor_loop, List.zipWith_cons_cons,
        List.drop_succ_cons, Nat.xor_comm y x]
      exact congrArg (List.cons (x ^^^ y)) ih2

theorem zipWith_xor_comm (p q : List Nat) :
    List.zipWith (fun x y => x ^^^ y) p q = List.zipWith (fun x y => x ^^^ y) q p := by
  rw [List.zipWith_comm]
  congr 1
  funext x y
  exact Nat.xor_comm y x

theorem es_min_toNat_of_zero_left (n : Nat) : (es_min (0 : Nat) (n : Int)).toNat = 0 := by
  unfold es_min
  split
  · rfl
  · omega

theorem es_min_toNat_of_zero_right (n : Nat) : (es_min (n : Int) (0 : Nat)).toNat = 0 := by
  unfold es_min
  split
  · omega
  · rfl

/-! ## Lemmas on the digest wrappers -/

theorem es_compute_digest_1_some (gl : GLib) (k : Int) (d : List Nat)
    (hk : es_validate_digest_type k = ES_SUCCESS) (hnew : gl.checksum_new_ok k = true) :
    es_compute_digest_1 gl k (some d) = some (strdup (gl.checksum_string k (cstr d))) := by
  simp [es_compute_digest_1, es_create_digest, es_alloc_digest, es_init_digest,
    es_update_digest, es_validate_digest, es_get_digest_string, g_checksum_new,
    g_checksum_update, g_checksum_get_string, hk, hnew, cstr_take_strlen]

theorem es_compute_digest_1_none_of_new (gl : GLib) (k : Int) (d : Option (List Nat))
    (hnew : gl.checksum_new_ok k = false) :
    es_compute_digest_1 gl k d = none := by
  cases d <;>
  simp [es_compute_digest_1, es_create_digest, es_alloc_digest, g_checksum_new, hnew]

theorem es_compute_digest_1_congr (gl : GLib) (k : Int) (d e : List Nat) (h : cstr d = cstr e) :
    es_compute_digest_1 gl k (some d) = es_compute_digest_1 gl k (some e) := by
  by_cases hk : es_validate_digest_type k = ES_SUCCESS
  · cases hnew : gl.checksum_new_ok k with
    | false =>
      rw [es_compute_digest_1_none_of_new gl k _ hnew, es_compute_digest_1_none_of_new gl k _ hnew]
    | true =>
      rw [es_compute_digest_1_some gl k d hk hnew, es_compute_digest_1_some gl k e hk hnew, h]
  · simp [es_compute_digest_1, hk]

theorem es_compute_digest_2_some (gl : GLib) (k : Int) (a b : List Nat)
    (hk : es_validate_digest_type k = ES_SUCCESS) (hnew : gl.checksum_new_ok k = true) :
    ∃ d, es_compute_digest_2 gl k (some a) (some b) = some d := by
  simp only [es_compute_digest_2, hk, ne_eq, not_true_eq_false, ↓reduceIte]
  rw [es_compute_digest_1_some gl k _ hk hnew]
  exact ⟨_, rfl⟩

theorem es_compute_digest_2_none_of_new (gl : GLib) (k : Int) (a b : Option (List Nat))
    (hnew : gl.checksum_new_ok k = false) :
    es_compute_digest_2 gl k a b = none := by
  unfold es_compute_digest_2
  split
  · rfl
  · split
    · exact es_compute_digest_1_none_of_new gl k _ hnew
    · rfl

theorem es_compute_digest_2_of_lt (gl : GLib) (digest_type : Int) (a b : List Nat)
    (hlt : strlen a < strlen b) :
    es_compute_digest_2 gl digest_type (some a) (some b)
      = es_compute_digest_1 gl digest_type (some (combine (cstr a) (cstr b) ++ [0])) := by
  by_cases hk : es_validate_digest_type digest_type = ES_SUCCESS
  · have h1 : ¬ ((strlen a : Int) > (strlen b : Int)) := by omega
    have h2 : (strlen a : Int) < (strlen b : Int) := by omega
    have h3 : ¬ (cstr b).length ≤ (cstr a).length := by unfold strlen at hlt; omega
    have h4 : min (cstr a).length (cstr b).length = (cstr a).length := by
      unfold strlen at hlt; omega
    simp only [es_compute_digest_2, hk, ne_eq, not_true_eq_false, ↓reduceIte, h1, h2,
      es_min, Int.toNat_ofNat, strdup, combine, h3, h4]
    unfold strlen at hlt ⊢
    rw [xor_loop_append_zero (cstr a) (cstr b) (le_of_lt hlt)]
  · simp [es_compute_digest_2, es_compute_digest_1, hk]

theorem es_compute_digest_2_of_gt (gl : GLib) (digest_type : Int) (a b : List Nat)
    (hgt : strlen b < strlen a) :
    es_compute_digest_2 gl digest_type (some a) (some b)
      = es_compute_digest_1 gl digest_type (some (combine (cstr a) (cstr b) ++ [0])) := by
  by_cases hk : es_validate_digest_type digest_type = ES_SUCCESS
  · have h1 : (strlen a : Int) > (strlen b : Int) := by omega
    have h2 : ¬ (strlen a : Int) < (strlen b : Int) := by omega
    have h3 : (cstr b).length ≤ (cstr a).length := by unfold strlen at hgt; omega
    have h4 : min (cstr a).length (cstr b).length = (cstr b).length := by
      unfold strlen at hgt; omega
    simp only [es_compute_digest_2, hk, ne_eq, not_true_eq_false, ↓reduceIte, h1, h2,
      es_min, Int.toNat_ofNat, strdup, combine, h3, h4]
    unfold strlen at hgt ⊢
    rw [xor_loop_append_zero (cstr b) (cstr a) h3, zipWith_xor_comm]
  · simp [es_compute_digest_2, es_compute_digest_1, hk]

/-! ## Lemmas on `es_update_entropy_block_content` -/

theorem es_update_staged_of (gl : GLib) (b : es_entropy_block) (c : List Nat)
    (hv : c_not (es_validate_entropy_block b) = ES_SUCCESS)
    (ht : b.threshold > es_compute_array_entropy_percentage (es_update_buffer b c) b.size) :
    es_update_entropy_block_content gl b (some c)
      = (.staged, { b with buffer := es_update_buffer b c }) := by
  simp [es_update_entropy_block_content, hv, ht]

theorem es_update_hash_failed_of (gl : GLib) (b : es_entropy_block) (c : List Nat)
    (hv : c_not (es_validate_entropy_block b) = ES_SUCCESS)
    (ht : ¬ b.threshold > es_compute_array_entropy_percentage (es_update_buffer b c) b.size)
    (hd : es_compute_digest_2 gl b.digest_type (some b.content)
      (some (es_update_buffer b c)) = none) :
    es_update_entropy_block_content gl b (some c)
      = (.hash_failed, { b with buffer := es_update_buffer b c }) := by
  simp [es_update_entropy_block_content, hv, ht, hd]

theorem es_update_mixed_of (gl : GLib) (b : es_entropy_block) (c digest : List Nat)
    (hv : c_not (es_validate_entropy_block b) = ES_SUCCESS)
    (ht : ¬ b.threshold > es_compute_array_entropy_percentage (es_update_buffer b c) b.size)
    (hd : es_compute_digest_2 gl b.digest_type (some b.content)
      (some (es_update_buffer b c)) = some digest) :
    es_update_entropy_block_content gl b (some c)
      = (.mixed,
          { b with
            content := store (strncpy (es_clear_entropy_array b.content) digest
              (size_t_of_int (b.size - 1))) (b.size - 1) 0
            buffer := es_clear_entropy_array (es_update_buffer b c)
            state := ES_CLEAN_BLOCK_STATE }) := by
  simp [es_update_entropy_block_content, hv, ht, hd]

theorem es_update_cases (gl : GLib) (b : es_entropy_block) (data : Option (List Nat)) :
    (es_update_entropy_block_content gl b data = (.rejected, b))
    ∨ (∃ c, data = some c ∧ c_not (es_validate_entropy_block b) = ES_SUCCESS
        ∧ b.threshold > es_compute_array_entropy_percentage (es_update_buffer b c) b.size
        ∧ es_update_entropy_block_content gl b data
            = (.staged, { b with buffer := es_update_buffer b c }))
    ∨ (∃ c, data = some c ∧ c_not (es_validate_entropy_block b) = ES_SUCCESS
        ∧ ¬ b.threshold > es_compute_array_entropy_percentage (es_update_buffer b c) b.size
        ∧ es_compute_digest_2 gl b.digest_type (some b.content)
            (some (es_update_buffer b c)) = none
        ∧ es_update_entropy_block_content gl b data
            = (.hash_failed, { b with buffer := es_update_buffer b c }))
    ∨ (∃ c digest, data = some c ∧ c_not (es_validate_entropy_block b) = ES_SUCCESS
        ∧ ¬ b.threshold > es_compute_array_entropy_percentage (es_update_buffer b c) b.size
        ∧ es_compute_digest_2 gl b.digest_type (some b.content)
            (some (es_update_buffer b c)) = some digest
        ∧ es_update_entropy_block_content gl b data
            = (.mixed,
                { b with
                  content := store (strncpy (es_clear_entropy_array b.content) digest
                    (size_t_of_int (b.size - 1))) (b.size - 1) 0
                  buffer := es_clear_entropy_array (es_update_buffer b c)
                  state := ES_CLEAN_BLOCK_STATE })) := by
  by_cases hv : c_not (es_validate_entropy_block b) = ES_SUCCESS
  · cases data with
    | none => left; simp [es_update_entropy_block_content]
    | some c =>
      by_cases ht : b.threshold > es_compute_array_entropy_percentage (es_update_buffer b c) b.size
      · right; left
        exact ⟨c, rfl, hv, ht, es_update_staged_of gl b c hv ht⟩
      · cases hd : es_compute_digest_2 gl b.digest_type (some b.content)
            (some (es_update_buffer b c)) with
        | none =>
          right; right; left
          exact ⟨c, rfl, hv, ht, hd, es_update_hash_failed_of gl b c hv ht hd⟩
        | some digest =>
          right; right; right
          exact ⟨c, digest, rfl, hv, ht, hd, es_update_mixed_of gl b c digest hv ht hd⟩
  · left
    simp [es_update_entropy_block_content, hv]

theorem es_update_mixed_buffer (gl : GLib) (b : es_entropy_block) (c : List Nat)
    (hv : c_not (es_validate_entropy_block b) = ES_SUCCESS)
    (ht : ¬ b.threshold > es_compute_array_entropy_percentage (es_update_buffer b c) b.size)
    (hk : es_validate_digest_type b.digest_type = ES_SUCCESS)
    (hnew : gl.checksum_new_ok b.digest_type = true) :
    (es_update_entropy_block_content gl b (some c)).1 = .mixed
      ∧ (es_update_entropy_block_content gl b (some c)).2.buffer
          = es_clear_entropy_array (es_update_buffer b c)
      ∧ (es_update_entropy_block_content gl b (some c)).2.state = ES_CLEAN_BLOCK_STATE
      ∧ (es_update_entropy_block_content gl b (some c)).2.threshold = b.threshold
      ∧ (es_update_entropy_block_content gl b (some c)).2.size = b.size := by
  obtain ⟨d, hd⟩ := es_compute_digest_2_some gl b.digest_type b.content
    (es_update_buffer b c) hk hnew
  rw [es_update_mixed_of gl b c d hv ht hd]
  exact ⟨rfl, rfl, rfl, rfl, rfl⟩

theorem es_compute_array_entropy_percentage_nonneg (a : List Nat) (size : Int)
    (hsize : 1 ≤ size) : 0 ≤ es_compute_array_entropy_percentage a size := by
  unfold es_compute_array_entropy_percentage ES_MAXIMUM_BLOCK_THRESHOLD
  have h : (0 : ℚ) ≤ (size : ℚ) := by exact_mod_cast (by omega : (0 : Int) ≤ size)
  exact div_nonneg (mul_nonneg (Nat.cast_nonneg _) (by norm_num)) h

theorem cstr_es_update_buffer (b : es_entropy_block) (c : List Nat)
    (hu : 1 ≤ strlen b.buffer) :
    cstr (es_update_buffer b c) = (cstr b.buffer).take (strlen b.buffer - 1) := by
  have hle := strlen_le_length b.buffer
  have hne : cstr b.buffer ≠ [] := by
    intro h
    unfold strlen at hu
    rw [h] at hu
    simp at hu
  unfold es_update_buffer store strncat memwrite
  have h0 : (0 : Int) ≤ (strlen b.buffer : Int) - 1 := by omega
  have h1 : ((strlen b.buffer : Int) - 1).toNat = strlen b.buffer - 1 := by omega
  simp only [h0, ↓reduceIte, h1]
  rw [cstr_take_strlen, List.append_assoc, List.take_append_eq_append_take,
    List.take_of_length_le (by unfold strlen at hle; exact hle), List.set_append]
  have hlt : strlen b.buffer - 1 < (cstr b.buffer).length := by
    unfold strlen at hu ⊢
    omega
  simp only [hlt, ↓reduceIte]
  exact cstr_set_last_append (cstr b.buffer) (cstr_ne_zero b.buffer) hne _

theorem cstr_es_update_buffer_of_empty (b : es_entropy_block) (c : List Nat)
    (hs1 : 1 ≤ b.size) (hs2 : b.size < 2 ^ 31) (hlen : (b.buffer.length : Int) = b.size)
    (h0 : strlen b.buffer = 0) :
    cstr (es_update_buffer b c) = (cstr c).take (b.size - 1).toNat := by
  have hneg : ¬ (0 : Int) ≤ ((0 : Nat) : Int) - 1 := by omega
  have hcopy : size_t_of_int (es_min (strlen c) (b.size - ((0 : Nat) : Int) - 1))
      = min (strlen c) (b.size - 1).toNat := by
    unfold es_min
    split
    · rw [size_t_of_int_eq _ (by omega) (by omega)]
      omega
    · rw [size_t_of_int_eq _ (by omega) (by omega)]
      omega
  have htake : (cstr c).take (min (strlen c) (b.size - 1).toNat)
      = (cstr c).take (b.size - 1).toNat := by
    unfold strlen
    rw [List.take_eq_take]
    simp only [min_self, min_assoc]
    omega
  have hnz : ∀ x ∈ (cstr c).take (b.size - 1).toNat, x ≠ 0 :=
    fun x hx => cstr_ne_zero c x (List.mem_of_mem_take hx)
  have hl : ((cstr c).take (b.size - 1).toNat).length + 1 ≤ b.buffer.length := by
    rw [List.length_take]
    omega
  unfold es_update_buffer store strncat memwrite
  simp only [h0, hneg, ↓reduceIte, hcopy, htake, List.take_zero, List.nil_append,
    Nat.zero_add, List.append_assoc, List.singleton_append]
  rw [List.take_append_eq_append_take, List.take_of_length_le (by omega)]
  obtain ⟨k, hk⟩ : ∃ k, b.buffer.length - ((cstr c).take (b.size - 1).toNat).length = k + 1 :=
    ⟨b.buffer.length - ((cstr c).take (b.size - 1).toNat).length - 1, by omega⟩
  rw [hk, List.take_succ_cons]
  exact cstr_append_zero _ _ hnz

/-! ## The update of a block: threshold test, append step and mix step -/

/-- C1 (threshold law), evaluated on scenario S2: a block of size 16 with
threshold 50 is updated with "AAAA" and then with "BBBB". The claim has the second
update mix, because 100 * 8 / 16 = 50 reaches the threshold. In the code both
updates return at the threshold test (line 366) without mixing: the store
`block->buffer[buffer_size - 1] = 0` of line 354 cuts the staged string to "AAA",
so the percentage compared is 100 * 3 / 16, and the block stays DIRTY. -/
theorem es_update_S2_second_read_not_mixed (gl : GLib) :
    es_update_entropy_block_content gl (fresh_block 16 50) (some str_AAAA)
        = (.staged, staged_AAAA_block 50)
      ∧ es_update_entropy_block_content gl (staged_AAAA_block 50) (some str_BBBB)
        = (.staged,
            { staged_AAAA_block 50 with
              buffer := [65, 65, 65, 0, 66, 66, 66, 66, 0, 0, 0, 0, 0, 0, 0, 0] })
      ∧ es_compute_array_entropy_percentage
          [65, 65, 65, 0, 66, 66, 66, 66, 0, 0, 0, 0, 0, 0, 0, 0] 16 = 75 / 4
      ∧ (50 : ℚ) ≤ 100 * ((4 + min 4 (16 - 4 - 1) : Nat) : ℚ) / 16 := by
  refine ⟨?_, ?_, ?_, ?_⟩
  · rw [es_update_staged_of gl _ _ (by decide!) (by decide!)]
    decide!
  · rw [es_update_staged_of gl _ _ (by decide!) (by decide!)]
    decide!
  · decide!
  · decide!

/-- C3 (append law): it does not hold once the staging array holds a string. For
every block whose staged string has `u ≥ 1` bytes and every input, an update that
returns at the threshold test leaves content and state unchanged, but the staged
string afterwards is the old one without its last byte (line 354 stores the
terminator at index `u - 1`), so it is never the old string followed by the first
`min(|data|, size - u - 1)` bytes of the input. -/
theorem es_update_staged_drops_input (gl : GLib) (b b' : es_entropy_block)
    (content : List Nat) (hu : 1 ≤ strlen b.buffer)
    (h : es_update_entropy_block_content gl b (some content) = (.staged, b')) :
    cstr b'.buffer = (cstr b.buffer).take (strlen b.buffer - 1)
      ∧ cstr b'.buffer ≠ cstr b.buffer
          ++ content.take (min (strlen content) (b.size.toNat - strlen b.buffer - 1))
      ∧ b'.content = b.content ∧ b'.state = b.state := by
  have hb : b' = { b with buffer := es_update_buffer b content } := by
    rcases es_update_cases gl b (some content) with h1 | ⟨c, hc, _, _, h2⟩ |
      ⟨c, hc, _, _, _, h3⟩ | ⟨c, d, hc, _, _, _, h4⟩
    · rw [h1] at h; cases h
    · cases hc; rw [h2] at h; cases h; rfl
    · rw [h3] at h; cases h
    · rw [h4] at h; cases h
  subst hb
  have hc := cstr_es_update_buffer b content hu
  refine ⟨hc, ?_, rfl, rfl⟩
  intro heq
  have hlen := congrArg List.length heq
  simp only [hc, List.length_take, List.length_append] at hlen
  unfold strlen at hu hlen
  omega

/-- C3, an instance: "BB" offered to the block of scenario S2 that stages "AAAA". -/
theorem es_update_staged_drops_input_witness :
    cstr [65, 65, 65, 0, 66, 66, 0, 0, 0, 0, 0, 0, 0, 0, 0, 0] = [65, 65, 65]
      ∧ cstr [65, 65, 65, 0, 66, 66, 0, 0, 0, 0, 0, 0, 0, 0, 0, 0]
          ≠ [65, 65, 65, 65] ++ [66, 66] := by
  have h := es_update_staged_drops_input sample_glib (staged_AAAA_block 50)
    { staged_AAAA_block 50 with
      buffer := [65, 65, 65, 0, 66, 66, 0, 0, 0, 0, 0, 0, 0, 0, 0, 0] }
    [66, 66, 0] (by decide!) (by decide!)
  exact ⟨h.1, h.2.1⟩

/-- C4 (zero after mix): two runs in which the final update mixes and bytes of
earlier readings are still in the staging array afterwards, for every GLib that
provides SHA-512. In the first the block stages "AAAA" (threshold 10) and is
updated with "BBBB". In the second a fresh block of size 16 with threshold 50 is
updated with "A", then with fourteen B, then with eight F; the first two updates
return at the threshold test and the third mixes. `es_clear_entropy_array` zeroes
`strlen` bytes only, and the store of line 354 has put a terminator in front of
the bytes appended before. -/
theorem es_update_mix_leaves_staged_bytes (gl : GLib)
    (hnew : gl.checksum_new_ok ES_SHA512_DIGEST = true) :
    ((es_update_entropy_block_content gl (staged_AAAA_block 10) (some str_BBBB)).1 = .mixed
      ∧ (es_update_entropy_block_content gl (staged_AAAA_block 10) (some str_BBBB)).2.buffer
          = [0, 0, 0, 0, 66, 66, 66, 66, 0, 0, 0, 0, 0, 0, 0, 0])
    ∧ (es_update_entropy_block_content gl (fresh_block 16 50) (some str_A)
          = (.staged, staging_block 50 [65, 0, 0, 0, 0, 0, 0, 0, 0, 0, 0, 0, 0, 0, 0, 0])
      ∧ es_update_entropy_block_content gl
            (staging_block 50 [65, 0, 0, 0, 0, 0, 0, 0, 0, 0, 0, 0, 0, 0, 0, 0])
            (some str_B14)
          = (.staged,
              staging_block 50 [0, 66, 66, 66, 66, 66, 66, 66, 66, 66, 66, 66, 66, 66, 66, 0])
      ∧ (es_update_entropy_block_content gl
            (staging_block 50 [0, 66, 66, 66, 66, 66, 66, 66, 66, 66, 66, 66, 66, 66, 66, 0])
            (some str_F8)).1 = .mixed
      ∧ (es_update_entropy_block_content gl
            (staging_block 50 [0, 66, 66, 66, 66, 66, 66, 66, 66, 66, 66, 66, 66, 66, 66, 0])
            (some str_F8)).2.buffer
          = [0, 0, 0, 0, 0, 0, 0, 0, 0, 66, 66, 66, 66, 66, 66, 0]) := by
  have h1 := es_update_mixed_buffer gl (staged_AAAA_block 10) str_BBBB
    (by decide!) (by decide!) (by decide!) hnew
  have h3 := es_update_mixed_buffer gl
    (staging_block 50 [0, 66, 66, 66, 66, 66, 66, 66, 66, 66, 66, 66, 66, 66, 66, 0])
    str_F8 (by decide!) (by decide!) (by decide!) hnew
  refine ⟨⟨h1.1, ?_⟩, ?_, ?_, h3.1, ?_⟩
  · rw [h1.2.1]; decide!
  · rw [es_update_staged_of gl _ _ (by decide!) (by decide!)]
    decide!
  · rw [es_update_staged_of gl _ _ (by decide!) (by decide!)]
    decide!
  · rw [h3.2.1]; decide!

/-- C4, at the sample GLib. -/
theorem es_update_mix_leaves_staged_bytes_witness :
    (es_update_entropy_block_content sample_glib (staged_AAAA_block 10)
        (some str_BBBB)).2.buffer = [0, 0, 0, 0, 66, 66, 66, 66, 0, 0, 0, 0, 0, 0, 0, 0] :=
  (es_update_mix_leaves_staged_bytes sample_glib (by decide)).1.2

/-- C5 (threshold 0 hashes on every update): for every block of positive size
whose threshold is 0 and every input, the empty string included, an update that
returns `ES_SUCCESS` has ended by the mix and the state is CLEAN afterwards; and
0 is the threshold `es_init_entropy_block` stores whenever it succeeds. -/
theorem es_update_threshold_zero (gl : GLib) (b b' : es_entropy_block)
    (data : Option (List Nat)) (o : UpdateOutcome) (hsize : 1 ≤ b.size)
    (ht : b.threshold = 0)
    (h : es_update_entropy_block_content gl b data = (o, b'))
    (hs : o.status = ES_SUCCESS) :
    (o = .mixed ∧ b'.state = ES_CLEAN_BLOCK_STATE)
      ∧ ∀ (b₀ : es_entropy_block) (size : Int),
          (es_init_entropy_block b₀ size).1 = ES_SUCCESS →
            (es_init_entropy_block b₀ size).2.threshold = 0 := by
  constructor
  · rcases es_update_cases gl b data with h1 | ⟨c, _, _, hlt, h2⟩ |
      ⟨c, _, _, _, _, h3⟩ | ⟨c, d, _, _, _, _, h4⟩
    · rw [h1] at h; cases h
      exact absurd hs (by decide)
    · have := es_compute_array_entropy_percentage_nonneg (es_update_buffer b c) b.size hsize
      rw [ht] at hlt
      exact absurd hlt (not_lt.mpr this)
    · rw [h3] at h; cases h
      exact absurd hs (by decide)
    · rw [h4] at h; cases h
      exact ⟨rfl, rfl⟩
  · intro b₀ size hinit
    unfold es_init_entropy_block at hinit ⊢
    split
    · rename_i hle
      rw [if_pos hle] at hinit
      have h10 : ES_FAILURE ≠ ES_SUCCESS := by decide
      exact absurd hinit h10
    · rfl

/-- C5 on a fresh block of size 8 updated with the empty string, at the sample
GLib. -/
theorem es_update_threshold_zero_witness :
    es_update_entropy_block_content sample_glib (fresh_block 8 0) (some [0])
        = (.mixed, empty_update_block_after)
      ∧ empty_update_block_after.state = ES_CLEAN_BLOCK_STATE :=
  ⟨by decide!,
    (es_update_threshold_zero sample_glib (fresh_block 8 0) empty_update_block_after
      (some [0]) .mixed (by decide) (by decide!) (by decide!) (by decide)).1.2⟩

/-! ## The digest wrappers -/

/-- C6 (definition of the two-input hash), evaluated on "ab" and "cd" with
SHA-512: `combine` gives the two bytes 2 and 6, and the claim has the digest of
those; the code hands `es_compute_digest_1` an array of zero bytes, that is the
empty string, for every GLib. At the sample GLib the two digests differ. -/
theorem es_compute_digest_2_not_combine (gl : GLib) :
    es_compute_digest_2 gl ES_SHA512_DIGEST (some [97, 98, 0]) (some [99, 100, 0])
        = es_compute_digest_1 gl ES_SHA512_DIGEST (some [0, 0, 0])
      ∧ combine [97, 98] [99, 100] = [2, 6]
      ∧ es_compute_digest_2 sample_glib ES_SHA512_DIGEST (some [97, 98, 0])
            (some [99, 100, 0])
          ≠ es_compute_digest_1 sample_glib ES_SHA512_DIGEST
              (some (combine [97, 98] [99, 100] ++ [0])) := by
  refine ⟨?_, by decide, by decide⟩
  have hx : xor_loop (strdup [99, 100, 0]) (strdup [99, 100, 0]) (Int.toNat 2)
      = [0, 0, 0] := by decide
  have hk : es_validate_digest_type ES_SHA512_DIGEST = ES_SUCCESS := by decide
  have h1 : strlen [97, 98, 0] = 2 := by decide
  have h2 : strlen [99, 100, 0] = 2 := by decide
  simp only [es_compute_digest_2, hk, ne_eq, not_true_eq_false, ↓reduceIte, h1, h2,
    gt_iff_lt, lt_self_iff_false, es_min, Nat.cast_ofNat, Int.toNat_ofNat, hx]

/-- C7 (equal-length XOR law): for every kind and all strings `a`, `b` of equal
length the code returns what `es_compute_digest_1` returns for the empty string,
whatever `a` and `b` are. With equal lengths both `destination_data` and
`source_data` are copies of `data_2` (lines 132 to 137), the XOR loop zeroes the
copy, and the digest of `a XOR b` is not what is computed. -/
theorem es_compute_digest_2_equal_length (gl : GLib) (digest_type : Int)
    (a b : List Nat) (hlen : strlen a = strlen b) :
    es_compute_digest_2 gl digest_type (some a) (some b)
      = es_compute_digest_1 gl digest_type (some [0]) := by
  by_cases hk : es_validate_digest_type digest_type = ES_SUCCESS
  · simp only [es_compute_digest_2, hk, ne_eq, not_true_eq_false, ↓reduceIte, hlen,
      gt_iff_lt, lt_self_iff_false, es_min, Int.toNat_ofNat]
    apply es_compute_digest_1_congr
    rw [show cstr [0] = [] from rfl]
    apply cstr_xor_loop_self
    by_cases hb : cstr b = []
    · exact Or.inl hb
    · right
      unfold strlen
      exact Nat.pos_of_ne_zero (fun h0 => hb (List.length_eq_zero.mp h0))
  · simp [es_compute_digest_2, es_compute_digest_1, hk]

/-- C7 on the strings "a" and "b" with SHA-512, at the sample GLib. -/
theorem es_compute_digest_2_equal_length_witness :
    es_compute_digest_2 sample_glib ES_SHA512_DIGEST (some [97, 0]) (some [98, 0])
      = es_compute_digest_1 sample_glib ES_SHA512_DIGEST (some [0]) :=
  es_compute_digest_2_equal_length sample_glib ES_SHA512_DIGEST [97, 0] [98, 0] (by decide)

/-- C8 (unsupported kind is rejected): for every kind other than MD5, SHA-1,
SHA-256 and SHA-512 and every input, `NULL` included, `es_validate_digest_type`
returns `ES_FAILURE` and `es_compute_digest_1` and `es_compute_digest_2` return
`ES_FAILURE` without producing a digest; for each of the four kinds
`es_validate_digest_type` returns `ES_SUCCESS`. -/
theorem es_compute_digest_unsupported_kind (gl : GLib) (digest_type : Int)
    (data data_1 data_2 : Option (List Nat))
    (hk : digest_type ≠ ES_MD5_DIGEST ∧ digest_type ≠ ES_SHA1_DIGEST
      ∧ digest_type ≠ ES_SHA256_DIGEST ∧ digest_type ≠ ES_SHA512_DIGEST) :
    (es_validate_digest_type digest_type = ES_FAILURE
      ∧ es_compute_digest_1 gl digest_type data = none
      ∧ es_compute_digest_2 gl digest_type data_1 data_2 = none)
    ∧ (es_validate_digest_type ES_MD5_DIGEST = ES_SUCCESS
      ∧ es_validate_digest_type ES_SHA1_DIGEST = ES_SUCCESS
      ∧ es_validate_digest_type ES_SHA256_DIGEST = ES_SUCCESS
      ∧ es_validate_digest_type ES_SHA512_DIGEST = ES_SUCCESS) := by
  have hv : es_validate_digest_type digest_type = ES_FAILURE := by
    unfold es_validate_digest_type
    rw [if_neg]
    rintro (h | h | h | h)
    · exact hk.1 h
    · exact hk.2.1 h
    · exact hk.2.2.1 h
    · exact hk.2.2.2 h
  have hne : ES_FAILURE ≠ ES_SUCCESS := by decide
  refine ⟨⟨hv, ?_, ?_⟩, by decide, by decide, by decide, by decide⟩
  · unfold es_compute_digest_1
    rw [hv, if_pos hne]
  · unfold es_compute_digest_2
    rw [hv, if_pos hne]

/-- C8 at kind 4 (GLib's SHA-384, which the code does not list), input "abcdefg". -/
theorem es_compute_digest_unsupported_kind_witness :
    es_validate_digest_type 4 = ES_FAILURE
      ∧ es_compute_digest_1 sample_glib 4 (some str_abcdefg) = none
      ∧ es_compute_digest_2 sample_glib 4 (some str_abcdefg) (some str_AAAA) = none :=
  (es_compute_digest_unsupported_kind sample_glib 4 (some str_abcdefg)
    (some str_abcdefg) (some str_AAAA) (by decide)).1

/-- C9, refuted: with SHA-512 at the sample GLib, `es_compute_digest_1` succeeds
on the empty string, and `es_compute_digest_2` succeeds when its first input, its
second input or both are the empty string (the zeroed content of a fresh block
among them). -/
theorem es_compute_digest_accepts_empty :
    es_compute_digest_1 sample_glib ES_SHA512_DIGEST (some [0])
        = some (List.replicate 16 104 ++ [0])
      ∧ es_compute_digest_2 sample_glib ES_SHA512_DIGEST
          (some (fresh_block 8 0).content) (some str_abcdefg)
        = some ([98, 99, 100, 101, 102, 103, 104] ++ List.replicate 16 104 ++ [0])
      ∧ es_compute_digest_2 sample_glib ES_SHA512_DIGEST (some str_abcdefg) (some [0])
        = some ([98, 99, 100, 101, 102, 103, 104] ++ List.replicate 16 104 ++ [0])
      ∧ es_compute_digest_2 sample_glib ES_SHA512_DIGEST (some [0]) (some [0])
        = some (List.replicate 16 104 ++ [0]) := by
  refine ⟨by decide, by decide, by decide, by decide⟩

/-- C9, amended: for every supported kind, the inputs the wrappers reject are
`NULL` pointers. When the checksum can be created, `es_compute_digest_1`
succeeds on an empty string `e` with the digest string of the empty input, and
`es_compute_digest_2` succeeds when either input is the empty string, with the
digest string of the other input. -/
theorem es_compute_digest_empty_input (gl : GLib) (digest_type : Int) (e d : List Nat)
    (hk : es_validate_digest_type digest_type = ES_SUCCESS)
    (hnew : gl.checksum_new_ok digest_type = true) (he : strlen e = 0) :
    (es_compute_digest_1 gl digest_type none = none
      ∧ es_compute_digest_2 gl digest_type none (some d) = none
      ∧ es_compute_digest_2 gl digest_type (some d) none = none)
    ∧ es_compute_digest_1 gl digest_type (some e)
        = some (strdup (gl.checksum_string digest_type []))
    ∧ es_compute_digest_2 gl digest_type (some e) (some d)
        = some (strdup (gl.checksum_string digest_type (cstr d)))
    ∧ es_compute_digest_2 gl digest_type (some d) (some e)
        = some (strdup (gl.checksum_string digest_type (cstr d))) := by
  have hce : cstr e = [] := List.length_eq_zero.mp he
  refine ⟨⟨?_, ?_, ?_⟩, ?_, ?_, ?_⟩
  · simp [es_compute_digest_1]
  · simp [es_compute_digest_2]
  · simp [es_compute_digest_2]
  · rw [es_compute_digest_1_some gl digest_type e hk hnew, hce]
  · simp only [es_compute_digest_2, hk, ne_eq, not_true_eq_false, ↓reduceIte, he]
    rw [es_min_toNat_of_zero_left, xor_loop_zero, es_compute_digest_1_some gl _ _ hk hnew]
    have hnot : ¬ (((0 : Nat) : Int) > (strlen d : Int)) := by omega
    rw [if_neg hnot, cstr_strdup]
  · simp only [es_compute_digest_2, hk, ne_eq, not_true_eq_false, ↓reduceIte, he]
    rw [es_min_toNat_of_zero_right, xor_loop_zero, es_compute_digest_1_some gl _ _ hk hnew]
    by_cases hd : ((strlen d : Nat) : Int) > ((0 : Nat) : Int)
    · rw [if_pos hd, cstr_strdup]
    · rw [if_neg hd, cstr_strdup, hce]
      have hd0 : strlen d = 0 := by omega
      rw [List.length_eq_zero.mp hd0]

/-- C9 amended, with SHA-512 at the sample GLib: the empty string is the zeroed
content of a fresh block, the other input is "abcdefg". -/
theorem es_compute_digest_empty_input_witness :
    es_compute_digest_1 sample_glib ES_SHA512_DIGEST none = none
      ∧ es_compute_digest_1 sample_glib ES_SHA512_DIGEST (some (fresh_block 8 0).content)
          = some (strdup (sample_glib.checksum_string ES_SHA512_DIGEST []))
      ∧ es_compute_digest_2 sample_glib ES_SHA512_DIGEST (some (fresh_block 8 0).content)
            (some str_abcdefg)
          = some (strdup (sample_glib.checksum_string ES_SHA512_DIGEST (cstr str_abcdefg))) := by
  have h := es_compute_digest_empty_input sample_glib ES_SHA512_DIGEST
    (fresh_block 8 0).content str_abcdefg (by decide) (by decide) (by decide)
  exact ⟨h.1.1, h.2.1, h.2.2.1⟩

/-! ## Failure of the hash step -/

/-- C10, refuted: with a GLib in which no checksum can be created the hash step
fails, the update returns `ES_FAILURE`, and the staging array still holds the
bytes read; shown on a block staging "AAAA" updated with "BB" and on the fresh
block of scenario S1 updated with "abcdefg". -/
theorem es_update_hash_failure_keeps_staging :
    es_update_entropy_block_content failing_glib (staged_AAAA_block 0) (some [66, 66, 0])
        = (.hash_failed,
            staging_block 0 [65, 65, 65, 0, 66, 66, 0, 0, 0, 0, 0, 0, 0, 0, 0, 0])
      ∧ es_update_entropy_block_content failing_glib (fresh_block 8 0) (some str_abcdefg)
        = (.hash_failed,
            { fresh_block 8 0 with buffer := [97, 98, 99, 100, 101, 102, 103, 0] })
      ∧ UpdateOutcome.hash_failed.status = ES_FAILURE
      ∧ ¬ (∀ x ∈ [97, 98, 99, 100, 101, 102, 103, 0], x = 0) := by
  refine ⟨by decide!, by decide!, by decide, by decide⟩

/-- C10, amended: for every block and input, when the update returns
`ES_FAILURE` because `es_compute_digest_2` failed, the content array, the state,
the threshold and the size are those before the call, and the staging array is
the one the append step (lines 351 to 354) produced; nothing is zeroed. -/
theorem es_update_hash_failure_frame (gl : GLib) (b b' : es_entropy_block)
    (data : Option (List Nat))
    (h : es_update_entropy_block_content gl b data = (.hash_failed, b')) :
    UpdateOutcome.hash_failed.status = ES_FAILURE
      ∧ ∃ content, data = some content
        ∧ es_compute_digest_2 gl b.digest_type (some b.content)
            (some (es_update_buffer b content)) = none
        ∧ b'.buffer = es_update_buffer b content
        ∧ b'.content = b.content ∧ b'.state = b.state
        ∧ b'.threshold = b.threshold ∧ b'.size = b.size := by
  refine ⟨rfl, ?_⟩
  rcases es_update_cases gl b data with h1 | ⟨c, _, _, _, h2⟩ |
    ⟨c, hc, _, _, hd, h3⟩ | ⟨c, d, _, _, _, _, h4⟩
  · rw [h1] at h; cases h
  · rw [h2] at h; cases h
  · rw [h3] at h; cases h
    exact ⟨c, hc, hd, rfl, rfl, rfl, rfl, rfl⟩
  · rw [h4] at h; cases h

/-- C10 amended, on the block staging "AAAA" updated with "BB". -/
theorem es_update_hash_failure_frame_witness :
    ∃ content, some [66, 66, 0] = some content
      ∧ es_compute_digest_2 failing_glib (staged_AAAA_block 0).digest_type
          (some (staged_AAAA_block 0).content)
          (some (es_update_buffer (staged_AAAA_block 0) content)) = none
      ∧ (staging_block 0 [65, 65, 65, 0, 66, 66, 0, 0, 0, 0, 0, 0, 0, 0, 0, 0]).buffer
          = es_update_buffer (staged_AAAA_block 0) content
      ∧ (staging_block 0 [65, 65, 65, 0, 66, 66, 0, 0, 0, 0, 0, 0, 0, 0, 0, 0]).content
          = (staged_AAAA_block 0).content
      ∧ (staging_block 0 [65, 65, 65, 0, 66, 66, 0, 0, 0, 0, 0, 0, 0, 0, 0, 0]).state
          = (staged_AAAA_block 0).state
      ∧ (staging_block 0 [65, 65, 65, 0, 66, 66, 0, 0, 0, 0, 0, 0, 0, 0, 0, 0]).threshold
          = (staged_AAAA_block 0).threshold
      ∧ (staging_block 0 [65, 65, 65, 0, 66, 66, 0, 0, 0, 0, 0, 0, 0, 0, 0, 0]).size
          = (staged_AAAA_block 0).size :=
  (es_update_hash_failure_frame failing_glib (staged_AAAA_block 0)
    (staging_block 0 [65, 65, 65, 0, 66, 66, 0, 0, 0, 0, 0, 0, 0, 0, 0, 0])
    (some [66, 66, 0]) (by decide!)).2


/-! ## Construction of blocks and pools -/

theorem es_create_entropy_block_some (env : AllocEnv) (size alloc_type : Int)
    (b : es_entropy_block) (h : es_create_entropy_block env size alloc_type = some b) :
    0 < size ∧ (alloc_type = ES_NORMAL_ALLOC ∨ alloc_type = ES_CLEAN_ALLOC)
      ∧ b.size = size ∧ b.state = ES_DIRTY_BLOCK_STATE ∧ b.threshold = 0
      ∧ b.digest_type = ES_SHA512_DIGEST
      ∧ b.content.length = size.toNat ∧ b.buffer.length = size.toNat
      ∧ (alloc_type = ES_CLEAN_ALLOC →
          b.content = List.replicate size.toNat 0 ∧ b.buffer = List.replicate size.toNat 0) := by
  unfold es_create_entropy_block at h
  by_cases hs : size ≤ 0
  · simp [hs] at h
  · by_cases hv : env.es_validate_alloc_type alloc_type = ES_SUCCESS
    · simp only [hs, ↓reduceIte, hv, ne_eq, not_true_eq_false, es_alloc_entropy_block,
        es_alloc_entropy_array, es_init_entropy_block] at h
      have hne : ¬ ES_CLEAN_ALLOC = ES_NORMAL_ALLOC := by decide
      by_cases hn : alloc_type = ES_NORMAL_ALLOC
      · simp only [hn, ↓reduceIte, Option.some.injEq] at h
        subst h
        refine ⟨by omega, Or.inl hn, rfl, rfl, rfl, rfl, by simp, by simp, ?_⟩
        intro hc
        rw [hn] at hc
        exact absurd hc.symm hne
      · by_cases hc : alloc_type = ES_CLEAN_ALLOC
        · simp only [hc, hne, ↓reduceIte, Option.some.injEq] at h
          subst h
          refine ⟨by omega, Or.inr hc, rfl, rfl, rfl, rfl, by simp, by simp, ?_⟩
          intro _
          exact ⟨rfl, rfl⟩
        · simp [hn, hc] at h
    · simp [hs, hv] at h

theorem es_alloc_entropy_pool_loop_some (env : AllocEnv) (block_size alloc_type : Int)
    (b₀ : es_entropy_block)
    (hb : es_create_entropy_block env block_size alloc_type = some b₀) :
    ∀ (n : Nat) (i : Int) (pool : es_entropy_pool),
      es_alloc_entropy_pool_loop env block_size alloc_type n i pool
        = some
            { pool with
              blocks := pool.blocks ++ List.replicate n (some b₀)
              dirty_queue :=
                { queue := pool.dirty_queue.queue
                    ++ (List.range n).map (fun (k : Nat) => i + (k : Int)) } } := by
  intro n
  induction n with
  | zero =>
    intro i pool
    simp [es_alloc_entropy_pool_loop]
  | succ n ih =>
    intro i pool
    simp only [es_alloc_entropy_pool_loop, hb, es_push_queue, es_validate_queue, ne_eq,
      not_true_eq_false, ↓reduceIte, ih]
    congr 2
    · simp [List.replicate_succ]
    · simp only [List.range_succ_eq_map, List.map_cons, List.map_map, List.append_assoc,
        List.singleton_append, Nat.cast_zero, add_zero, es_queue.mk.injEq,
        List.append_cancel_left_eq, List.cons.injEq, true_and]
      apply List.map_congr_left
      intro k _
      simp only [Function.comp_apply, Nat.cast_succ]
      omega

/-- C12 (constructors refuse wrong sizes): `es_create_entropy_pool` returns no
pool when `pool_size <= 0` or `block_size <= 0`, `es_create_entropy_block`
returns no block when `size <= 0`, and `es_init_entropy_block` and
`es_init_entropy_pool` return `ES_FAILURE` for `size <= 0` and leave their
argument as it was. -/
theorem es_constructors_refuse_sizes (env : AllocEnv)
    (pool_size block_size size alloc_type : Int) (block : es_entropy_block)
    (pool : es_entropy_pool) (hp : pool_size ≤ 0 ∨ block_size ≤ 0) (hs : size ≤ 0) :
    es_create_entropy_pool env pool_size block_size alloc_type = none
      ∧ es_create_entropy_block env size alloc_type = none
      ∧ es_init_entropy_block block size = (ES_FAILURE, block)
      ∧ es_init_entropy_pool pool size = (ES_FAILURE, pool) := by
  refine ⟨?_, ?_, ?_, ?_⟩
  · unfold es_create_entropy_pool
    rcases hp with hp | hp
    · rw [if_pos hp]
    · by_cases h1 : pool_size ≤ 0
      · rw [if_pos h1]
      · rw [if_neg h1, if_pos hp]
  · unfold es_create_entropy_block
    rw [if_pos hs]
  · unfold es_init_entropy_block
    rw [if_pos hs]
  · unfold es_init_entropy_pool
    rw [if_pos hs]

/-- C12 at pool size 0, block size 8 and size -1. -/
theorem es_constructors_refuse_sizes_witness :
    es_create_entropy_pool sample_alloc_env 0 8 ES_CLEAN_ALLOC = none
      ∧ es_create_entropy_block sample_alloc_env (-1) ES_CLEAN_ALLOC = none
      ∧ es_init_entropy_block (fresh_block 8 50) (-1) = (ES_FAILURE, fresh_block 8 50)
      ∧ es_init_entropy_pool (fresh_pool 2 8) (-1) = (ES_FAILURE, fresh_pool 2 8) :=
  es_constructors_refuse_sizes sample_alloc_env 0 8 (-1) ES_CLEAN_ALLOC (fresh_block 8 50)
    (fresh_pool 2 8) (by decide) (by decide)

/-- C11, refuted: with `ES_NORMAL_ALLOC`, an alloc type the sample environment
validates, the arrays of the blocks come from `malloc` and hold what the memory
held; the pool of one block of size 2 is returned with content and staging
170, 170. -/
theorem es_create_entropy_pool_normal_alloc :
    sample_alloc_env.es_validate_alloc_type ES_NORMAL_ALLOC = ES_SUCCESS
      ∧ es_create_entropy_pool sample_alloc_env 1 2 ES_NORMAL_ALLOC
        = some
            { size := 1
              blocks :=
                [some
                  { size := 2
                    content := [170, 170]
                    buffer := [170, 170]
                    state := ES_DIRTY_BLOCK_STATE
                    threshold := 0
                    digest_type := ES_SHA512_DIGEST }]
              dirty_queue := { queue := [0] }
              clean_queue := { queue := [] } } := by
  refine ⟨by decide, by decide!⟩

theorem es_create_entropy_pool_some (env : AllocEnv)
    (pool_size block_size alloc_type : Int) (pool : es_entropy_pool)
    (h : es_create_entropy_pool env pool_size block_size alloc_type = some pool) :
    (0 < pool_size ∧ 0 < block_size
        ∧ (alloc_type = ES_NORMAL_ALLOC ∨ alloc_type = ES_CLEAN_ALLOC))
      ∧ pool.size = pool_size
      ∧ pool.dirty_queue.queue = pool_indices pool_size.toNat
      ∧ pool.clean_queue.queue = []
      ∧ pool.blocks.length = pool_size.toNat
      ∧ ∀ entry ∈ pool.blocks, ∃ b, entry = some b
          ∧ b.size = block_size ∧ b.state = ES_DIRTY_BLOCK_STATE ∧ b.threshold = 0
          ∧ b.digest_type = ES_SHA512_DIGEST
          ∧ b.content.length = block_size.toNat ∧ b.buffer.length = block_size.toNat
          ∧ (alloc_type = ES_CLEAN_ALLOC →
              (∀ x ∈ b.content, x = 0) ∧ ∀ x ∈ b.buffer, x = 0) := by
  unfold es_create_entropy_pool at h
  by_cases hp : pool_size ≤ 0
  · simp [hp] at h
  by_cases hbs : block_size ≤ 0
  · simp [hp, hbs] at h
  by_cases hv : env.es_validate_alloc_type alloc_type = ES_SUCCESS
  swap
  · simp [hp, hbs, hv] at h
  simp only [hp, hbs, hv, ↓reduceIte, ne_eq, not_true_eq_false, es_alloc_entropy_pool,
    es_init_entropy_pool] at h
  cases hb : es_create_entropy_block env block_size alloc_type with
  | none =>
    obtain ⟨m, hm⟩ : ∃ m, pool_size.toNat = m + 1 := ⟨pool_size.toNat - 1, by omega⟩
    rw [hm] at h
    simp [es_alloc_entropy_pool_loop, hb] at h
  | some b₀ =>
    rw [es_alloc_entropy_pool_loop_some env block_size alloc_type b₀ hb] at h
    simp only [es_create_queue, List.nil_append, zero_add, Option.some.injEq] at h
    obtain ⟨_, hat, h1, h2, h3, h4, h5, h6, h7⟩ :=
      es_create_entropy_block_some env block_size alloc_type b₀ hb
    subst h
    refine ⟨⟨by omega, by omega, hat⟩, rfl, ?_, rfl, by simp, ?_⟩
    · simp only [pool_indices]
      apply List.map_congr_left
      intro k _
      simp
    · intro entry hentry
      simp only [List.mem_replicate] at hentry
      refine ⟨b₀, hentry.2, h1, h2, h3, h4, h5, h6, ?_⟩
      intro hc
      obtain ⟨hc1, hc2⟩ := h7 hc
      rw [hc1, hc2]
      exact ⟨fun x hx => (List.mem_replicate.mp hx).2, fun x hx => (List.mem_replicate.mp hx).2⟩

/-- C11, amended: a pool returned by `es_create_entropy_pool` was asked for with
positive sizes and alloc type `ES_NORMAL_ALLOC` or `ES_CLEAN_ALLOC`; it has
`size = pool_size`, the dirty queue holds `0, 1, ..., pool_size - 1` in ascending
order, the clean queue is empty, and every block has `size = block_size`, state
DIRTY, threshold 0, digest kind SHA-512 and two arrays of `block_size` bytes.
With `ES_CLEAN_ALLOC` content and staging are all zero. -/
theorem es_create_entropy_pool_initial (env : AllocEnv)
    (pool_size block_size alloc_type : Int) (pool : es_entropy_pool)
    (h : es_create_entropy_pool env pool_size block_size alloc_type = some pool) :
    (0 < pool_size ∧ 0 < block_size
        ∧ (alloc_type = ES_NORMAL_ALLOC ∨ alloc_type = ES_CLEAN_ALLOC))
      ∧ pool.size = pool_size
      ∧ pool.dirty_queue.queue = pool_indices pool_size.toNat
      ∧ pool.clean_queue.queue = []
      ∧ pool.blocks.length = pool_size.toNat
      ∧ ∀ entry ∈ pool.blocks, ∃ b, entry = some b
          ∧ b.size = block_size ∧ b.state = ES_DIRTY_BLOCK_STATE ∧ b.threshold = 0
          ∧ b.digest_type = ES_SHA512_DIGEST
          ∧ b.content.length = block_size.toNat ∧ b.buffer.length = block_size.toNat
          ∧ (alloc_type = ES_CLEAN_ALLOC →
              (∀ x ∈ b.content, x = 0) ∧ ∀ x ∈ b.buffer, x = 0) := by
  obtain ⟨hargs, hsize, hdirty, hclean, hlen, hblocks⟩ :=
    es_create_entropy_pool_some env pool_size block_size alloc_type pool h
  refine ⟨hargs, hsize, hdirty, hclean, hlen, ?_⟩
  intro entry hentry
  exact hblocks entry hentry

/-- C11 amended, on the pool the entropy server asks for, here with 2 blocks of
size 3 and `ES_CLEAN_ALLOC`. -/
theorem es_create_entropy_pool_initial_witness :
    es_create_entropy_pool sample_alloc_env 2 3 ES_CLEAN_ALLOC = some (fresh_pool 2 3)
      ∧ (fresh_pool 2 3).size = 2
      ∧ (fresh_pool 2 3).dirty_queue.queue = pool_indices (2 : Int).toNat
      ∧ (fresh_pool 2 3).clean_queue.queue = [] := by
  have h := es_create_entropy_pool_initial sample_alloc_env 2 3 ES_CLEAN_ALLOC
    (fresh_pool 2 3) (by decide!)
  exact ⟨by decide!, h.2.1, h.2.2.1, h.2.2.2.1⟩

/-! ## The queues of the pool -/

theorem es_get_entropy_block_index_clean (pool : es_entropy_pool)
    (hv : es_validate_entropy_pool pool = ES_SUCCESS) :
    es_get_entropy_block_index pool ES_CLEAN_BLOCK_STATE
      = match pool.clean_queue.queue with
        | [] => (none, pool)
        | i :: rest => (some i, { pool with clean_queue := { queue := rest } }) := by
  unfold es_get_entropy_block_index
  cases hq : pool.clean_queue.queue with
  | nil =>
    simp [hv, es_check_queue_is_empty, es_validate_queue, hq, TRUE, FALSE, c_not]
  | cons i rest =>
    simp [hv, es_check_queue_is_empty, es_validate_queue, hq, TRUE, FALSE, c_not,
      es_pop_queue]

theorem es_get_entropy_block_index_dirty (pool : es_entropy_pool)
    (hv : es_validate_entropy_pool pool = ES_SUCCESS) :
    es_get_entropy_block_index pool ES_DIRTY_BLOCK_STATE
      = match pool.dirty_queue.queue with
        | [] => (none, pool)
        | i :: rest => (some i, { pool with dirty_queue := { queue := rest } }) := by
  have hne : ¬ ES_DIRTY_BLOCK_STATE = ES_CLEAN_BLOCK_STATE := by decide
  unfold es_get_entropy_block_index
  cases hq : pool.dirty_queue.queue with
  | nil =>
    simp [hv, hne, es_check_queue_is_empty, es_validate_queue, hq, TRUE, FALSE, c_not]
  | cons i rest =>
    simp [hv, hne, es_check_queue_is_empty, es_validate_queue, hq, TRUE, FALSE, c_not,
      es_pop_queue]

/-- C13 (take_dirty / take_clean): for every pool that passes
`es_validate_entropy_pool`, `es_get_dirty_entropy_block_index` returns no index
exactly when the dirty queue is empty, and then the pool is unchanged; otherwise
it returns the head of the dirty queue and the pool differs only in that the
dirty queue is its former tail. The same holds for
`es_get_clean_entropy_block_index` and the clean queue. -/
theorem es_get_entropy_block_index_take (pool : es_entropy_pool)
    (hv : es_validate_entropy_pool pool = ES_SUCCESS) :
    (((es_get_dirty_entropy_block_index pool).1 = none ↔ pool.dirty_queue.queue = [])
      ∧ (pool.dirty_queue.queue = [] → es_get_dirty_entropy_block_index pool = (none, pool))
      ∧ ∀ i rest, pool.dirty_queue.queue = i :: rest →
          es_get_dirty_entropy_block_index pool
            = (some i, { pool with dirty_queue := { queue := rest } }))
    ∧ (((es_get_clean_entropy_block_index pool).1 = none ↔ pool.clean_queue.queue = [])
      ∧ (pool.clean_queue.queue = [] → es_get_clean_entropy_block_index pool = (none, pool))
      ∧ ∀ i rest, pool.clean_queue.queue = i :: rest →
          es_get_clean_entropy_block_index pool
            = (some i, { pool with clean_queue := { queue := rest } })) := by
  unfold es_get_dirty_entropy_block_index es_get_clean_entropy_block_index
  rw [es_get_entropy_block_index_dirty pool hv, es_get_entropy_block_index_clean pool hv]
  refine ⟨⟨?_, ?_, ?_⟩, ?_, ?_, ?_⟩
  · cases pool.dirty_queue.queue <;> simp
  · intro h; rw [h]
  · intro i rest h; rw [h]
  · cases pool.clean_queue.queue <;> simp
  · intro h; rw [h]
  · intro i rest h; rw [h]

/-- C13 on a fresh pool of two blocks: the dirty queue holds 0 and 1, the clean
queue is empty. -/
theorem es_get_entropy_block_index_take_witness :
    es_get_dirty_entropy_block_index (fresh_pool 2 8)
        = (some 0, { fresh_pool 2 8 with dirty_queue := { queue := [1] } })
      ∧ es_get_clean_entropy_block_index (fresh_pool 2 8) = (none, fresh_pool 2 8) :=
  ⟨(es_get_entropy_block_index_take (fresh_pool 2 8) (by decide)).1.2.2 0 [1] (by decide),
    (es_get_entropy_block_index_take (fresh_pool 2 8) (by decide)).2.2.1 (by decide)⟩

theorem es_push_queue_all_queue (xs : List Int) :
    ∀ queue : es_queue, (es_push_queue_all queue xs).queue = queue.queue ++ xs := by
  induction xs with
  | nil => intro queue; simp [es_push_queue_all]
  | cons x xs ih =>
    intro queue
    rw [es_push_queue_all, ih]
    simp [es_push_queue, es_validate_queue]

theorem es_get_entropy_block_index_repeat_clean (l : List Int) :
    ∀ pool : es_entropy_pool, es_validate_entropy_pool pool = ES_SUCCESS →
      pool.clean_queue.queue = l →
      es_get_entropy_block_index_repeat ES_CLEAN_BLOCK_STATE l.length pool
        = (l.map some, { pool with clean_queue := { queue := [] } }) := by
  induction l with
  | nil =>
    intro pool _ hq
    cases pool with
    | mk size blocks dq cq =>
      cases cq
      simp only at hq
      subst hq
      rfl
  | cons i rest ih =>
    intro pool hv hq
    have hstep := es_get_entropy_block_index_clean pool hv
    rw [hq] at hstep
    simp only [List.length_cons, es_get_entropy_block_index_repeat, hstep, List.map_cons]
    rw [ih { pool with clean_queue := { queue := rest } } hv rfl]

theorem es_get_entropy_block_index_repeat_dirty (l : List Int) :
    ∀ pool : es_entropy_pool, es_validate_entropy_pool pool = ES_SUCCESS →
      pool.dirty_queue.queue = l →
      es_get_entropy_block_index_repeat ES_DIRTY_BLOCK_STATE l.length pool
        = (l.map some, { pool with dirty_queue := { queue := [] } }) := by
  induction l with
  | nil =>
    intro pool _ hq
    cases pool with
    | mk size blocks dq cq =>
      cases dq
      simp only at hq
      subst hq
      rfl
  | cons i rest ih =>
    intro pool hv hq
    have hstep := es_get_entropy_block_index_dirty pool hv
    rw [hq] at hstep
    simp only [List.length_cons, es_get_entropy_block_index_repeat, hstep, List.map_cons]
    rw [ih { pool with dirty_queue := { queue := rest } } hv rfl]

/-- C14 (FIFO order per queue): for every pool that passes
`es_validate_entropy_pool` and every sequence of indices pushed on the clean
queue by `es_push_queue`, one after the other, the queue is the former queue
followed by the pushed indices, and as many successive calls of
`es_get_clean_entropy_block_index` as the queue has elements return first the
indices already queued and then the pushed ones in the order of the pushes,
leaving the clean queue empty and the rest of the pool as it was. The same holds
for the dirty queue and `es_get_dirty_entropy_block_index`. -/
theorem es_queue_fifo (pool : es_entropy_pool) (returned : List Int)
    (hv : es_validate_entropy_pool pool = ES_SUCCESS) :
    (es_get_entropy_block_index_repeat ES_CLEAN_BLOCK_STATE
        (pool.clean_queue.queue.length + returned.length)
        { pool with clean_queue := es_push_queue_all pool.clean_queue returned }
      = ((pool.clean_queue.queue ++ returned).map some,
          { pool with clean_queue := { queue := [] } }))
    ∧ (es_get_entropy_block_index_repeat ES_DIRTY_BLOCK_STATE
        (pool.dirty_queue.queue.length + returned.length)
        { pool with dirty_queue := es_push_queue_all pool.dirty_queue returned }
      = ((pool.dirty_queue.queue ++ returned).map some,
          { pool with dirty_queue := { queue := [] } })) := by
  constructor
  · have h := es_get_entropy_block_index_repeat_clean (pool.clean_queue.queue ++ returned)
      { pool with clean_queue := es_push_queue_all pool.clean_queue returned } hv
      (es_push_queue_all_queue returned pool.clean_queue)
    rw [List.length_append] at h
    exact h
  · have h := es_get_entropy_block_index_repeat_dirty (pool.dirty_queue.queue ++ returned)
      { pool with dirty_queue := es_push_queue_all pool.dirty_queue returned } hv
      (es_push_queue_all_queue returned pool.dirty_queue)
    rw [List.length_append] at h
    exact h

/-- C14 on a pool of four blocks whose clean queue holds 2, with 0 and then 3
returned to it. -/
theorem es_queue_fifo_witness :
    es_get_entropy_block_index_repeat ES_CLEAN_BLOCK_STATE 3
        { fresh_pool 4 8 with
          dirty_queue := { queue := [1] }
          clean_queue := es_push_queue_all { queue := [2] } [0, 3] }
      = ([some 2, some 0, some 3],
          { fresh_pool 4 8 with
            dirty_queue := { queue := [1] }
            clean_queue := { queue := [] } }) :=
  (es_queue_fifo
    { fresh_pool 4 8 with dirty_queue := { queue := [1] }, clean_queue := { queue := [2] } }
    [0, 3] (by decide)).1

/-! ## Blocks of the pool -/

theorem set_block_queues (pool : es_entropy_pool) (i : Int)
    (v : Option es_entropy_block) :
    (pool.set_block i v).dirty_queue = pool.dirty_queue
      ∧ (pool.set_block i v).clean_queue = pool.clean_queue
      ∧ (pool.set_block i v).size = pool.size
      ∧ (pool.set_block i v).blocks.length = pool.blocks.length := by
  unfold es_entropy_pool.set_block
  split
  · exact ⟨rfl, rfl, rfl, by simp⟩
  · exact ⟨rfl, rfl, rfl, rfl⟩

theorem block_at_set_block_self (pool : es_entropy_pool) (i : Int)
    (b : es_entropy_block) (v : Option es_entropy_block)
    (hb : pool.block_at i = some b) : (pool.set_block i v).block_at i = v := by
  unfold es_entropy_pool.block_at at hb ⊢
  unfold es_entropy_pool.set_block
  by_cases hi : 0 ≤ i
  · simp only [hi, ↓reduceIte] at hb ⊢
    have hlt : i.toNat < pool.blocks.length := by
      by_contra hge
      rw [List.getElem?_eq_none (by omega)] at hb
      simp at hb
    rw [List.getElem?_set_self hlt]
    rfl
  · simp [hi] at hb

theorem block_at_set_block_ne (pool : es_entropy_pool) (i j : Int)
    (v : Option es_entropy_block) (hij : i ≠ j) :
    (pool.set_block i v).block_at j = pool.block_at j := by
  unfold es_entropy_pool.block_at es_entropy_pool.set_block
  by_cases hi : 0 ≤ i
  · by_cases hj : 0 ≤ j
    · simp only [hi, hj, ↓reduceIte]
      rw [List.getElem?_set_ne (by omega)]
    · simp [hj]
  · simp [hi]

/-! ## Dispatch -/

theorem es_consume_entropy_block_eq (extract : ExtractFn) (pool : es_entropy_pool)
    (i : Int) (rest : List Int)
    (hv : es_validate_entropy_pool pool = ES_SUCCESS)
    (hq : pool.clean_queue.queue = i :: rest) :
    es_consume_entropy_block extract pool
      = es_consume_entropy_block_at extract
          { pool with clean_queue := { queue := rest } } i := by
  have hstep := es_get_entropy_block_index_clean pool hv
  rw [hq] at hstep
  unfold es_consume_entropy_block es_get_clean_entropy_block_index
  rw [hstep]
  simp [hv]

theorem es_consume_entropy_block_some (extract : ExtractFn) (pool : es_entropy_pool)
    (i : Int) (rest : List Int) (block : es_entropy_block)
    (hv : es_validate_entropy_pool pool = ES_SUCCESS)
    (hq : pool.clean_queue.queue = i :: rest) (hb : pool.block_at i = some block) :
    ∃ pool', es_consume_entropy_block extract pool
        = some ((extract block).1, (extract block).2.1, pool')
      ∧ pool'.clean_queue.queue = rest
      ∧ ((extract block).1 = ES_SUCCESS →
          pool'.dirty_queue.queue = pool.dirty_queue.queue ++ [i])
      ∧ ((extract block).1 ≠ ES_SUCCESS →
          pool'.dirty_queue.queue = pool.dirty_queue.queue
            ∧ (i ∉ rest → i ∉ pool.dirty_queue.queue →
                i ∉ pool'.clean_queue.queue ∧ i ∉ pool'.dirty_queue.queue)) := by
  rw [es_consume_entropy_block_eq extract pool i rest hv hq]
  have hb' : ({ pool with clean_queue := { queue := rest } } : es_entropy_pool).block_at i
      = some block := hb
  unfold es_consume_entropy_block_at
  rw [hb']
  by_cases hs : (extract block).1 = ES_SUCCESS
  · simp only [hs, ne_eq, not_true_eq_false, ↓reduceIte]
    refine ⟨_, rfl, ?_, ?_, ?_⟩
    · exact congrArg es_queue.queue (set_block_queues _ i _).2.1
    · intro _
      simp [es_push_queue, es_validate_queue]
    · intro h
      exact False.elim h
  · simp only [ne_eq, hs, not_false_eq_true, ↓reduceIte]
    have hc := congrArg es_queue.queue
      (set_block_queues { pool with clean_queue := { queue := rest } } i none).2.1
    have hd := congrArg es_queue.queue
      (set_block_queues { pool with clean_queue := { queue := rest } } i none).1
    refine ⟨_, rfl, hc, ?_, ?_⟩
    · intro h
      exact False.elim h
    · intro _
      refine ⟨hd, ?_⟩
      intro h1 h2
      rw [hc, hd]
      exact ⟨h1, h2⟩

/-- C17 (dispatch returns the index to the dirty population): for every pool that
passes `es_validate_entropy_pool` and whose clean queue has head `i`, with
`blocks[i]` a live block, `es_consume_entropy_block` returns the status of the
extract on that block, and afterwards the clean queue is its former tail; when
the extract succeeded the dirty queue is the former one with `i` appended at the
tail, when it failed the dirty queue is unchanged, so that `i` is in neither
queue if it was not queued a second time. -/
theorem es_consume_entropy_block_queues (extract : ExtractFn) (pool : es_entropy_pool)
    (i : Int) (rest : List Int) (block : es_entropy_block)
    (hv : es_validate_entropy_pool pool = ES_SUCCESS)
    (hq : pool.clean_queue.queue = i :: rest) (hb : pool.block_at i = some block) :
    ∃ pool', es_consume_entropy_block extract pool
        = some ((extract block).1, (extract block).2.1, pool')
      ∧ pool'.clean_queue.queue = rest
      ∧ ((extract block).1 = ES_SUCCESS →
          pool'.dirty_queue.queue = pool.dirty_queue.queue ++ [i])
      ∧ ((extract block).1 ≠ ES_SUCCESS →
          pool'.dirty_queue.queue = pool.dirty_queue.queue
            ∧ (i ∉ rest → i ∉ pool.dirty_queue.queue →
                i ∉ pool'.clean_queue.queue ∧ i ∉ pool'.dirty_queue.queue)) := by
  obtain ⟨pool', hret, hclean, hok, hfail⟩ :=
    es_consume_entropy_block_some extract pool i rest block hv hq hb
  exact ⟨pool', hret, hclean, fun hs => hok hs, fun hs => hfail hs⟩

/-- C17 on a pool of two blocks with block 1 CLEAN and queued, and the extract
of the specification: the dispatch succeeds and index 1 goes to the tail of the
dirty queue. -/
theorem es_consume_entropy_block_queues_witness :
    ∃ pool', es_consume_entropy_block es_request_entropy_block_content
          { fresh_pool 2 8 with
            blocks := [some (fresh_block 8 0), some S1_block_after]
            dirty_queue := { queue := [0] }
            clean_queue := { queue := [1] } }
        = some (ES_SUCCESS, some S1_block_after.content, pool')
      ∧ pool'.clean_queue.queue = []
      ∧ pool'.dirty_queue.queue = [0, 1] := by
  obtain ⟨pool', h1, h2, h3, _⟩ := es_consume_entropy_block_queues
    es_request_entropy_block_content
    { fresh_pool 2 8 with
      blocks := [some (fresh_block 8 0), some S1_block_after]
      dirty_queue := { queue := [0] }
      clean_queue := { queue := [1] } }
    1 [] S1_block_after (by decide) (by decide) (by decide!)
  exact ⟨pool', h1, h2, h3 (by decide)⟩

/-! ## The worker threads: index conservation and state-queue correspondence -/

theorem count_pool_indices (n : Nat) (index : Int) :
    (pool_indices n).count index = if 0 ≤ index ∧ index < (n : Int) then 1 else 0 := by
  have hnd : (pool_indices n).Nodup := by
    unfold pool_indices
    exact (List.nodup_range n).map (fun a b h => Int.ofNat.inj h)
  rw [List.count_eq_of_nodup hnd]
  have hmem : index ∈ pool_indices n ↔ (0 ≤ index ∧ index < (n : Int)) := by
    unfold pool_indices
    simp only [List.mem_map, List.mem_range]
    constructor
    · rintro ⟨k, hk, rfl⟩
      exact ⟨Int.ofNat_nonneg k, Int.ofNat_lt.mpr hk⟩
    · rintro ⟨h0, h1⟩
      exact ⟨index.toNat, by omega, by simp [Int.toNat_of_nonneg h0]⟩
  by_cases h : 0 ≤ index ∧ index < (n : Int)
  · rw [if_pos h, if_pos (hmem.mpr h)]
  · rw [if_neg h, if_neg (fun hm => h (hmem.mp hm))]

theorem es_update_state (gl : GLib) (b : es_entropy_block) (data : Option (List Nat)) :
    (es_update_entropy_block_content gl b data).2.state = b.state
      ∨ (es_update_entropy_block_content gl b data).2.state = ES_CLEAN_BLOCK_STATE := by
  rcases es_update_cases gl b data with h1 | ⟨c, _, _, _, h2⟩ |
    ⟨c, _, _, _, _, h3⟩ | ⟨c, d, _, _, _, _, h4⟩
  · rw [h1]; exact Or.inl rfl
  · rw [h2]; exact Or.inl rfl
  · rw [h3]; exact Or.inl rfl
  · rw [h4]; exact Or.inr rfl

theorem es_clean_entropy_block_loop_success (gl : GLib)
    (readings : List (Option (List Nat))) :
    ∀ (block block' : es_entropy_block),
      es_clean_entropy_block_loop gl readings block = some (ES_SUCCESS, block') →
      block'.state ≠ ES_DIRTY_BLOCK_STATE
        ∧ (block'.state = block.state ∨ block'.state = ES_CLEAN_BLOCK_STATE) := by
  have hne : ES_FAILURE ≠ ES_SUCCESS := by decide
  induction readings with
  | nil =>
    intro block block' h
    unfold es_clean_entropy_block_loop at h
    by_cases hd : block.state = ES_DIRTY_BLOCK_STATE
    · simp [hd] at h
    · simp only [hd, ↓reduceIte, Option.some.injEq, Prod.mk.injEq, true_and] at h
      subst h
      exact ⟨hd, Or.inl rfl⟩
  | cons reading rest ih =>
    intro block block' h
    unfold es_clean_entropy_block_loop at h
    by_cases hd : block.state = ES_DIRTY_BLOCK_STATE
    · simp only [hd, ↓reduceIte] at h
      cases reading with
      | none =>
        simp only [Option.some.injEq, Prod.mk.injEq] at h
        exact absurd h.1 hne
      | some buffer =>
        simp only at h
        by_cases hs : (es_update_entropy_block_content gl block (some buffer)).1.status
            = ES_SUCCESS
        · simp only [hs, ne_eq, not_true_eq_false, ↓reduceIte] at h
          obtain ⟨h1, h2⟩ := ih _ _ h
          refine ⟨h1, ?_⟩
          rcases h2 with h2 | h2
          · rcases es_update_state gl block (some buffer) with h3 | h3
            · exact Or.inl (h2.trans h3)
            · exact Or.inr (h2.trans h3)
          · exact Or.inr h2
        · simp only [ne_eq, hs, not_false_eq_true, ↓reduceIte, Option.some.injEq,
            Prod.mk.injEq] at h
          exact absurd h.1 hne
    · simp only [hd, ↓reduceIte, Option.some.injEq, Prod.mk.injEq, true_and] at h
      subst h
      exact ⟨hd, Or.inl rfl⟩

theorem es_clean_entropy_pool_at_cases (gl : GLib) (readings : List (Option (List Nat)))
    (pool pool' : es_entropy_pool) (i ret : Int)
    (h : es_clean_entropy_pool_at gl readings pool i = some (ret, pool')) :
    pool'.dirty_queue = pool.dirty_queue ∧ pool'.size = pool.size
      ∧ (∀ j, j ≠ i → pool'.block_at j = pool.block_at j)
      ∧ ((ret ≠ ES_SUCCESS ∧ pool'.clean_queue = pool.clean_queue)
        ∨ (ret = ES_SUCCESS ∧ pool'.clean_queue.queue = pool.clean_queue.queue ++ [i]
            ∧ ∃ b b', pool.block_at i = some b ∧ pool'.block_at i = some b'
              ∧ b'.state ≠ ES_DIRTY_BLOCK_STATE
              ∧ (b'.state = b.state ∨ b'.state = ES_CLEAN_BLOCK_STATE))) := by
  have hne : ES_FAILURE ≠ ES_SUCCESS := by decide
  unfold es_clean_entropy_pool_at es_clean_entropy_block at h
  by_cases hi : i < 0
  · simp only [hi, ↓reduceIte, ne_eq, hne, not_false_eq_true, Option.some.injEq,
      Prod.mk.injEq] at h
    obtain ⟨hr, hp⟩ := h
    subst hp
    subst hr
    obtain ⟨q1, q2, q3, _⟩ := set_block_queues pool i none
    exact ⟨q1, q3, fun j hj => block_at_set_block_ne pool i j none (Ne.symm hj),
      Or.inl ⟨hne, q2⟩⟩
  · simp only [hi, ↓reduceIte] at h
    cases hb : pool.block_at i with
    | none => simp [hb] at h
    | some b =>
      simp only [hb] at h
      cases hl : es_clean_entropy_block_loop gl readings b with
      | none => simp [hl] at h
      | some r =>
        obtain ⟨ret₁, b'⟩ := r
        simp only [hl] at h
        obtain ⟨q1, q2, q3, _⟩ := set_block_queues pool i (some b')
        by_cases hs : ret₁ = ES_SUCCESS
        · simp only [hs, ne_eq, not_true_eq_false, ↓reduceIte, Option.some.injEq,
            Prod.mk.injEq] at h
          obtain ⟨hr, hp⟩ := h
          subst hp
          subst hr
          subst hs
          obtain ⟨l1, l2⟩ := es_clean_entropy_block_loop_success gl readings b b' hl
          refine ⟨q1, q3, fun j hj => block_at_set_block_ne pool i j _ (Ne.symm hj),
            Or.inr ⟨rfl, ?_, b, b', rfl, block_at_set_block_self pool i b _ hb, l1, l2⟩⟩
          simp [es_push_queue, es_validate_queue, q2]
        · simp only [ne_eq, hs, not_false_eq_true, ↓reduceIte, Option.some.injEq,
            Prod.mk.injEq] at h
          obtain ⟨hr, hp⟩ := h
          subst hp
          subst hr
          obtain ⟨r1, r2, r3, _⟩ := set_block_queues (pool.set_block i (some b')) i none
          refine ⟨r1.trans q1, r3.trans q3, ?_, Or.inl ⟨hs, r2.trans q2⟩⟩
          intro j hj
          rw [block_at_set_block_ne _ i j none (Ne.symm hj),
            block_at_set_block_ne _ i j _ (Ne.symm hj)]

theorem es_consume_entropy_block_at_cases (extract : ExtractFn)
    (pool pool' : es_entropy_pool) (i status : Int) (content : Option (List Nat))
    (h : es_consume_entropy_block_at extract pool i = some (status, content, pool')) :
    pool'.clean_queue = pool.clean_queue ∧ pool'.size = pool.size
      ∧ (∀ j, j ≠ i → pool'.block_at j = pool.block_at j)
      ∧ ((status ≠ ES_SUCCESS ∧ pool'.dirty_queue = pool.dirty_queue)
        ∨ (status = ES_SUCCESS ∧ pool'.dirty_queue.queue = pool.dirty_queue.queue ++ [i]
            ∧ ∃ b, pool.block_at i = some b ∧ (extract b).1 = ES_SUCCESS
              ∧ pool'.block_at i = some (extract b).2.2)) := by
  unfold es_consume_entropy_block_at at h
  cases hb : pool.block_at i with
  | none => simp [hb] at h
  | some b =>
    simp only [hb] at h
    by_cases hs : (extract b).1 = ES_SUCCESS
    · simp only [hs, ne_eq, not_true_eq_false, ↓reduceIte, Option.some.injEq,
        Prod.mk.injEq] at h
      obtain ⟨hr, _, hp⟩ := h
      subst hp
      subst hr
      obtain ⟨q1, q2, q3, _⟩ := set_block_queues pool i (some (extract b).2.2)
      refine ⟨q2, q3, fun j hj => block_at_set_block_ne pool i j _ (Ne.symm hj),
        Or.inr ⟨rfl, ?_, b, rfl, hs, block_at_set_block_self pool i b _ hb⟩⟩
      simp [es_push_queue, es_validate_queue]
    · simp only [ne_eq, hs, not_false_eq_true, ↓reduceIte, Option.some.injEq,
        Prod.mk.injEq] at h
      obtain ⟨hr, _, hp⟩ := h
      subst hp
      subst hr
      obtain ⟨q1, q2, q3, _⟩ := set_block_queues pool i none
      exact ⟨q2, q3, fun j hj => block_at_set_block_ne pool i j _ (Ne.symm hj),
        Or.inl ⟨hs, q1⟩⟩

theorem block_at_congr_blocks (p q : es_entropy_pool) (h : q.blocks = p.blocks) (j : Int) :
    q.block_at j = p.block_at j := by
  unfold es_entropy_pool.block_at
  rw [h]

theorem es_validate_entropy_pool_congr (p q : es_entropy_pool) (h : q.size = p.size) :
    es_validate_entropy_pool q = es_validate_entropy_pool p := by
  unfold es_validate_entropy_pool es_validate_queue
  rw [h]

theorem count_pos_of_mem (l : List Int) (i : Int) (h : i ∈ l) : 1 ≤ l.count i :=
  List.count_pos_iff.mpr h

theorem worker_step_invariant (gl : GLib) (extract : ExtractFn) (n : Nat)
    (hx : ∀ b, (extract b).1 = ES_SUCCESS → (extract b).2.2.state = ES_DIRTY_BLOCK_STATE)
    (s s' : PoolSystem) (a : WorkerAction) (hinv : s.Invariant n)
    (h : worker_step gl extract s a = some s') : s'.Invariant n := by
  obtain ⟨hv, hocc, hclean, hdirty, hrefill⟩ := hinv
  have hle : ∀ index : Int, s.occurrences index ≤ 1 := by
    intro index
    rw [hocc index]
    split <;> omega
  cases a with
  | take_dirty =>
    simp only [worker_step, es_get_dirty_entropy_block_index] at h
    rw [es_get_entropy_block_index_dirty s.pool hv] at h
    cases hq : s.pool.dirty_queue.queue with
    | nil =>
      simp only [hq, Option.some.injEq] at h
      subst h
      exact ⟨hv, hocc, hclean, hdirty, hrefill⟩
    | cons i rest =>
      simp only [hq, Option.some.injEq] at h
      subst h
      refine ⟨hv, ?_, hclean, ?_, ?_⟩
      · intro index
        have := hocc index
        simp only [PoolSystem.occurrences, hq, List.count_cons] at this ⊢
        omega
      · intro j hj
        exact hdirty j (by rw [hq]; exact List.mem_cons_of_mem _ hj)
      · intro j hj
        rcases List.mem_cons.mp hj with hj | hj
        · subst hj
          exact hdirty j (by rw [hq]; exact List.mem_cons_self _ _)
        · exact hrefill j hj
  | take_clean =>
    simp only [worker_step, es_get_clean_entropy_block_index] at h
    rw [es_get_entropy_block_index_clean s.pool hv] at h
    cases hq : s.pool.clean_queue.queue with
    | nil =>
      simp only [hq, Option.some.injEq] at h
      subst h
      exact ⟨hv, hocc, hclean, hdirty, hrefill⟩
    | cons i rest =>
      simp only [hq, Option.some.injEq] at h
      subst h
      refine ⟨hv, ?_, ?_, hdirty, hrefill⟩
      · intro index
        have := hocc index
        simp only [PoolSystem.occurrences, hq, List.count_cons] at this ⊢
        omega
      · intro j hj
        exact hclean j (by rw [hq]; exact List.mem_cons_of_mem _ hj)
  | refill i readings =>
    simp only [worker_step] at h
    by_cases hi : i ∈ s.refilling
    swap
    · simp [hi] at h
    simp only [hi, ↓reduceIte] at h
    cases hr : es_clean_entropy_pool_at gl readings s.pool i with
    | none => simp [hr] at h
    | some r =>
      obtain ⟨ret, pool'⟩ := r
      simp only [hr] at h
      obtain ⟨c1, c2, c3, c4⟩ := es_clean_entropy_pool_at_cases gl readings s.pool pool' i ret hr
      have hv' : es_validate_entropy_pool pool' = ES_SUCCESS :=
        (es_validate_entropy_pool_congr s.pool pool' c2).trans hv
      have hcnt := count_pos_of_mem s.refilling i hi
      have hnot : ∀ j, (j ∈ s.pool.clean_queue.queue ∨ j ∈ s.pool.dirty_queue.queue
          ∨ j ∈ s.refilling.erase i) → j ≠ i := by
        intro j hj hji
        subst hji
        have hb := hle j
        simp only [PoolSystem.occurrences] at hb
        rcases hj with hj | hj | hj
        · have := count_pos_of_mem _ j hj
          omega
        · have := count_pos_of_mem _ j hj
          omega
        · have := count_pos_of_mem _ j hj
          rw [List.count_erase_self] at this
          omega
      rcases c4 with ⟨hf, c5⟩ | ⟨hs, c5, b, b', hb, hb', hst1, hst2⟩
      · simp only [ne_eq, hf, not_false_eq_true, ↓reduceIte, Option.some.injEq] at h
        subst h
        refine ⟨hv', ?_, ?_, ?_, ?_⟩
        · intro index
          have := hocc index
          simp only [PoolSystem.occurrences, c1, c5, List.count_cons, List.count_erase,
            beq_iff_eq] at this ⊢
          by_cases hii : index = i
          · subst hii
            simp only [↓reduceIte] at this ⊢
            omega
          · have hii' : ¬ i = index := fun e => hii e.symm
            simp only [hii, hii', ↓reduceIte] at this ⊢
            omega
        · intro j hj
          simp only [c5] at hj
          rw [c3 j (hnot j (Or.inl hj))]
          exact hclean j hj
        · intro j hj
          simp only [c1] at hj
          rw [c3 j (hnot j (Or.inr (Or.inl hj)))]
          exact hdirty j hj
        · intro j hj
          rw [c3 j (hnot j (Or.inr (Or.inr hj)))]
          exact hrefill j (List.mem_of_mem_erase hj)
      · simp only [hs, ne_eq, not_true_eq_false, ↓reduceIte, Option.some.injEq] at h
        subst h
        refine ⟨hv', ?_, ?_, ?_, ?_⟩
        · intro index
          have := hocc index
          simp only [PoolSystem.occurrences, c1, c5, List.count_append, List.count_cons,
            List.count_nil, List.count_erase, beq_iff_eq] at this ⊢
          by_cases hii : index = i
          · subst hii
            simp only [↓reduceIte] at this ⊢
            omega
          · have hii' : ¬ i = index := fun e => hii e.symm
            simp only [hii, hii', ↓reduceIte] at this ⊢
            omega
        · intro j hj
          simp only [c5, List.mem_append, List.mem_singleton] at hj
          rcases hj with hj | hj
          · rw [c3 j (hnot j (Or.inl hj))]
            exact hclean j hj
          · subst hj
            obtain ⟨b₀, hb₀, hd₀⟩ := hrefill j hi
            rw [hb] at hb₀
            cases hb₀
            refine ⟨b', hb', ?_⟩
            rcases hst2 with hst2 | hst2
            · exact absurd (hst2.trans hd₀) hst1
            · exact hst2
        · intro j hj
          simp only [c1] at hj
          rw [c3 j (hnot j (Or.inr (Or.inl hj)))]
          exact hdirty j hj
        · intro j hj
          rw [c3 j (hnot j (Or.inr (Or.inr hj)))]
          exact hrefill j (List.mem_of_mem_erase hj)
  | dispatch i =>
    simp only [worker_step] at h
    by_cases hi : i ∈ s.dispatching
    swap
    · simp [hi] at h
    simp only [hi, ↓reduceIte] at h
    cases hr : es_consume_entropy_block_at extract s.pool i with
    | none => simp [hr] at h
    | some r =>
      obtain ⟨status, content, pool'⟩ := r
      simp only [hr] at h
      obtain ⟨c1, c2, c3, c4⟩ :=
        es_consume_entropy_block_at_cases extract s.pool pool' i status content hr
      have hv' : es_validate_entropy_pool pool' = ES_SUCCESS :=
        (es_validate_entropy_pool_congr s.pool pool' c2).trans hv
      have hcnt := count_pos_of_mem s.dispatching i hi
      have hnot : ∀ j, (j ∈ s.pool.clean_queue.queue ∨ j ∈ s.pool.dirty_queue.queue
          ∨ j ∈ s.refilling) → j ≠ i := by
        intro j hj hji
        subst hji
        have hb := hle j
        simp only [PoolSystem.occurrences] at hb
        rcases hj with hj | hj | hj
        · have := count_pos_of_mem _ j hj
          omega
        · have := count_pos_of_mem _ j hj
          omega
        · have := count_pos_of_mem _ j hj
          omega
      rcases c4 with ⟨hf, c5⟩ | ⟨hs, c5, b, hb, hsb, hb'⟩
      · simp only [ne_eq, hf, not_false_eq_true, ↓reduceIte, Option.some.injEq] at h
        subst h
        refine ⟨hv', ?_, ?_, ?_, ?_⟩
        · intro index
          have := hocc index
          simp only [PoolSystem.occurrences, c1, c5, List.count_cons, List.count_erase,
            beq_iff_eq] at this ⊢
          by_cases hii : index = i
          · subst hii
            simp only [↓reduceIte] at this ⊢
            omega
          · have hii' : ¬ i = index := fun e => hii e.symm
            simp only [hii, hii', ↓reduceIte] at this ⊢
            omega
        · intro j hj
          simp only [c1] at hj
          rw [c3 j (hnot j (Or.inl hj))]
          exact hclean j hj
        · intro j hj
          simp only [c5] at hj
          rw [c3 j (hnot j (Or.inr (Or.inl hj)))]
          exact hdirty j hj
        · intro j hj
          rw [c3 j (hnot j (Or.inr (Or.inr hj)))]
          exact hrefill j hj
      · simp only [hs, ne_eq, not_true_eq_false, ↓reduceIte, Option.some.injEq] at h
        subst h
        refine ⟨hv', ?_, ?_, ?_, ?_⟩
        · intro index
          have := hocc index
          simp only [PoolSystem.occurrences, c1, c5, List.count_append, List.count_cons,
            List.count_nil, List.count_erase, beq_iff_eq] at this ⊢
          by_cases hii : index = i
          · subst hii
            simp only [↓reduceIte] at this ⊢
            omega
          · have hii' : ¬ i = index := fun e => hii e.symm
            simp only [hii, hii', ↓reduceIte] at this ⊢
            omega
        · intro j hj
          simp only [c1] at hj
          rw [c3 j (hnot j (Or.inl hj))]
          exact hclean j hj
        · intro j hj
          simp only [c5, List.mem_append, List.mem_singleton] at hj
          rcases hj with hj | hj
          · rw [c3 j (hnot j (Or.inr (Or.inl hj)))]
            exact hdirty j hj
          · subst hj
            exact ⟨_, hb', hx b hsb⟩
        · intro j hj
          rw [c3 j (hnot j (Or.inr (Or.inr hj)))]
          exact hrefill j hj

theorem worker_step_occurrences (gl : GLib) (extract : ExtractFn) (s s' : PoolSystem)
    (a : WorkerAction) (h : worker_step gl extract s a = some s') :
    ∀ index : Int, s'.occurrences index = s.occurrences index := by
  intro index
  cases a with
  | take_dirty =>
    simp only [worker_step, es_get_dirty_entropy_block_index] at h
    by_cases hv : es_validate_entropy_pool s.pool = ES_SUCCESS
    · rw [es_get_entropy_block_index_dirty s.pool hv] at h
      cases hq : s.pool.dirty_queue.queue with
      | nil =>
        simp only [hq, Option.some.injEq] at h
        subst h
        rfl
      | cons i rest =>
        simp only [hq, Option.some.injEq] at h
        subst h
        simp only [PoolSystem.occurrences, hq, List.count_cons]
        omega
    · simp only [es_get_entropy_block_index, ne_eq, hv, not_false_eq_true, ↓reduceIte,
        Option.some.injEq] at h
      subst h
      rfl
  | take_clean =>
    simp only [worker_step, es_get_clean_entropy_block_index] at h
    by_cases hv : es_validate_entropy_pool s.pool = ES_SUCCESS
    · rw [es_get_entropy_block_index_clean s.pool hv] at h
      cases hq : s.pool.clean_queue.queue with
      | nil =>
        simp only [hq, Option.some.injEq] at h
        subst h
        rfl
      | cons i rest =>
        simp only [hq, Option.some.injEq] at h
        subst h
        simp only [PoolSystem.occurrences, hq, List.count_cons]
        omega
    · simp only [es_get_entropy_block_index, ne_eq, hv, not_false_eq_true, ↓reduceIte,
        Option.some.injEq] at h
      subst h
      rfl
  | refill i readings =>
    simp only [worker_step] at h
    by_cases hi : i ∈ s.refilling
    swap
    · simp [hi] at h
    simp only [hi, ↓reduceIte] at h
    cases hr : es_clean_entropy_pool_at gl readings s.pool i with
    | none => simp [hr] at h
    | some r =>
      obtain ⟨ret, pool'⟩ := r
      simp only [hr] at h
      obtain ⟨c1, _, _, c4⟩ := es_clean_entropy_pool_at_cases gl readings s.pool pool' i ret hr
      have hcnt := count_pos_of_mem s.refilling i hi
      rcases c4 with ⟨hf, c5⟩ | ⟨hs, c5, _⟩
      · simp only [ne_eq, hf, not_false_eq_true, ↓reduceIte, Option.some.injEq] at h
        subst h
        simp only [PoolSystem.occurrences, c1, c5, List.count_cons, List.count_erase,
          beq_iff_eq]
        by_cases hii : index = i
        · subst hii
          simp only [↓reduceIte]
          omega
        · have hii' : ¬ i = index := fun e => hii e.symm
          simp only [hii, hii', ↓reduceIte]
          omega
      · simp only [hs, ne_eq, not_true_eq_false, ↓reduceIte, Option.some.injEq] at h
        subst h
        simp only [PoolSystem.occurrences, c1, c5, List.count_append, List.count_cons,
          List.count_nil, List.count_erase, beq_iff_eq]
        by_cases hii : index = i
        · subst hii
          simp only [↓reduceIte]
          omega
        · have hii' : ¬ i = index := fun e => hii e.symm
          simp only [hii, hii', ↓reduceIte]
          omega
  | dispatch i =>
    simp only [worker_step] at h
    by_cases hi : i ∈ s.dispatching
    swap
    · simp [hi] at h
    simp only [hi, ↓reduceIte] at h
    cases hr : es_consume_entropy_block_at extract s.pool i with
    | none => simp [hr] at h
    | some r =>
      obtain ⟨status, content, pool'⟩ := r
      simp only [hr] at h
      obtain ⟨c1, _, _, c4⟩ :=
        es_consume_entropy_block_at_cases extract s.pool pool' i status content hr
      have hcnt := count_pos_of_mem s.dispatching i hi
      rcases c4 with ⟨hf, c5⟩ | ⟨hs, c5, _⟩
      · simp only [ne_eq, hf, not_false_eq_true, ↓reduceIte, Option.some.injEq] at h
        subst h
        simp only [PoolSystem.occurrences, c1, c5, List.count_cons, List.count_erase,
          beq_iff_eq]
        by_cases hii : index = i
        · subst hii
          simp only [↓reduceIte]
          omega
        · have hii' : ¬ i = index := fun e => hii e.symm
          simp only [hii, hii', ↓reduceIte]
          omega
      · simp only [hs, ne_eq, not_true_eq_false, ↓reduceIte, Option.some.injEq] at h
        subst h
        simp only [PoolSystem.occurrences, c1, c5, List.count_append, List.count_cons,
          List.count_nil, List.count_erase, beq_iff_eq]
        by_cases hii : index = i
        · subst hii
          simp only [↓reduceIte]
          omega
        · have hii' : ¬ i = index := fun e => hii e.symm
          simp only [hii, hii', ↓reduceIte]
          omega

theorem worker_step_lost (gl : GLib) (extract : ExtractFn) (s s' : PoolSystem)
    (a : WorkerAction) (h : worker_step gl extract s a = some s') :
    s'.lost = s.lost
      ∨ ∃ i, s'.lost = i :: s.lost
          ∧ ((∃ readings ret pool', a = .refill i readings
                ∧ es_clean_entropy_pool_at gl readings s.pool i = some (ret, pool')
                ∧ ret ≠ ES_SUCCESS)
            ∨ (a = .dispatch i
                ∧ ∃ status content pool',
                    es_consume_entropy_block_at extract s.pool i
                      = some (status, content, pool')
                    ∧ status ≠ ES_SUCCESS)) := by
  cases a with
  | take_dirty =>
    left
    simp only [worker_step] at h
    split at h <;> (simp only [Option.some.injEq] at h; subst h; rfl)
  | take_clean =>
    left
    simp only [worker_step] at h
    split at h <;> (simp only [Option.some.injEq] at h; subst h; rfl)
  | refill i readings =>
    simp only [worker_step] at h
    by_cases hi : i ∈ s.refilling
    swap
    · simp [hi] at h
    simp only [hi, ↓reduceIte] at h
    cases hr : es_clean_entropy_pool_at gl readings s.pool i with
    | none => simp [hr] at h
    | some r =>
      obtain ⟨ret, pool'⟩ := r
      simp only [hr] at h
      by_cases hs : ret = ES_SUCCESS
      · simp only [hs, ne_eq, not_true_eq_false, ↓reduceIte, Option.some.injEq] at h
        subst h
        exact Or.inl rfl
      · simp only [ne_eq, hs, not_false_eq_true, ↓reduceIte, Option.some.injEq] at h
        subst h
        exact Or.inr ⟨i, rfl, Or.inl ⟨readings, ret, pool', rfl, hr, hs⟩⟩
  | dispatch i =>
    simp only [worker_step] at h
    by_cases hi : i ∈ s.dispatching
    swap
    · simp [hi] at h
    simp only [hi, ↓reduceIte] at h
    cases hr : es_consume_entropy_block_at extract s.pool i with
    | none => simp [hr] at h
    | some r =>
      obtain ⟨status, content, pool'⟩ := r
      simp only [hr] at h
      by_cases hs : status = ES_SUCCESS
      · simp only [hs, ne_eq, not_true_eq_false, ↓reduceIte, Option.some.injEq] at h
        subst h
        exact Or.inl rfl
      · simp only [ne_eq, hs, not_false_eq_true, ↓reduceIte, Option.some.injEq] at h
        subst h
        exact Or.inr ⟨i, rfl, Or.inr ⟨rfl, status, content, pool', hr, hs⟩⟩

theorem run_workers_occurrences (gl : GLib) (extract : ExtractFn)
    (actions : List WorkerAction) :
    ∀ s s' : PoolSystem, run_workers gl extract s actions = some s' →
      (∀ index : Int, s'.occurrences index = s.occurrences index)
        ∧ ∀ i ∈ s.lost, i ∈ s'.lost := by
  induction actions with
  | nil =>
    intro s s' h
    simp only [run_workers, Option.some.injEq] at h
    subst h
    exact ⟨fun _ => rfl, fun _ hi => hi⟩
  | cons a rest ih =>
    intro s s' h
    simp only [run_workers] at h
    cases hs : worker_step gl extract s a with
    | none => simp [hs] at h
    | some s₁ =>
      simp only [hs] at h
      obtain ⟨h1, h2⟩ := ih s₁ s' h
      refine ⟨fun index => (h1 index).trans (worker_step_occurrences gl extract s s₁ a hs index),
        ?_⟩
      intro i hi
      apply h2
      rcases worker_step_lost gl extract s s₁ a hs with hl | ⟨j, hl, _⟩
      · rw [hl]; exact hi
      · rw [hl]; exact List.mem_cons_of_mem _ hi

theorem run_workers_invariant (gl : GLib) (extract : ExtractFn) (n : Nat)
    (hx : ∀ b, (extract b).1 = ES_SUCCESS → (extract b).2.2.state = ES_DIRTY_BLOCK_STATE)
    (actions : List WorkerAction) :
    ∀ s s' : PoolSystem, s.Invariant n → run_workers gl extract s actions = some s' →
      s'.Invariant n := by
  induction actions with
  | nil =>
    intro s s' hinv h
    simp only [run_workers, Option.some.injEq] at h
    subst h
    exact hinv
  | cons a rest ih =>
    intro s s' hinv h
    simp only [run_workers] at h
    cases hs : worker_step gl extract s a with
    | none => simp [hs] at h
    | some s₁ =>
      simp only [hs] at h
      exact ih s₁ s' (worker_step_invariant gl extract n hx s s₁ a hinv hs) h

theorem initial_system_invariant (env : AllocEnv) (pool_size block_size alloc_type : Int)
    (pool : es_entropy_pool)
    (hc : es_create_entropy_pool env pool_size block_size alloc_type = some pool) :
    (initial_system pool).Invariant pool_size.toNat := by
  obtain ⟨⟨hp, _, _⟩, h1, h2, h3, h4, h5⟩ :=
    es_create_entropy_pool_some env pool_size block_size alloc_type pool hc
  refine ⟨?_, ?_, ?_, ?_, ?_⟩
  · show es_validate_entropy_pool pool = ES_SUCCESS
    unfold es_validate_entropy_pool es_validate_queue
    have : ¬ pool.size ≤ 0 := by omega
    simp [this]
  · intro index
    show (initial_system pool).occurrences index = _
    simp only [PoolSystem.occurrences, initial_system, h2, h3, List.count_nil, add_zero]
    exact count_pool_indices _ index
  · intro i hi
    simp only [initial_system, h3] at hi
    exact absurd hi (List.not_mem_nil i)
  · intro i hi
    simp only [initial_system, h2, pool_indices, List.mem_map, List.mem_range] at hi
    obtain ⟨k, hk, rfl⟩ := hi
    have hlt : k < pool.blocks.length := by omega
    obtain ⟨b, hb, _, hst, _⟩ := h5 (pool.blocks[k]) (List.getElem_mem hlt)
    refine ⟨b, ?_, hst⟩
    show (initial_system pool).pool.block_at (Int.ofNat k) = some b
    unfold es_entropy_pool.block_at
    simp only [initial_system, Int.ofNat_eq_coe, Nat.cast_nonneg, ↓reduceIte, Int.toNat_ofNat]
    rw [List.getElem?_eq_getElem hlt, hb]
    rfl
  · intro i hi
    exact absurd hi (List.not_mem_nil i)

theorem es_request_entropy_block_content_state (b : es_entropy_block)
    (h : (es_request_entropy_block_content b).1 = ES_SUCCESS) :
    (es_request_entropy_block_content b).2.2.state = ES_DIRTY_BLOCK_STATE := by
  unfold es_request_entropy_block_content at h ⊢
  by_cases hs : b.state = ES_CLEAN_BLOCK_STATE
  · simp [hs]
  · simp only [ne_eq, hs, not_false_eq_true, ↓reduceIte] at h
    exact absurd h (by decide)

theorem occurrences_length (s : PoolSystem) (n : Nat)
    (h : ∀ index : Int, s.occurrences index = if 0 ≤ index ∧ index < (n : Int) then 1 else 0) :
    s.pool.dirty_queue.queue.length + s.pool.clean_queue.queue.length
      + s.refilling.length + s.dispatching.length + s.lost.length = n := by
  have hperm : List.Perm
      (s.pool.dirty_queue.queue ++ s.pool.clean_queue.queue ++ s.refilling
        ++ s.dispatching ++ s.lost) (pool_indices n) := by
    rw [List.perm_iff_count]
    intro index
    rw [count_pool_indices, ← h index]
    simp only [List.count_append, PoolSystem.occurrences]
  have hlen := hperm.length_eq
  simp only [List.length_append, pool_indices, List.length_map, List.length_range] at hlen
  exact hlen

/-- C15 (index conservation): in every state reached from a pool just returned by
`es_create_entropy_pool` by any sequence of thread actions (take dirty, refill,
take clean, dispatch), every index in `[0, pool_size)` occurs exactly once among
the dirty queue, the clean queue, the indices held by threads and the lost
indices, and no other index occurs; hence the lengths of the queues and the
number of held indices add up to `pool_size` less the number of lost indices. An
action adds an index to the lost ones only when it is a refill whose
`es_clean_entropy_block` failed or a dispatch whose extract failed, and a lost
index stays lost and out of both queues in every later state. -/
theorem worker_index_conservation (env : AllocEnv) (gl : GLib) (extract : ExtractFn)
    (pool_size block_size alloc_type : Int) (pool : es_entropy_pool)
    (actions : List WorkerAction) (s : PoolSystem)
    (hc : es_create_entropy_pool env pool_size block_size alloc_type = some pool)
    (hr : run_workers gl extract (initial_system pool) actions = some s) :
    (∀ index : Int,
        s.occurrences index = if 0 ≤ index ∧ index < pool_size then 1 else 0)
      ∧ s.pool.dirty_queue.queue.length + s.pool.clean_queue.queue.length
          + (s.refilling.length + s.dispatching.length)
        = pool_size.toNat - s.lost.length
      ∧ (∀ action s', worker_step gl extract s action = some s' →
          s'.lost = s.lost
            ∨ ∃ i, s'.lost = i :: s.lost
                ∧ ((∃ readings ret pool', action = .refill i readings
                      ∧ es_clean_entropy_pool_at gl readings s.pool i = some (ret, pool')
                      ∧ ret ≠ ES_SUCCESS)
                  ∨ (action = .dispatch i
                      ∧ ∃ status content pool',
                          es_consume_entropy_block_at extract s.pool i
                            = some (status, content, pool')
                          ∧ status ≠ ES_SUCCESS)))
      ∧ ∀ more s', run_workers gl extract s more = some s' →
          ∀ i ∈ s.lost, i ∈ s'.lost ∧ i ∉ s'.pool.dirty_queue.queue
            ∧ i ∉ s'.pool.clean_queue.queue := by
  obtain ⟨⟨hp, _, _⟩, _⟩ :=
    es_create_entropy_pool_some env pool_size block_size alloc_type pool hc
  have hcast : ((pool_size.toNat : Nat) : Int) = pool_size := Int.toNat_of_nonneg (by omega)
  have hinit := (initial_system_invariant env pool_size block_size alloc_type pool hc).2.1
  have hocc : ∀ index : Int,
      s.occurrences index = if 0 ≤ index ∧ index < pool_size then 1 else 0 := by
    intro index
    rw [(run_workers_occurrences gl extract actions _ s hr).1 index, hinit index, hcast]
  refine ⟨hocc, ?_, fun action s' h => worker_step_lost gl extract s s' action h, ?_⟩
  · have hlen := occurrences_length s pool_size.toNat (by rw [hcast]; exact hocc)
    omega
  · intro more s' hmore i hi
    obtain ⟨h1, h2⟩ := run_workers_occurrences gl extract more s s' hmore
    have hmem := h2 i hi
    have hone : s'.occurrences i ≤ 1 := by
      rw [h1 i, hocc i]
      split <;> omega
    have hcnt := count_pos_of_mem _ i hmem
    simp only [PoolSystem.occurrences] at hone
    refine ⟨hmem, ?_, ?_⟩
    · intro hd
      have := count_pos_of_mem _ i hd
      omega
    · intro hcl
      have := count_pos_of_mem _ i hcl
      omega

/-- C15 on the sample run: afterwards index 0 is in the dirty queue, index 1 is
lost, and 1 + 0 + 0 = 2 - 1. -/
theorem worker_index_conservation_witness :
    run_workers sample_glib es_request_entropy_block_content
        (initial_system (fresh_pool 2 8)) sample_actions = some sample_actions_result
      ∧ (∀ index : Int, sample_actions_result.occurrences index
          = if 0 ≤ index ∧ index < 2 then 1 else 0)
      ∧ sample_actions_result.pool.dirty_queue.queue.length
          + sample_actions_result.pool.clean_queue.queue.length
          + (sample_actions_result.refilling.length
            + sample_actions_result.dispatching.length)
        = (2 : Int).toNat - sample_actions_result.lost.length := by
  have h := worker_index_conservation sample_alloc_env sample_glib
    es_request_entropy_block_content 2 8 ES_CLEAN_ALLOC (fresh_pool 2 8) sample_actions
    sample_actions_result (by decide!) (by decide!)
  exact ⟨by decide!, h.1, h.2.1⟩

theorem es_clean_entropy_block_success (gl : GLib) (readings : List (Option (List Nat)))
    (pool pool' : es_entropy_pool) (i : Int) (b : es_entropy_block)
    (hb : pool.block_at i = some b)
    (h : es_clean_entropy_block gl readings pool i = some (ES_SUCCESS, pool')) :
    ∃ b', pool'.block_at i = some b' ∧ b'.state ≠ ES_DIRTY_BLOCK_STATE
      ∧ (b'.state = b.state ∨ b'.state = ES_CLEAN_BLOCK_STATE) := by
  have hne : ES_FAILURE ≠ ES_SUCCESS := by decide
  unfold es_clean_entropy_block at h
  by_cases hi : i < 0
  · simp only [hi, ↓reduceIte, Option.some.injEq, Prod.mk.injEq] at h
    exact absurd h.1 hne
  · simp only [hi, ↓reduceIte, hb] at h
    cases hl : es_clean_entropy_block_loop gl readings b with
    | none => simp [hl] at h
    | some r =>
      obtain ⟨ret, b'⟩ := r
      simp only [hl, Option.some.injEq, Prod.mk.injEq] at h
      obtain ⟨hr, hp⟩ := h
      subst hp
      subst hr
      obtain ⟨l1, l2⟩ := es_clean_entropy_block_loop_success gl readings b b' hl
      exact ⟨b', block_at_set_block_self pool i b _ hb, l1, l2⟩

/-- C16 (state-queue correspondence): when the extract returns `ES_SUCCESS` only
with the block left DIRTY, then in every state reached from a pool just returned
by `es_create_entropy_pool` by any sequence of thread actions, every index in the
clean queue refers to a live block whose state is CLEAN and every index in the
dirty queue to a live block whose state is DIRTY. `es_clean_entropy_block`
returns `ES_SUCCESS` only with the block not DIRTY, which for a block that was
DIRTY or CLEAN means CLEAN; and an update that does not end by the mix leaves the
state as it was, so a block gets from DIRTY to CLEAN only by a mix. -/
theorem worker_state_queue_correspondence (env : AllocEnv) (gl : GLib)
    (extract : ExtractFn) (pool_size block_size alloc_type : Int) (pool : es_entropy_pool)
    (actions : List WorkerAction) (s : PoolSystem)
    (hx : ∀ b, (extract b).1 = ES_SUCCESS → (extract b).2.2.state = ES_DIRTY_BLOCK_STATE)
    (hc : es_create_entropy_pool env pool_size block_size alloc_type = some pool)
    (hr : run_workers gl extract (initial_system pool) actions = some s) :
    (∀ i ∈ s.pool.clean_queue.queue,
        ∃ b, s.pool.block_at i = some b ∧ b.state = ES_CLEAN_BLOCK_STATE)
      ∧ (∀ i ∈ s.pool.dirty_queue.queue,
        ∃ b, s.pool.block_at i = some b ∧ b.state = ES_DIRTY_BLOCK_STATE)
      ∧ (∀ readings p p' i b, p.block_at i = some b →
          es_clean_entropy_block gl readings p i = some (ES_SUCCESS, p') →
          ∃ b', p'.block_at i = some b' ∧ b'.state ≠ ES_DIRTY_BLOCK_STATE
            ∧ (b.state = ES_DIRTY_BLOCK_STATE ∨ b.state = ES_CLEAN_BLOCK_STATE →
                b'.state = ES_CLEAN_BLOCK_STATE))
      ∧ ∀ b data, (es_update_entropy_block_content gl b data).1 ≠ .mixed →
          (es_update_entropy_block_content gl b data).2.state = b.state := by
  have hinv := run_workers_invariant gl extract pool_size.toNat hx actions _ s
    (initial_system_invariant env pool_size block_size alloc_type pool hc) hr
  refine ⟨hinv.2.2.1, hinv.2.2.2.1, ?_, ?_⟩
  · intro readings p p' i b hb h
    obtain ⟨b', h1, h2, h3⟩ := es_clean_entropy_block_success gl readings p p' i b hb h
    refine ⟨b', h1, h2, ?_⟩
    intro hst
    rcases h3 with h3 | h3
    · rcases hst with hst | hst
      · exact absurd (h3.trans hst) h2
      · exact h3.trans hst
    · exact h3
  · intro b data hmix
    rcases es_update_cases gl b data with h1 | ⟨c, _, _, _, h2⟩ |
      ⟨c, _, _, _, _, h3⟩ | ⟨c, d, _, _, _, _, h4⟩
    · rw [h1]
    · rw [h2]
    · rw [h3]
    · rw [h4] at hmix
      exact absurd rfl hmix

/-- C16 after one refill of block 0 on a pool of two blocks: block 0 is queued
clean and CLEAN, block 1 is queued dirty and DIRTY. -/
theorem worker_state_queue_correspondence_witness :
    run_workers sample_glib es_request_entropy_block_content
        (initial_system (fresh_pool 2 8)) [.take_dirty, .refill 0 [some str_abcdefg]]
        = some sample_refilled_system
      ∧ (∀ i ∈ sample_refilled_system.pool.clean_queue.queue,
          ∃ b, sample_refilled_system.pool.block_at i = some b
            ∧ b.state = ES_CLEAN_BLOCK_STATE)
      ∧ (∀ i ∈ sample_refilled_system.pool.dirty_queue.queue,
          ∃ b, sample_refilled_system.pool.block_at i = some b
            ∧ b.state = ES_DIRTY_BLOCK_STATE) := by
  have h := worker_state_queue_correspondence sample_alloc_env sample_glib
    es_request_entropy_block_content 2 8 ES_CLEAN_ALLOC (fresh_pool 2 8)
    [.take_dirty, .refill 0 [some str_abcdefg]] sample_refilled_system
    es_request_entropy_block_content_state (by decide!) (by decide!)
  exact ⟨by decide!, h.1, h.2.1⟩

/-! ## The extract operation and the reply of the entropy server -/

/-- C18 (extract postcondition, round trip), on the extract modelled from the
specification: for every CLEAN block the extract succeeds and outputs the content
array, and afterwards every byte of content and of staging is zero and the state
is DIRTY; after an update that ended by the mix the extract outputs the content
that mix computed; and neither `es_update_entropy_block_content` nor the loop of
`es_clean_entropy_block` takes a CLEAN block out of state CLEAN. -/
theorem es_request_entropy_block_content_extract (gl : GLib) (b : es_entropy_block)
    (hclean : b.state = ES_CLEAN_BLOCK_STATE) :
    ((es_request_entropy_block_content b).1 = ES_SUCCESS
        ∧ (es_request_entropy_block_content b).2.1 = some b.content)
      ∧ ((∀ x ∈ (es_request_entropy_block_content b).2.2.content, x = 0)
        ∧ (∀ x ∈ (es_request_entropy_block_content b).2.2.buffer, x = 0)
        ∧ (es_request_entropy_block_content b).2.2.content.length = b.content.length
        ∧ (es_request_entropy_block_content b).2.2.buffer.length = b.buffer.length
        ∧ (es_request_entropy_block_content b).2.2.state = ES_DIRTY_BLOCK_STATE)
      ∧ (∀ b₀ data b₁, es_update_entropy_block_content gl b₀ data = (.mixed, b₁) →
          (es_request_entropy_block_content b₁).1 = ES_SUCCESS
            ∧ (es_request_entropy_block_content b₁).2.1 = some b₁.content)
      ∧ (∀ data, (es_update_entropy_block_content gl b data).2.state
          = ES_CLEAN_BLOCK_STATE)
      ∧ ∀ readings, es_clean_entropy_block_loop gl readings b = some (ES_SUCCESS, b) := by
  have hnd : ¬ ES_CLEAN_BLOCK_STATE = ES_DIRTY_BLOCK_STATE := by decide
  refine ⟨?_, ?_, ?_, ?_, ?_⟩
  · simp [es_request_entropy_block_content, hclean]
  · simp only [es_request_entropy_block_content, hclean, ne_eq, not_true_eq_false,
      ↓reduceIte, List.length_replicate, and_true, true_and]
    exact ⟨fun x hx => (List.mem_replicate.mp hx).2, fun x hx => (List.mem_replicate.mp hx).2⟩
  · intro b₀ data b₁ h
    have hst : b₁.state = ES_CLEAN_BLOCK_STATE := by
      rcases es_update_cases gl b₀ data with h1 | ⟨c, _, _, _, h2⟩ |
        ⟨c, _, _, _, _, h3⟩ | ⟨c, d, _, _, _, _, h4⟩
      · rw [h1] at h; cases h
      · rw [h2] at h; cases h
      · rw [h3] at h; cases h
      · rw [h4] at h; cases h; rfl
    simp [es_request_entropy_block_content, hst]
  · intro data
    rcases es_update_state gl b data with h | h
    · exact h.trans hclean
    · exact h
  · intro readings
    cases readings with
    | nil => simp [es_clean_entropy_block_loop, hclean, hnd]
    | cons r rest => simp [es_clean_entropy_block_loop, hclean, hnd]

/-- C18 on the block of scenario S1 after its mix. -/
theorem es_request_entropy_block_content_extract_witness :
    es_request_entropy_block_content S1_block_after
        = (ES_SUCCESS, some [98, 99, 100, 101, 102, 103, 104, 0], fresh_block 8 0)
      ∧ (es_request_entropy_block_content S1_block_after).1 = ES_SUCCESS
      ∧ (es_request_entropy_block_content S1_block_after).2.1
          = some S1_block_after.content :=
  ⟨by decide!,
    (es_request_entropy_block_content_extract sample_glib S1_block_after (by decide)).1⟩

theorem set_last_eq_take_append (c : List Nat) (hne : c ≠ []) :
    c.set (c.length - 1) 0 = c.take (c.length - 1) ++ [0] := by
  induction c with
  | nil => exact absurd rfl hne
  | cons x xs ih =>
    cases xs with
    | nil => rfl
    | cons y ys =>
      have ih2 := ih (by simp)
      simp only [List.length_cons, Nat.add_sub_cancel] at ih2 ⊢
      simp only [List.set_cons_succ, List.take_succ_cons, List.cons_append, ih2]

theorem strcpy_store_reply (out temp : List Nat) (h1 : 1 ≤ strlen temp)
    (hcap : strlen temp + 1 ≤ out.length) :
    strlen (strcpy out temp) = strlen temp
      ∧ reply_bytes (store (strcpy out temp) ((strlen (strcpy out temp) : Int) - 1) 0)
          (strlen (strcpy out temp))
        = (cstr temp).take (strlen temp - 1) ++ [0] := by
  have hne : cstr temp ≠ [] := by
    intro h
    unfold strlen at h1
    rw [h] at h1
    simp at h1
  have hcpy : strcpy out temp = cstr temp ++ 0 :: out.drop (strlen temp + 1) := by
    unfold strcpy memwrite
    simp only [List.take_zero, List.nil_append, Nat.zero_add, List.length_append,
      List.length_singleton, List.append_assoc, List.singleton_append]
    apply List.take_of_length_le
    simp only [List.length_append, List.length_cons, List.length_drop]
    unfold strlen at hcap
    omega
  have hlen : strlen (strcpy out temp) = strlen temp := by
    unfold strlen
    rw [hcpy, cstr_append_zero _ _ (cstr_ne_zero temp)]
  refine ⟨hlen, ?_⟩
  rw [hlen]
  have h0 : (0 : Int) ≤ (strlen temp : Int) - 1 := by omega
  have ht : ((strlen temp : Int) - 1).toNat = strlen temp - 1 := by omega
  unfold reply_bytes store
  simp only [h0, ↓reduceIte, ht, Int.toNat_ofNat]
  rw [hcpy, List.set_append]
  have hlt : strlen temp - 1 < (cstr temp).length := by
    unfold strlen at h1 ⊢
    omega
  simp only [hlt, ↓reduceIte]
  have hs : (cstr temp).set (strlen temp - 1) 0
      = (cstr temp).take (strlen temp - 1) ++ [0] := set_last_eq_take_append _ hne
  rw [hs, List.take_append_eq_append_take]
  have hl2 : ((cstr temp).take (strlen temp - 1) ++ [0]).length = strlen temp := by
    simp only [List.length_append, List.length_take, List.length_singleton]
    unfold strlen at h1 ⊢
    omega
  rw [List.take_of_length_le (le_of_eq hl2), hl2, Nat.sub_self, List.take_zero,
    List.append_nil]

theorem process_request_eq (extract : ExtractFn) (pool : es_entropy_pool) (i : Int)
    (rest : List Int) (block block' : es_entropy_block) (temp out_buff : List Nat)
    (n₀ : Int)
    (hv : es_validate_entropy_pool pool = ES_SUCCESS)
    (hq : pool.clean_queue.queue = i :: rest) (hb : pool.block_at i = some block)
    (hx : extract block = (ES_SUCCESS, some temp, block'))
    (h1 : 1 ≤ strlen temp) (hcap : strlen temp + 1 ≤ out_buff.length) :
    ∃ out pool', process_request extract pool out_buff n₀
        = some (ES_SUCCESS, out, (strlen temp : Int), pool')
      ∧ reply_bytes out (strlen temp) = (cstr temp).take (strlen temp - 1) ++ [0] := by
  obtain ⟨pool', hcons, -⟩ :=
    es_consume_entropy_block_some extract pool i rest block hv hq hb
  rw [hx] at hcons
  obtain ⟨hl, hr⟩ := strcpy_store_reply out_buff temp h1 hcap
  refine ⟨store (strcpy out_buff temp) ((strlen (strcpy out_buff temp) : Int) - 1) 0,
    pool', ?_, ?_⟩
  · unfold process_request
    rw [hcons]
    simp only [ne_eq, not_true_eq_false, ↓reduceIte, hl]
  · rw [hl] at hr ⊢
    exact hr

/-- C19 (reply length and terminator): for every pool that passes
`es_validate_entropy_pool` and whose clean queue has at its head a live block of
size `S >= 2` whose content is a string of `S - 1` bytes, when the extract
succeeds with a copy of that string and `out_buff` has room for `S` bytes,
`process_request` returns `ES_SUCCESS`, reports the length `S - 1`, and the
`S - 1` bytes it hands to the writer end in a zero byte. -/
theorem process_request_reply_length (extract : ExtractFn) (pool : es_entropy_pool)
    (i : Int) (rest : List Int) (block block' : es_entropy_block)
    (temp out_buff : List Nat) (n₀ : Int) (S : Nat)
    (hv : es_validate_entropy_pool pool = ES_SUCCESS)
    (hq : pool.clean_queue.queue = i :: rest) (hb : pool.block_at i = some block)
    (hx : extract block = (ES_SUCCESS, some temp, block'))
    (hcopy : cstr temp = cstr block.content)
    (hS : 2 ≤ S) (_hsize : block.size = S) (hstr : strlen block.content = S - 1)
    (hcap : S ≤ out_buff.length) :
    ∃ out pool', process_request extract pool out_buff n₀
        = some (ES_SUCCESS, out, ((S - 1 : Nat) : Int), pool')
      ∧ (reply_bytes out ((S - 1 : Nat) : Int)).length = S - 1
      ∧ (reply_bytes out ((S - 1 : Nat) : Int)).getLast? = some 0 := by
  have hlen : strlen temp = S - 1 := by
    unfold strlen at hstr ⊢
    rw [hcopy, hstr]
  obtain ⟨out, pool', h1, h2⟩ := process_request_eq extract pool i rest block block' temp
    out_buff n₀ hv hq hb hx (by omega) (by omega)
  rw [hlen] at h1 h2
  refine ⟨out, pool', h1, ?_, ?_⟩
  · rw [h2]
    simp only [List.length_append, List.length_take, List.length_singleton]
    unfold strlen at hlen
    omega
  · rw [h2]
    simp

/-- C19 for block size 16: the reply has 15 bytes and ends in zero. -/
theorem process_request_reply_length_witness :
    ∃ out pool', process_request es_request_entropy_block_content
          (one_clean_block_pool (clean_block 16 (List.replicate 15 104)))
          (List.replicate 64 0) 0
        = some (ES_SUCCESS, out, (((16 : Nat) - 1 : Nat) : Int), pool')
      ∧ (reply_bytes out (((16 : Nat) - 1 : Nat) : Int)).length = 16 - 1
      ∧ (reply_bytes out (((16 : Nat) - 1 : Nat) : Int)).getLast? = some 0 :=
  process_request_reply_length es_request_entropy_block_content
    (one_clean_block_pool (clean_block 16 (List.replicate 15 104))) 0 []
    (clean_block 16 (List.replicate 15 104))
    (es_request_entropy_block_content (clean_block 16 (List.replicate 15 104))).2.2
    (clean_block 16 (List.replicate 15 104)).content (List.replicate 64 0) 0 16
    (by decide) (by decide) (by decide!) (by decide!) rfl (by decide) (by decide!)
    (by decide!) (by decide!)

/-- C20, refuted: a block of size 4 holds the content "abc"; the reply of
`process_request` is the three bytes a, b, 0. The last content byte c is not in
it: line 166 stores the zero at index `*out_buff_size - 1`, over the last byte
of the string. -/
theorem process_request_drops_last_byte :
    process_request es_request_entropy_block_content
        (one_clean_block_pool (clean_block 4 [97, 98, 99])) (List.replicate 8 0) 0
      = some (ES_SUCCESS, [97, 98, 0, 0, 0, 0, 0, 0], 3,
          { size := 1
            blocks := [some (fresh_block 4 0)]
            dirty_queue := { queue := [0] }
            clean_queue := { queue := [] } })
      ∧ reply_bytes [97, 98, 0, 0, 0, 0, 0, 0] 3 = [97, 98, 0]
      ∧ reply_bytes [97, 98, 0, 0, 0, 0, 0, 0] 3 ≠ [97, 98, 99] ++ [0]
      ∧ 99 ∉ reply_bytes [97, 98, 0, 0, 0, 0, 0, 0] 3 := by
  refine ⟨by decide!, by decide, by decide, by decide⟩

/-- C20, amended: under the conditions of C19, the reply of `process_request`
has `S - 1` bytes: the first `S - 2` content bytes of the block, unmodified and
in order, followed by a zero byte in the place of the last content byte. -/
theorem process_request_reply_content (extract : ExtractFn) (pool : es_entropy_pool)
    (i : Int) (rest : List Int) (block block' : es_entropy_block)
    (temp out_buff : List Nat) (n₀ : Int) (S : Nat)
    (hv : es_validate_entropy_pool pool = ES_SUCCESS)
    (hq : pool.clean_queue.queue = i :: rest) (hb : pool.block_at i = some block)
    (hx : extract block = (ES_SUCCESS, some temp, block'))
    (hcopy : cstr temp = cstr block.content)
    (hS : 2 ≤ S) (_hsize : block.size = S) (hstr : strlen block.content = S - 1)
    (hcap : S ≤ out_buff.length) :
    ∃ out pool', process_request extract pool out_buff n₀
        = some (ES_SUCCESS, out, ((S - 1 : Nat) : Int), pool')
      ∧ reply_bytes out ((S - 1 : Nat) : Int) = block.content.take (S - 2) ++ [0] := by
  have hlen : strlen temp = S - 1 := by
    unfold strlen at hstr ⊢
    rw [hcopy, hstr]
  obtain ⟨out, pool', h1, h2⟩ := process_request_eq extract pool i rest block block' temp
    out_buff n₀ hv hq hb hx (by omega) (by omega)
  rw [hlen] at h1 h2
  refine ⟨out, pool', h1, ?_⟩
  rw [h2, hcopy, ← cstr_take_strlen block.content, hstr, List.take_take]
  have hmin : min (S - 1 - 1) (S - 1) = S - 2 := by omega
  rw [hmin]

/-- C20 amended, for block size 4 and content "abc". -/
theorem process_request_reply_content_witness :
    ∃ out pool', process_request es_request_entropy_block_content
          (one_clean_block_pool (clean_block 4 [97, 98, 99])) (List.replicate 8 0) 0
        = some (ES_SUCCESS, out, (((4 : Nat) - 1 : Nat) : Int), pool')
      ∧ reply_bytes out (((4 : Nat) - 1 : Nat) : Int)
        = (clean_block 4 [97, 98, 99]).content.take (4 - 2) ++ [0] :=
  process_request_reply_content es_request_entropy_block_content
    (one_clean_block_pool (clean_block 4 [97, 98, 99])) 0 []
    (clean_block 4 [97, 98, 99])
    (es_request_entropy_block_content (clean_block 4 [97, 98, 99])).2.2
    (clean_block 4 [97, 98, 99]).content (List.replicate 8 0) 0 4
    (by decide) (by decide) (by decide!) (by decide!) rfl (by decide) (by decide)
    (by decide) (by decide)



/-! ## Block validation -/

/-- C22, the code as written: `es_validate_entropy_block` returns `ES_SUCCESS`
exactly for a block in state CLEAN or DIRTY with a threshold of at least 0 and
an unsupported digest kind; the threshold is not compared with 100. No block
returned by `es_create_entropy_block` is accepted, and a block with threshold
150 and an unsupported kind is accepted. -/
theorem es_validate_entropy_block_inverted :
    (∀ block : es_entropy_block,
      es_validate_entropy_block block = ES_SUCCESS ↔
        ((block.state = ES_CLEAN_BLOCK_STATE ∨ block.state = ES_DIRTY_BLOCK_STATE)
          ∧ 0 ≤ block.threshold
          ∧ es_validate_digest_type block.digest_type ≠ ES_SUCCESS))
    ∧ (∀ (env : AllocEnv) (size alloc_type : Int),
        (es_create_entropy_block env size alloc_type).map es_validate_entropy_block
          ≠ some ES_SUCCESS)
    ∧ (es_create_entropy_block sample_alloc_env 8 ES_CLEAN_ALLOC).map
          es_validate_entropy_block = some ES_FAILURE
    ∧ threshold_150_block.threshold = 150
    ∧ es_validate_entropy_block threshold_150_block = ES_SUCCESS := by
  have h01 : ES_FAILURE ≠ ES_SUCCESS := by decide
  have hval : ∀ block : es_entropy_block,
      es_validate_entropy_block block = ES_SUCCESS ↔
        ((block.state = ES_CLEAN_BLOCK_STATE ∨ block.state = ES_DIRTY_BLOCK_STATE)
          ∧ 0 ≤ block.threshold
          ∧ es_validate_digest_type block.digest_type ≠ ES_SUCCESS) := by
    intro block
    have hmm : ¬ ES_MINIMUM_BLOCK_THRESHOLD > ES_MAXIMUM_BLOCK_THRESHOLD := by
      unfold ES_MINIMUM_BLOCK_THRESHOLD ES_MAXIMUM_BLOCK_THRESHOLD
      norm_num
    unfold es_validate_entropy_block es_validate_entropy_block_state
    by_cases hs : block.state = ES_CLEAN_BLOCK_STATE ∨ block.state = ES_DIRTY_BLOCK_STATE
    · by_cases ht : block.threshold < ES_MINIMUM_BLOCK_THRESHOLD
      · have ht0 : ¬ (0 : ℚ) ≤ block.threshold := by
          unfold ES_MINIMUM_BLOCK_THRESHOLD at ht
          exact not_le.mpr ht
        simp [hs, ht, ht0, h01]
      · have ht0 : (0 : ℚ) ≤ block.threshold := by
          unfold ES_MINIMUM_BLOCK_THRESHOLD at ht
          exact not_lt.mp ht
        by_cases hd : es_validate_digest_type block.digest_type = ES_SUCCESS
        · have hc : c_not ES_SUCCESS ≠ ES_SUCCESS := by decide
          simp [hs, ht, hmm, ht0, hd, hc, h01]
        · have hd1 : es_validate_digest_type block.digest_type = ES_FAILURE := by
            unfold es_validate_digest_type at hd ⊢
            split
            · rename_i h
              simp [h] at hd
            · rfl
          have hc : c_not ES_FAILURE = ES_SUCCESS := by decide
          simp [hs, ht, hmm, ht0, hd1, hc, h01]
    · simp [hs, h01]
  refine ⟨hval, ?_, by decide!, by decide!, by decide!⟩
  intro env size alloc_type
  cases hc : es_create_entropy_block env size alloc_type with
  | none => simp
  | some b =>
    obtain ⟨_, _, _, _, _, hd, _⟩ := es_create_entropy_block_some env size alloc_type b hc
    have hv : es_validate_entropy_block b ≠ ES_SUCCESS := by
      intro h
      have h3 := ((hval b).mp h).2.2
      rw [hd] at h3
      exact h3 (by decide)
    simpa using hv

/-! ## Hashtable construction -/

/-- C23, the code as written: `es_create_hashtable` returns `NULL` for all
arguments and every allocator, also when both functions are given and every
allocation succeeds; the table that `es_alloc_hashtable` and
`es_init_hashtable` build in that case passes `es_validate_hashtable`, and is
destroyed by the test `!= ES_FAILURE` on the status of `es_init_hashtable`. -/
theorem es_create_hashtable_null :
    (∀ (env : HashtableEnv) (f g k v : Option Nat), es_create_hashtable env f g k v = none)
    ∧ es_create_hashtable sample_hashtable_env (some 10) (some 11) (some 12) (some 13) = none
    ∧ (es_init_hashtable
          (es_alloc_hashtable sample_hashtable_env (some 10) (some 11) (some 12) (some 13))
          (some 10) (some 11) (some 12) (some 13)).1 = ES_SUCCESS
    ∧ es_validate_hashtable
        (es_init_hashtable
          (es_alloc_hashtable sample_hashtable_env (some 10) (some 11) (some 12) (some 13))
          (some 10) (some 11) (some 12) (some 13)).2 = ES_SUCCESS := by
  refine ⟨?_, by decide, by decide, by decide⟩
  intro env f g k v
  unfold es_create_hashtable
  by_cases hf : f.isNone
  · simp [hf]
  · by_cases hg : g.isNone
    · simp [hf, hg]
    · simp only [hf, hg, Bool.false_eq_true, ↓reduceIte]
      cases es_alloc_hashtable env f g k v with
      | none => rfl
      | some h =>
        have h01 : ES_SUCCESS ≠ ES_FAILURE := by decide
        simp [es_init_hashtable, hf, hg, h01]

/-! ## The last byte of the arrays of a block -/

theorem strlen_lt_length_of_mem (a : List Nat) (h : 0 ∈ a) : strlen a < a.length := by
  induction a with
  | nil => simp at h
  | cons x xs ih =>
    unfold strlen cstr
    by_cases hx : x = 0
    · simp [List.takeWhile, hx]
    · have hm : 0 ∈ xs := by
        rcases List.mem_cons.mp h with h1 | h1
        · exact absurd h1.symm hx
        · exact h1
      have := ih hm
      unfold strlen cstr at this
      have hx1 : (x != 0) = true := by simp [hx]
      rw [List.takeWhile_cons, hx1]
      simp only [↓reduceIte, List.length_cons]
      omega

theorem length_memwrite (a : List Nat) (off : Nat) (bytes : List Nat) (h : off ≤ a.length) :
    (memwrite a off bytes).length = a.length := by
  unfold memwrite
  simp only [List.length_take, List.length_append, List.length_drop]
  omega

theorem getLast_memwrite_zero (a : List Nat) (off : Nat) (bytes : List Nat)
    (ha : a.getLast? = some 0) (hb : bytes.getLast? = some 0)
    (h : off + bytes.length ≤ a.length) :
    (memwrite a off bytes).getLast? = some 0 := by
  unfold memwrite
  rw [List.take_of_length_le (by
    simp only [List.length_append, List.length_take, List.length_drop]
    omega)]
  rw [List.getLast?_append, List.getLast?_append, List.getLast?_drop]
  split
  · simp [hb]
  · simp [ha]

theorem getLast_set_zero (a : List Nat) (i : Nat) (ha : a.getLast? = some 0) :
    (a.set i 0).getLast? = some 0 := by
  rw [List.getLast?_eq_getElem?] at ha ⊢
  rw [List.length_set, List.getElem?_set]
  split
  · rename_i h
    have hl : i < a.length := by
      by_contra hc
      rw [← h, List.getElem?_eq_none (by omega)] at ha
      simp at ha
    simp [hl]
  · exact ha

theorem getLast_store_zero (a : List Nat) (i : Int) (ha : a.getLast? = some 0) :
    (store a i 0).getLast? = some 0 := by
  unfold store
  split
  · exact getLast_set_zero a _ ha
  · exact ha

theorem getLast_es_clear_entropy_array (a : List Nat) (ha : a.getLast? = some 0) :
    (es_clear_entropy_array a).getLast? = some 0 := by
  unfold es_clear_entropy_array memset_zero
  rw [List.getLast?_append, List.getLast?_drop]
  have hle := strlen_le_length a
  split
  · have hn : a ≠ [] := by
      intro h
      rw [h] at ha
      simp at ha
    have hp : 0 < a.length := List.length_pos.mpr hn
    have hm : min (strlen a) a.length = (a.length - 1) + 1 := by omega
    rw [hm, List.replicate_succ', List.getLast?_append]
    simp
  · simp [ha]

theorem mem_of_getLast_zero (a : List Nat) (ha : a.getLast? = some 0) : 0 ∈ a := by
  rw [List.getLast?_eq_getElem?] at ha
  obtain ⟨h, he⟩ := List.getElem?_eq_some_iff.mp ha
  rw [← he]
  exact List.getElem_mem _

theorem length_store (a : List Nat) (i : Int) (v : Nat) : (store a i v).length = a.length := by
  unfold store
  split <;> simp

theorem es_update_buffer_frame (b : es_entropy_block) (c : List Nat) (hwf : b.WellFormed)
    (hb : b.buffer.getLast? = some 0) :
    (es_update_buffer b c).length = b.buffer.length
      ∧ (es_update_buffer b c).getLast? = some 0 := by
  obtain ⟨hs1, hs2, _, hlb, _, hmb⟩ := hwf
  have hu := strlen_lt_length_of_mem b.buffer hmb
  have hn : size_t_of_int (es_min (strlen c) (b.size - (strlen b.buffer : Int) - 1))
      ≤ b.buffer.length - strlen b.buffer - 1 := by
    unfold es_min
    split
    · rw [size_t_of_int_eq _ (by omega) (by omega)]
      omega
    · rw [size_t_of_int_eq _ (by omega) (by omega)]
      omega
  have hbytes : ((cstr c).take (size_t_of_int
      (es_min (strlen c) (b.size - (strlen b.buffer : Int) - 1))) ++ [0]).length
        ≤ b.buffer.length - strlen b.buffer := by
    rw [List.length_append, List.length_take, List.length_singleton]
    omega
  unfold es_update_buffer strncat
  constructor
  · rw [length_store, length_memwrite _ _ _ (by omega)]
  · apply getLast_store_zero
    apply getLast_memwrite_zero _ _ _ hb
    · simp
    · omega

theorem getLast_store_last (a : List Nat) (n : Int) (h1 : 1 ≤ n) (hl : (a.length : Int) = n) :
    (store a (n - 1) 0).getLast? = some 0 := by
  unfold store
  have h0 : (0 : Int) ≤ n - 1 := by omega
  simp only [h0, ↓reduceIte]
  rw [List.getLast?_eq_getElem?, List.length_set, List.getElem?_set]
  have he : (n - 1).toNat = a.length - 1 := by omega
  have hlt : a.length - 1 < a.length := by omega
  simp [he, hlt]

theorem es_update_sentinel_aux (gl : GLib) (b : es_entropy_block) (data : Option (List Nat))
    (hwf : b.WellFormed) (hc : b.content.getLast? = some 0)
    (hb : b.buffer.getLast? = some 0) :
    (es_update_entropy_block_content gl b data).2.WellFormed
      ∧ (es_update_entropy_block_content gl b data).2.size = b.size
      ∧ (es_update_entropy_block_content gl b data).2.content.getLast? = some 0
      ∧ (es_update_entropy_block_content gl b data).2.buffer.getLast? = some 0 := by
  have hwf0 := hwf
  obtain ⟨hs1, hs2, hlc, hlb, hmc, hmb⟩ := hwf
  have hkeep : ∀ c : List Nat,
      es_entropy_block.WellFormed { b with buffer := es_update_buffer b c }
        ∧ (es_update_buffer b c).getLast? = some 0 := by
    intro c
    obtain ⟨h1, h2⟩ := es_update_buffer_frame b c hwf0 hb
    refine ⟨⟨hs1, hs2, hlc, ?_, hmc, mem_of_getLast_zero _ h2⟩, h2⟩
    show ((es_update_buffer b c).length : Int) = b.size
    rw [h1]
    exact hlb
  rcases es_update_cases gl b data with h | ⟨c, _, _, _, h⟩ | ⟨c, _, _, _, _, h⟩
      | ⟨c, digest, _, _, _, _, h⟩
  · rw [h]
    exact ⟨hwf0, rfl, hc, hb⟩
  · rw [h]
    exact ⟨(hkeep c).1, rfl, hc, (hkeep c).2⟩
  · rw [h]
    exact ⟨(hkeep c).1, rfl, hc, (hkeep c).2⟩
  · rw [h]
    obtain ⟨h1, h2⟩ := es_update_buffer_frame b c hwf0 hb
    have hbl : (es_clear_entropy_array (es_update_buffer b c)).getLast? = some 0 :=
      getLast_es_clear_entropy_array _ h2
    have hlen : ((strncpy (es_clear_entropy_array b.content) digest
        (size_t_of_int (b.size - 1))).length : Int) = b.size := by
      unfold strncpy
      rw [length_memwrite _ _ _ (by omega), length_es_clear_entropy_array]
      exact hlc
    have hcl := getLast_store_last _ b.size hs1 hlen
    refine ⟨⟨hs1, hs2, ?_, ?_, mem_of_getLast_zero _ hcl, mem_of_getLast_zero _ hbl⟩,
      rfl, hcl, hbl⟩
    · show ((store _ _ _).length : Int) = b.size
      rw [length_store]
      exact hlen
    · show ((es_clear_entropy_array (es_update_buffer b c)).length : Int) = b.size
      rw [length_es_clear_entropy_array, h1]
      exact hlb

/-- C24, counterexample: a block of size 4 whose arrays hold the empty string
followed by a byte 7 at index 3 is well formed, and after an update with the
string A (outcome: staged) index 3 of both arrays still holds 7. -/
theorem es_update_sentinel_not_restored :
    garbage_tail_block.WellFormed
      ∧ strlen garbage_tail_block.content ≤ 3 ∧ strlen garbage_tail_block.buffer ≤ 3
      ∧ (es_update_entropy_block_content sample_glib garbage_tail_block (some str_A)).1
          = .staged
      ∧ (es_update_entropy_block_content sample_glib garbage_tail_block (some str_A)).2.buffer
          = [65, 0, 0, 7]
      ∧ (es_update_entropy_block_content sample_glib garbage_tail_block
          (some str_A)).2.content[3]? = some 7
      ∧ (es_update_entropy_block_content sample_glib garbage_tail_block
          (some str_A)).2.buffer[3]? = some 7 := by
  decide!

/-- C24, amended: for every well-formed block (size at least 1, both arrays of
`size` bytes holding a terminated string) whose arrays hold a zero at index
`size - 1`, after `es_update_entropy_block_content` with any input and any
outcome the block is still well formed, the used length of staging is at most
`size - 1`, and both arrays hold a zero at index `size - 1`. -/
theorem es_update_sentinel_invariant (gl : GLib) (b : es_entropy_block)
    (data : Option (List Nat)) (hwf : b.WellFormed)
    (hc : b.content[(b.size - 1).toNat]? = some 0)
    (hb : b.buffer[(b.size - 1).toNat]? = some 0) :
    (es_update_entropy_block_content gl b data).2.WellFormed
      ∧ (es_update_entropy_block_content gl b data).2.size = b.size
      ∧ (strlen (es_update_entropy_block_content gl b data).2.buffer : Int) ≤ b.size - 1
      ∧ (es_update_entropy_block_content gl b data).2.content[(b.size - 1).toNat]? = some 0
      ∧ (es_update_entropy_block_content gl b data).2.buffer[(b.size - 1).toNat]? = some 0 := by
  obtain ⟨hs1, hs2, hlc, hlb, hmc, hmb⟩ := id hwf
  have hci : (b.size - 1).toNat = b.content.length - 1 := by omega
  have hbi : (b.size - 1).toNat = b.buffer.length - 1 := by omega
  have hc1 : b.content.getLast? = some 0 := by
    rw [List.getLast?_eq_getElem?, ← hci]
    exact hc
  have hb1 : b.buffer.getLast? = some 0 := by
    rw [List.getLast?_eq_getElem?, ← hbi]
    exact hb
  obtain ⟨hw, hsz, hcl, hbl⟩ := es_update_sentinel_aux gl b data hwf hc1 hb1
  obtain ⟨_, _, hlc2, hlb2, _, hmb2⟩ := id hw
  have hu := strlen_lt_length_of_mem _ hmb2
  rw [List.getLast?_eq_getElem?] at hcl hbl
  rw [hsz] at hlc2 hlb2
  have hci2 : (b.size - 1).toNat
      = (es_update_entropy_block_content gl b data).2.content.length - 1 := by omega
  have hbi2 : (b.size - 1).toNat
      = (es_update_entropy_block_content gl b data).2.buffer.length - 1 := by omega
  refine ⟨hw, hsz, by omega, ?_, ?_⟩
  · rw [hci2]
    exact hcl
  · rw [hbi2]
    exact hbl

/-- C24 amended, on the fresh block of size 8 with threshold 50 updated with
"abcdefg", at the sample GLib. -/
theorem es_update_sentinel_invariant_witness :
    (fresh_block 8 50).WellFormed
      ∧ (es_update_entropy_block_content sample_glib (fresh_block 8 50)
          (some str_abcdefg)).2.WellFormed
      ∧ (es_update_entropy_block_content sample_glib (fresh_block 8 50)
          (some str_abcdefg)).2.size = (fresh_block 8 50).size
      ∧ (strlen (es_update_entropy_block_content sample_glib (fresh_block 8 50)
          (some str_abcdefg)).2.buffer : Int) ≤ (fresh_block 8 50).size - 1
      ∧ (es_update_entropy_block_content sample_glib (fresh_block 8 50)
          (some str_abcdefg)).2.content[((fresh_block 8 50).size - 1).toNat]? = some 0
      ∧ (es_update_entropy_block_content sample_glib (fresh_block 8 50)
          (some str_abcdefg)).2.buffer[((fresh_block 8 50).size - 1).toNat]? = some 0 :=
  ⟨by decide, es_update_sentinel_invariant sample_glib (fresh_block 8 50) (some str_abcdefg)
    (by decide) (by decide) (by decide)⟩

theorem getElem_memwrite_of_lt (a : List Nat) (off : Nat) (bytes : List Nat) (i : Nat)
    (h : i < off) : (memwrite a off bytes)[i]? = a[i]? := by
  unfold memwrite
  by_cases hi : i < a.length
  · rw [List.getElem?_take_of_lt hi, List.append_assoc,
      List.getElem?_append_left (by rw [List.length_take]; omega),
      List.getElem?_take_of_lt h]
  · rw [List.getElem?_eq_none (by rw [List.length_take]; omega),
      List.getElem?_eq_none (by omega)]

theorem getElem_memwrite_of_ge (a : List Nat) (off : Nat) (bytes : List Nat) (i : Nat)
    (hoff : off ≤ a.length) (h : off + bytes.length ≤ i) :
    (memwrite a off bytes)[i]? = a[i]? := by
  unfold memwrite
  by_cases hi : i < a.length
  · rw [List.getElem?_take_of_lt hi,
      List.getElem?_append_right (by
        rw [List.length_append, List.length_take]; omega),
      List.getElem?_drop]
    congr 1
    rw [List.length_append, List.length_take]
    omega
  · rw [List.getElem?_eq_none (by rw [List.length_take]; omega),
      List.getElem?_eq_none (by omega)]

theorem es_update_buffer_frame_writes (b : es_entropy_block) (c : List Nat) (i : Nat)
    (hi : (i : Int) ∉ es_update_buffer_writes b c) :
    (es_update_buffer b c)[i]? = b.buffer[i]? := by
  unfold es_update_buffer_writes at hi
  simp only [List.mem_append, List.mem_map, List.mem_range, List.mem_singleton, not_or,
    not_exists, not_and] at hi
  obtain ⟨h1, h2⟩ := hi
  have hle := strlen_le_length b.buffer
  have hw : (strncat b.buffer c (size_t_of_int
      (es_min (strlen c) (b.size - (strlen b.buffer : Int) - 1))))[i]? = b.buffer[i]? := by
    unfold strncat
    by_cases hlt : i < strlen b.buffer
    · exact getElem_memwrite_of_lt _ _ _ _ hlt
    · apply getElem_memwrite_of_ge _ _ _ _ hle
      rw [List.length_append, List.length_singleton]
      by_contra hc
      exact h1 (i - strlen b.buffer) (by omega) (by omega)
  unfold es_update_buffer store
  simp only []
  by_cases h0 : (0 : Int) ≤ (strlen b.buffer : Int) - 1
  · rw [if_pos h0, List.getElem?_set_ne (by omega)]
    exact hw
  · rw [if_neg h0]
    exact hw

/-! ## The indices written in the staging array -/

/-- C30, the code as written: for a well-formed block and every input, the
stores of `strncat` in `es_update_entropy_block_content` lie in
`[0, size - 1]`, and so do the stores of the clearing after a mix; the store of
line 354 is at index `buffer_size - 1`, which lies in `[0, size - 1]` when the
staging holds at least one byte and is `-1` when the staging is empty. A byte
of the staging array at an index that is not among these stores is unchanged. -/
theorem es_update_buffer_writes_range (b : es_entropy_block) (c : List Nat)
    (hwf : b.WellFormed) :
    (1 ≤ strlen b.buffer →
        ∀ i ∈ es_update_buffer_writes b c, 0 ≤ i ∧ i ≤ b.size - 1)
      ∧ (strlen b.buffer = 0 →
        (-1 : Int) ∈ es_update_buffer_writes b c
          ∧ ∀ i ∈ es_update_buffer_writes b c, i = -1 ∨ (0 ≤ i ∧ i ≤ b.size - 1))
      ∧ (∀ i ∈ es_clear_entropy_array_writes (es_update_buffer b c),
          0 ≤ i ∧ i ≤ b.size - 1)
      ∧ (∀ i : Nat, (i : Int) ∉ es_update_buffer_writes b c →
          (es_update_buffer b c)[i]? = b.buffer[i]?) := by
  obtain ⟨hs1, hs2, _, hlb, _, hmb⟩ := hwf
  have hu := strlen_lt_length_of_mem b.buffer hmb
  have hn : ((cstr c).take (size_t_of_int
      (es_min (strlen c) (b.size - (strlen b.buffer : Int) - 1)))).length
        ≤ b.buffer.length - strlen b.buffer - 1 := by
    rw [List.length_take]
    unfold es_min
    split
    · rw [size_t_of_int_eq _ (by omega) (by omega)]
      omega
    · rw [size_t_of_int_eq _ (by omega) (by omega)]
      omega
  have hmem : ∀ i ∈ es_update_buffer_writes b c,
      i = (strlen b.buffer : Int) - 1
        ∨ ((strlen b.buffer : Int) ≤ i ∧ i ≤ b.size - 1) := by
    intro i hi
    unfold es_update_buffer_writes at hi
    simp only [List.mem_append, List.mem_map, List.mem_range, List.mem_singleton] at hi
    rcases hi with ⟨j, hj, rfl⟩ | hi
    · right
      omega
    · left
      exact hi
  refine ⟨?_, ?_, ?_, fun i hi => es_update_buffer_frame_writes b c i hi⟩
  · intro h1 i hi
    rcases hmem i hi with h | h <;> omega
  · intro h0
    constructor
    · unfold es_update_buffer_writes
      simp [h0]
    · intro i hi
      rcases hmem i hi with h | h
      · left
        omega
      · right
        omega
  · intro i hi
    unfold es_clear_entropy_array_writes at hi
    simp only [List.mem_map, List.mem_range] at hi
    obtain ⟨j, hj, rfl⟩ := hi
    have hlen : strlen (es_update_buffer b c) ≤ b.buffer.length - 1 := by
      by_cases h1 : 1 ≤ strlen b.buffer
      · unfold strlen
        rw [cstr_es_update_buffer b c h1, List.length_take]
        unfold strlen at hu h1 ⊢
        omega
      · have h0 : strlen b.buffer = 0 := by omega
        unfold strlen
        rw [cstr_es_update_buffer_of_empty b c hs1 hs2 hlb h0, List.length_take]
        omega
    omega

/-- C30 on the fresh block of size 8 updated with "abcdefg": the stores are at
the indices 0 to 7 and then at index -1. -/
theorem es_update_buffer_writes_range_witness :
    (fresh_block 8 50).WellFormed ∧ strlen (fresh_block 8 50).buffer = 0
      ∧ es_update_buffer_writes (fresh_block 8 50) str_abcdefg
          = [0, 1, 2, 3, 4, 5, 6, 7, -1]
      ∧ (-1 : Int) ∈ es_update_buffer_writes (fresh_block 8 50) str_abcdefg :=
  ⟨by decide, by decide, by decide,
    ((es_update_buffer_writes_range (fresh_block 8 50) str_abcdefg (by decide)).2.1
      (by decide)).1⟩

/-! ## The refill loop above the reachable percentage -/

theorem es_update_accepts (b : es_entropy_block)
    (hs : b.state = ES_CLEAN_BLOCK_STATE ∨ b.state = ES_DIRTY_BLOCK_STATE)
    (ht : 0 ≤ b.threshold) (hk : es_validate_digest_type b.digest_type = ES_SUCCESS) :
    c_not (es_validate_entropy_block b) = ES_SUCCESS := by
  have hmm : ¬ ES_MINIMUM_BLOCK_THRESHOLD > ES_MAXIMUM_BLOCK_THRESHOLD := by
    unfold ES_MINIMUM_BLOCK_THRESHOLD ES_MAXIMUM_BLOCK_THRESHOLD
    norm_num
  have ht0 : ¬ b.threshold < ES_MINIMUM_BLOCK_THRESHOLD := by
    unfold ES_MINIMUM_BLOCK_THRESHOLD
    exact not_lt.mpr ht
  have hc : c_not ES_SUCCESS ≠ ES_SUCCESS := by decide
  have hv : es_validate_entropy_block b = ES_FAILURE := by
    unfold es_validate_entropy_block es_validate_entropy_block_state
    simp [hs, ht0, hmm, hk, hc]
  rw [hv]
  decide

theorem length_es_update_buffer (b : es_entropy_block) (c : List Nat) :
    (es_update_buffer b c).length = b.buffer.length := by
  unfold es_update_buffer strncat
  rw [length_store, length_memwrite _ _ _ (strlen_le_length b.buffer)]

theorem strlen_es_update_buffer_le (b : es_entropy_block) (c : List Nat) (m : Nat)
    (hs1 : 1 ≤ b.size) (hs2 : b.size < 2 ^ 31) (hlen : (b.buffer.length : Int) = b.size)
    (hu : strlen b.buffer ≤ m) (hc : strlen c ≤ m) :
    strlen (es_update_buffer b c) ≤ m := by
  by_cases h1 : 1 ≤ strlen b.buffer
  · unfold strlen
    rw [cstr_es_update_buffer b c h1, List.length_take]
    unfold strlen at hu
    omega
  · have h0 : strlen b.buffer = 0 := by omega
    unfold strlen
    rw [cstr_es_update_buffer_of_empty b c hs1 hs2 hlen h0, List.length_take]
    unfold strlen at hc
    omega

theorem es_update_stays_staged (gl : GLib) (b : es_entropy_block) (c : List Nat) (m : Nat)
    (hs1 : 1 ≤ b.size) (hs2 : b.size < 2 ^ 31) (hlen : (b.buffer.length : Int) = b.size)
    (hd : b.state = ES_DIRTY_BLOCK_STATE)
    (hk : es_validate_digest_type b.digest_type = ES_SUCCESS)
    (hmargin : (100 : ℚ) * (m : ℚ) * (1 + 1 / 2 ^ 52) < b.threshold * (b.size : ℚ))
    (hu : strlen b.buffer ≤ m) (hc : strlen c ≤ m) :
    es_update_entropy_block_content gl b (some c)
        = (.staged, { b with buffer := es_update_buffer b c })
      ∧ strlen (es_update_buffer b c) ≤ m := by
  have hle := strlen_es_update_buffer_le b c m hs1 hs2 hlen hu hc
  have hsz : (0 : ℚ) < (b.size : ℚ) := by exact_mod_cast (by omega : (0 : Int) < b.size)
  have hm0 : (0 : ℚ) ≤ (m : ℚ) := Nat.cast_nonneg m
  have heps : (0 : ℚ) ≤ 1 / 2 ^ 52 := by norm_num
  have ht : (100 : ℚ) * (m : ℚ) < b.threshold * (b.size : ℚ) := by
    have h100 : (0 : ℚ) ≤ 100 * (m : ℚ) * (1 / 2 ^ 52) :=
      mul_nonneg (mul_nonneg (by norm_num) hm0) heps
    linarith
  have ht0 : 0 ≤ b.threshold := by
    by_contra hneg
    have hneg1 : b.threshold < 0 := not_le.mp hneg
    have := mul_neg_of_neg_of_pos hneg1 hsz
    linarith
  refine ⟨es_update_staged_of gl b c (es_update_accepts b (Or.inr hd) ht0 hk) ?_, hle⟩
  unfold es_compute_array_entropy_percentage ES_MAXIMUM_BLOCK_THRESHOLD
  rw [gt_iff_lt, div_lt_iff₀ hsz]
  have h1 : ((strlen (es_update_buffer b c) : Nat) : ℚ) ≤ (m : ℚ) := by exact_mod_cast hle
  nlinarith

theorem es_clean_entropy_block_loop_none (gl : GLib) (m : Nat) (cs : List (List Nat)) :
    ∀ b : es_entropy_block, 1 ≤ b.size → b.size < 2 ^ 31 →
      (b.buffer.length : Int) = b.size → b.state = ES_DIRTY_BLOCK_STATE →
      es_validate_digest_type b.digest_type = ES_SUCCESS →
      (100 : ℚ) * (m : ℚ) * (1 + 1 / 2 ^ 52) < b.threshold * (b.size : ℚ) →
      strlen b.buffer ≤ m → (∀ c ∈ cs, strlen c ≤ m) →
      es_clean_entropy_block_loop gl (cs.map some) b = none := by
  induction cs with
  | nil =>
    intro b _ _ _ hd _ _ _ _
    simp [es_clean_entropy_block_loop, hd]
  | cons c rest ih =>
    intro b hs1 hs2 hlen hd hk ht hu hc
    obtain ⟨he, hle⟩ := es_update_stays_staged gl b c m hs1 hs2 hlen hd hk ht hu
      (hc c (List.mem_cons_self c rest))
    have hst : UpdateOutcome.staged.status = ES_SUCCESS := rfl
    rw [List.map_cons, es_clean_entropy_block_loop]
    simp only [hd, ↓reduceIte, he, hst, ne_eq, not_true_eq_false]
    apply ih
    · exact hs1
    · exact hs2
    · show ((es_update_buffer b c).length : Int) = b.size
      rw [length_es_update_buffer]
      exact hlen
    · rfl
    · exact hk
    · exact ht
    · exact hle
    · intro c' hc'
      exact hc c' (List.mem_cons_of_mem c hc')

/-- C25, the code as written: a well-formed DIRTY block with a supported digest
kind whose staging holds at most 7 bytes and whose threshold `t` is above
`(100 * 7 / size) * (1 + 2 ^ (-52))` is never CLEAN: for every number of
successful readings of at most 7 bytes the loop of `es_clean_entropy_block` is
still running when the readings are used up, because a second reading shortens
the staged string by one byte (line 354) and the percentage never exceeds
`100 * 7 / size`. The factor `1 + 2 ^ (-52)` keeps the threshold above the
`double` the source compares it with: the division in
`es_compute_array_entropy_percentage` rounds the exact quotient up by a factor
of at most `1 + 2 ^ (-53)`, so under this hypothesis the test `threshold >
block_percentage` of line 365 has the same outcome in `double` arithmetic as on
the exact quotient. -/
theorem es_clean_entropy_block_loop_stays_dirty (gl : GLib) (b : es_entropy_block)
    (cs : List (List Nat)) (hwf : b.WellFormed) (hd : b.state = ES_DIRTY_BLOCK_STATE)
    (hk : es_validate_digest_type b.digest_type = ES_SUCCESS)
    (ht : (100 : ℚ) * 7 * (1 + 1 / 2 ^ 52) < b.threshold * (b.size : ℚ))
    (hu : strlen b.buffer ≤ 7) (hc : ∀ c ∈ cs, strlen c ≤ 7) :
    es_clean_entropy_block_loop gl (cs.map some) b = none := by
  obtain ⟨hs1, hs2, _, hlb, _, _⟩ := hwf
  exact es_clean_entropy_block_loop_none gl 7 cs b hs1 hs2 hlb hd hk
    (by exact_mod_cast ht) hu hc

/-- C25 on the fresh block of size 16 with threshold 50, where every percentage
is a `double` (a multiple of 6.25): after twenty readings "abcdefg" the loop is
still running. -/
theorem es_clean_entropy_block_loop_stays_dirty_witness :
    (fresh_block 16 50).WellFormed ∧ (fresh_block 16 50).threshold = 50
      ∧ es_clean_entropy_block_loop sample_glib
          ((List.replicate 20 str_abcdefg).map some) (fresh_block 16 50) = none :=
  ⟨by decide, rfl,
    es_clean_entropy_block_loop_stays_dirty sample_glib (fresh_block 16 50)
      (List.replicate 20 str_abcdefg) (by decide) (by decide) (by decide)
      (by decide!) (by decide) (by decide)⟩

/-! ## Symmetry and the empty string in `es_compute_digest_2` -/

theorem es_compute_digest_2_of_eq (gl : GLib) (digest_type : Int) (a b : List Nat)
    (hlen : strlen a = strlen b) :
    es_compute_digest_2 gl digest_type (some a) (some b)
      = es_compute_digest_1 gl digest_type (some [0]) := by
  by_cases hk : es_validate_digest_type digest_type = ES_SUCCESS
  · simp only [es_compute_digest_2, hk, ne_eq, not_true_eq_false, ↓reduceIte, hlen,
      gt_iff_lt, lt_self_iff_false, es_min, Int.toNat_ofNat]
    apply es_compute_digest_1_congr
    rw [show cstr [0] = [] from rfl]
    apply cstr_xor_loop_self
    by_cases hb : cstr b = []
    · exact Or.inl hb
    · right
      unfold strlen
      exact Nat.pos_of_ne_zero (fun h0 => hb (List.length_eq_zero.mp h0))
  · simp [es_compute_digest_2, es_compute_digest_1, hk]

theorem combine_comm_of_lt (p q : List Nat) (h : p.length < q.length) :
    combine p q = combine q p := by
  unfold combine
  have h1 : ¬ q.length ≤ p.length := by omega
  have h2 : p.length ≤ q.length := by omega
  rw [if_neg h1, if_pos h2, zipWith_xor_comm p q, Nat.min_comm]

theorem es_compute_digest_2_comm (gl : GLib) (digest_type : Int) (a b : List Nat) :
    es_compute_digest_2 gl digest_type (some a) (some b)
      = es_compute_digest_2 gl digest_type (some b) (some a) := by
  rcases Nat.lt_trichotomy (strlen a) (strlen b) with h | h | h
  · rw [es_compute_digest_2_of_lt gl digest_type a b h,
      es_compute_digest_2_of_gt gl digest_type b a h,
      combine_comm_of_lt _ _ (by unfold strlen at h; exact h)]
  · rw [es_compute_digest_2_of_eq gl digest_type a b h,
      es_compute_digest_2_of_eq gl digest_type b a h.symm]
  · rw [es_compute_digest_2_of_gt gl digest_type a b h,
      es_compute_digest_2_of_lt gl digest_type b a h,
      combine_comm_of_lt (cstr b) (cstr a) (by unfold strlen at h; exact h)]

/-- C28 (the two-input hash is symmetric): for every kind, supported or not,
and all inputs `a`, `b`, strings of equal or different lengths or `NULL`,
`es_compute_digest_2(k, a, b)` and `es_compute_digest_2(k, b, a)` return the
same status and the same digest. The function reads its inputs and stores only
into its own copies (`strdup`), so the inputs are the same values afterwards. -/
theorem es_compute_digest_2_symmetric (gl : GLib) (digest_type : Int)
    (data_1 data_2 : Option (List Nat)) :
    es_compute_digest_2 gl digest_type data_1 data_2
      = es_compute_digest_2 gl digest_type data_2 data_1 := by
  cases data_1 with
  | none =>
    cases data_2 with
    | none => rfl
    | some b => simp [es_compute_digest_2]
  | some a =>
    cases data_2 with
    | none => simp [es_compute_digest_2]
    | some b => exact es_compute_digest_2_comm gl digest_type a b

theorem es_compute_digest_2_empty_left (gl : GLib) (digest_type : Int) (e s : List Nat)
    (he : strlen e = 0) :
    es_compute_digest_2 gl digest_type (some e) (some s)
      = es_compute_digest_1 gl digest_type (some s) := by
  by_cases hk : es_validate_digest_type digest_type = ES_SUCCESS
  · simp only [es_compute_digest_2, hk, ne_eq, not_true_eq_false, ↓reduceIte, he]
    rw [es_min_toNat_of_zero_left, xor_loop_zero]
    have hnot : ¬ (((0 : Nat) : Int) > (strlen s : Int)) := by omega
    rw [if_neg hnot]
    exact es_compute_digest_1_congr gl digest_type _ _ (cstr_strdup s)
  · simp [es_compute_digest_2, es_compute_digest_1, hk]

/-- C29 (the empty string is an identity for the two-input hash): for every
kind, every empty string `e` and every string `s`, `es_compute_digest_2` on
`e` and `s`, in either order, returns what `es_compute_digest_1` returns on
`s`. Hence, for a well-formed block whose content starts with a zero byte, an
update that ends by the mix stores in the content the first `size - 1` bytes of
the digest string `es_compute_digest_1` gives for the staging array as lines
351 to 354 leave it (followed by zeros when the string is shorter), then a
zero. -/
theorem es_compute_digest_2_empty_identity (gl : GLib) (digest_type : Int) (e s : List Nat)
    (he : strlen e = 0) :
    es_compute_digest_2 gl digest_type (some e) (some s)
        = es_compute_digest_1 gl digest_type (some s)
      ∧ es_compute_digest_2 gl digest_type (some s) (some e)
        = es_compute_digest_1 gl digest_type (some s)
      ∧ (∀ (b b' : es_entropy_block) (data : Option (List Nat)),
          b.WellFormed → b.content = e →
          es_update_entropy_block_content gl b data = (.mixed, b') →
          ∃ c digest, data = some c
            ∧ es_compute_digest_1 gl b.digest_type (some (es_update_buffer b c))
                = some digest
            ∧ b'.content = (cstr digest).take (b.size - 1).toNat
                ++ List.replicate ((b.size - 1).toNat - strlen digest) 0 ++ [0]) := by
  refine ⟨es_compute_digest_2_empty_left gl digest_type e s he, ?_, ?_⟩
  · rw [es_compute_digest_2_comm]
    exact es_compute_digest_2_empty_left gl digest_type e s he
  · intro b b' data hwf hbe h
    obtain ⟨hs1, hs2, hcl, _, _, _⟩ := hwf
    rcases es_update_cases gl b data with h1 | ⟨c, _, _, _, h2⟩ |
      ⟨c, _, _, _, _, h3⟩ | ⟨c, d, hc, _, _, hd, h4⟩
    · rw [h1] at h; cases h
    · rw [h2] at h; cases h
    · rw [h3] at h; cases h
    · rw [h4] at h
      have hb : b' = _ := (congrArg Prod.snd h).symm
      have hn : 0 ≤ b.size - 1 := by omega
      refine ⟨c, d, hc, ?_, ?_⟩
      · rw [← hd]
        exact (es_compute_digest_2_empty_left gl b.digest_type b.content _
          (by rw [hbe]; exact he)).symm
      · rw [hb]
        simp only [store, hn, ↓reduceIte]
        rw [size_t_of_int_eq _ hn (by omega)]
        apply strncpy_set_last
        rw [length_es_clear_entropy_array]
        omega

/-- C29 with SHA-512 at the sample GLib: the empty string is the zeroed content
of a fresh block, the other input is "abcdefg". -/
theorem es_compute_digest_2_empty_identity_witness :
    strlen (fresh_block 8 0).content = 0
      ∧ es_compute_digest_2 sample_glib ES_SHA512_DIGEST (some (fresh_block 8 0).content)
          (some str_abcdefg)
        = es_compute_digest_1 sample_glib ES_SHA512_DIGEST (some str_abcdefg)
      ∧ es_compute_digest_2 sample_glib ES_SHA512_DIGEST (some str_abcdefg)
          (some (fresh_block 8 0).content)
        = es_compute_digest_1 sample_glib ES_SHA512_DIGEST (some str_abcdefg)
      ∧ es_compute_digest_1 sample_glib ES_SHA512_DIGEST (some str_abcdefg)
        = some ([97 + 97 % 16, 97 + 98 % 16, 97 + 99 % 16, 97 + 100 % 16, 97 + 101 % 16,
            97 + 102 % 16, 97 + 103 % 16] ++ List.replicate 16 104 ++ [0]) :=
  ⟨by decide,
    (es_compute_digest_2_empty_identity sample_glib ES_SHA512_DIGEST
      (fresh_block 8 0).content str_abcdefg (by decide)).1,
    (es_compute_digest_2_empty_identity sample_glib ES_SHA512_DIGEST
      (fresh_block 8 0).content str_abcdefg (by decide)).2.1,
    by decide⟩

/-! ## `es_read_device_data` -/

theorem length_strncat (dest src : List Nat) (n : Nat) :
    (strncat dest src n).length = dest.length := by
  unfold strncat
  exact length_memwrite _ _ _ (strlen_le_length dest)

theorem es_read_device_data_stop_spec (size : Int) (stop_ok : Bool) (buffer : List Nat)
    (hs : 1 ≤ size) (hlen : (buffer.length : Int) = size) :
    (es_read_device_data_stop stop_ok buffer (size - 1)).2.1.length = buffer.length
      ∧ (∃ ok, (es_read_device_data_stop stop_ok buffer (size - 1)).2.2
          = [.write ES_SERIAL_STOP_TRANSFER_CODE (size - 1) ok])
      ∧ ((es_read_device_data_stop stop_ok buffer (size - 1)).1 = ES_SUCCESS →
          (es_read_device_data_stop stop_ok buffer (size - 1)).2.2
              = [.write ES_SERIAL_STOP_TRANSFER_CODE (size - 1) true]
            ∧ (es_read_device_data_stop stop_ok buffer (size - 1)).2.1[(size - 1).toNat]?
              = some 0)
      ∧ ((es_read_device_data_stop stop_ok buffer (size - 1)).1 = ES_SUCCESS
          ∨ (es_read_device_data_stop stop_ok buffer (size - 1)).1 = ES_FAILURE) := by
  have h01 : ES_FAILURE ≠ ES_SUCCESS := by decide
  unfold es_read_device_data_stop
  cases stop_ok with
  | false =>
    simp only [Bool.false_eq_true, not_false_eq_true, ↓reduceIte, h01, false_implies,
      true_and, or_true, and_true]
    exact ⟨false, rfl⟩
  | true =>
    simp only [not_true_eq_false, ↓reduceIte, length_store, true_implies, true_and,
      true_or, and_true]
    refine ⟨⟨true, rfl⟩, ?_⟩
    unfold store
    have h0 : (0 : Int) ≤ size - 1 := by omega
    rw [if_pos h0, List.getElem?_set_self (by omega)]

theorem es_read_device_data_loop_spec (size : Int) (stop_ok : Bool) (hs : 1 ≤ size)
    (reads : List (Option (List Nat))) :
    ∀ (buffer : List Nat) (buffer_size ret : Int) (buf : List Nat)
      (events : List DeviceEvent),
      0 ≤ buffer_size → buffer_size ≤ size - 1 → (buffer.length : Int) = size →
      es_read_device_data_loop size stop_ok reads buffer buffer_size
        = some (ret, buf, events) →
      buf.length = buffer.length
        ∧ (∀ e ∈ events,
            (∃ k, e = .read k ∧ buffer_size ≤ k ∧ k < size - 1)
              ∨ (∃ ok, e = .write ES_SERIAL_STOP_TRANSFER_CODE (size - 1) ok))
        ∧ (ret = ES_SUCCESS →
            events.getLast? = some (.write ES_SERIAL_STOP_TRANSFER_CODE (size - 1) true)
              ∧ buf[(size - 1).toNat]? = some 0)
        ∧ (ret = ES_SUCCESS ∨ ret = ES_FAILURE) := by
  have h01 : ES_FAILURE ≠ ES_SUCCESS := by decide
  have hstop : ∀ (buffer : List Nat) (buffer_size ret : Int) (buf : List Nat)
      (events : List DeviceEvent), buffer_size = size - 1 →
      (buffer.length : Int) = size →
      es_read_device_data_stop stop_ok buffer buffer_size = (ret, buf, events) →
      buf.length = buffer.length
        ∧ (∀ e ∈ events,
            (∃ k, e = .read k ∧ buffer_size ≤ k ∧ k < size - 1)
              ∨ (∃ ok, e = .write ES_SERIAL_STOP_TRANSFER_CODE (size - 1) ok))
        ∧ (ret = ES_SUCCESS →
            events.getLast? = some (.write ES_SERIAL_STOP_TRANSFER_CODE (size - 1) true)
              ∧ buf[(size - 1).toNat]? = some 0)
        ∧ (ret = ES_SUCCESS ∨ ret = ES_FAILURE) := by
    intro buffer buffer_size ret buf events hb hlen h
    subst hb
    obtain ⟨h1, ⟨ok, h2⟩, h3, h4⟩ := es_read_device_data_stop_spec size stop_ok buffer hs hlen
    rw [h] at h1 h2 h3 h4
    simp only at h1 h2 h3 h4
    refine ⟨h1, ?_, ?_, h4⟩
    · intro e he
      rw [h2] at he
      right
      exact ⟨ok, List.mem_singleton.mp he⟩
    · intro hr
      obtain ⟨h5, h6⟩ := h3 hr
      rw [h5]
      exact ⟨rfl, h6⟩
  induction reads with
  | nil =>
    intro buffer buffer_size ret buf events h0 h1 hlen h
    unfold es_read_device_data_loop at h
    by_cases hb : buffer_size = size - 1
    · rw [if_pos hb] at h
      exact hstop buffer buffer_size ret buf events hb hlen (Option.some.inj h)
    · rw [if_neg hb] at h
      cases h
  | cons reading rest ih =>
    intro buffer buffer_size ret buf events h0 h1 hlen h
    unfold es_read_device_data_loop at h
    by_cases hb : buffer_size = size - 1
    · rw [if_pos hb] at h
      exact hstop buffer buffer_size ret buf events hb hlen (Option.some.inj h)
    · rw [if_neg hb] at h
      cases reading with
      | none =>
        simp only [Option.some.injEq, Prod.mk.injEq] at h
        obtain ⟨hr, hbuf, hev⟩ := h
        subst hr hbuf hev
        refine ⟨rfl, ?_, fun hc => absurd hc h01, Or.inr rfl⟩
        intro e he
        left
        exact ⟨buffer_size, List.mem_singleton.mp he, le_refl _, by omega⟩
      | some data =>
        simp only at h
        have hc0 : 0 ≤ es_min ((data.take size.toNat).length : Int)
            (size - buffer_size - 1) := by
          unfold es_min
          split <;> omega
        have hc1 : es_min ((data.take size.toNat).length : Int)
            (size - buffer_size - 1) ≤ size - buffer_size - 1 := by
          unfold es_min
          split <;> omega
        cases hl : es_read_device_data_loop size stop_ok rest
            (strncat buffer
              (memwrite (List.replicate size.toNat 0) 0 (data.take size.toNat))
              (size_t_of_int (es_min ((data.take size.toNat).length : Int)
                (size - buffer_size - 1))))
            (buffer_size + es_min ((data.take size.toNat).length : Int)
              (size - buffer_size - 1)) with
        | none =>
          rw [hl] at h
          cases h
        | some r =>
          obtain ⟨ret1, buf1, ev1⟩ := r
          rw [hl] at h
          simp only [Option.some.injEq, Prod.mk.injEq] at h
          obtain ⟨hr, hbuf, hev⟩ := h
          subst hr hbuf hev
          obtain ⟨i1, i2, i3, i4⟩ := ih _ _ _ _ _ (by omega) (by omega)
            (by rw [length_strncat]; exact hlen) hl
          refine ⟨by rw [i1, length_strncat], ?_, ?_, i4⟩
          · intro e he
            rcases List.mem_cons.mp he with he | he
            · left
              exact ⟨buffer_size, he, le_refl _, by omega⟩
            · rcases i2 e he with ⟨k, hk1, hk2, hk3⟩ | hw
              · left
                exact ⟨k, hk1, by omega, hk3⟩
              · right
                exact hw
          · intro hr
            obtain ⟨h5, h6⟩ := i3 hr
            refine ⟨?_, h6⟩
            rw [List.getLast?_cons, h5]
            rfl

theorem cstr_of_ne_zero (p : List Nat) (hp : ∀ x ∈ p, x ≠ 0) (k : Nat) :
    cstr (p ++ List.replicate k 0) = p := by
  cases k with
  | zero =>
    rw [List.replicate_zero, List.append_nil]
    unfold cstr
    rw [List.takeWhile_eq_self_iff]
    intro x hx
    simpa using hp x hx
  | succ m =>
    rw [List.replicate_succ]
    exact cstr_append_zero p _ hp

theorem memwrite_replicate_zero (n : Nat) (d : List Nat) (h : d.length ≤ n) :
    memwrite (List.replicate n 0) 0 d = d ++ List.replicate (n - d.length) 0 := by
  unfold memwrite
  rw [List.take_zero, List.nil_append, Nat.zero_add, List.drop_replicate,
    List.length_replicate, List.take_of_length_le]
  rw [List.length_append, List.length_replicate]
  omega

theorem strncat_append_zeros (acc src : List Nat) (k c : Nat) (hacc : ∀ x ∈ acc, x ≠ 0)
    (hc : ((cstr src).take c).length ≤ k) :
    strncat (acc ++ List.replicate (k + 1) 0) src c
      = (acc ++ (cstr src).take c)
          ++ List.replicate (k - ((cstr src).take c).length + 1) 0 := by
  have hs : strlen (acc ++ List.replicate (k + 1) 0) = acc.length := by
    unfold strlen
    rw [cstr_of_ne_zero acc hacc]
  have e1 : (acc ++ List.replicate (k + 1) 0).take acc.length = acc := List.take_left _ _
  have e2 : (acc ++ List.replicate (k + 1) 0).drop
      (acc.length + ((cstr src).take c ++ [0]).length)
        = List.replicate (k - ((cstr src).take c).length) 0 := by
    rw [List.drop_append, List.drop_replicate, List.length_append, List.length_singleton]
    congr 1
    omega
  unfold strncat memwrite
  rw [hs, e1, e2, List.take_of_length_le]
  · rw [List.replicate_succ]
    simp only [List.append_assoc, List.singleton_append]
  · simp only [List.length_append, List.length_replicate, List.length_singleton]
    omega

theorem es_read_device_data_stop_success (acc : List Nat) :
    es_read_device_data_stop true (acc ++ List.replicate 1 0) (acc.length : Int)
      = (ES_SUCCESS, acc ++ [0],
          [.write ES_SERIAL_STOP_TRANSFER_CODE (acc.length : Int) true]) := by
  unfold es_read_device_data_stop store
  simp

theorem es_read_device_data_loop_success (n : Nat) (hn31 : n < 2 ^ 31)
    (datas : List (List Nat)) :
    ∀ (acc : List Nat) (k : Nat), acc.length + k + 1 = n → (∀ x ∈ acc, x ≠ 0) →
      (∀ d ∈ datas, (∀ x ∈ d, x ≠ 0) ∧ d.length ≤ n) → k ≤ datas.flatten.length →
      ∃ events, es_read_device_data_loop (n : Int) true (datas.map some)
          (acc ++ List.replicate (k + 1) 0) (acc.length : Int)
        = some (ES_SUCCESS, (acc ++ datas.flatten).take (n - 1) ++ [0], events) := by
  have hstop : ∀ (acc : List Nat) (k : Nat) (rest : List (List Nat)),
      acc.length + k + 1 = n → k = 0 →
      es_read_device_data_stop true (acc ++ List.replicate (k + 1) 0) (acc.length : Int)
        = (ES_SUCCESS, (acc ++ rest.flatten).take (n - 1) ++ [0],
            [.write ES_SERIAL_STOP_TRANSFER_CODE (acc.length : Int) true]) := by
    intro acc k rest hn hk
    subst hk
    rw [es_read_device_data_stop_success]
    have : n - 1 = acc.length := by omega
    rw [this, List.take_left]
  induction datas with
  | nil =>
    intro acc k hn hacc _ hk
    have hk0 : k = 0 := by simpa using hk
    have hb : (acc.length : Int) = (n : Int) - 1 := by omega
    refine ⟨[.write ES_SERIAL_STOP_TRANSFER_CODE (acc.length : Int) true], ?_⟩
    rw [List.map_nil, es_read_device_data_loop, if_pos hb, hstop acc k [] hn hk0]
  | cons d rest ih =>
    intro acc k hn hacc hd hk
    by_cases hk0 : k = 0
    · have hb : (acc.length : Int) = (n : Int) - 1 := by omega
      refine ⟨[.write ES_SERIAL_STOP_TRANSFER_CODE (acc.length : Int) true], ?_⟩
      rw [List.map_cons, es_read_device_data_loop, if_pos hb, hstop acc k (d :: rest) hn hk0]
    · have hb : ¬ (acc.length : Int) = (n : Int) - 1 := by omega
      obtain ⟨hdz, hdl⟩ := hd d (List.mem_cons_self d rest)
      have htake : d.take (n : Int).toNat = d := by
        rw [Int.toNat_ofNat, List.take_of_length_le hdl]
      have hmin : es_min ((d.length : Nat) : Int) ((n : Int) - (acc.length : Int) - 1)
          = ((min d.length k : Nat) : Int) := by
        unfold es_min
        split <;> omega
      have hsz : size_t_of_int ((min d.length k : Nat) : Int) = min d.length k := by
        rw [size_t_of_int_eq _ (by omega) (by omega)]
        rfl
      have htmp : cstr (memwrite (List.replicate (n : Int).toNat 0) 0 d) = d := by
        rw [Int.toNat_ofNat, memwrite_replicate_zero n d hdl]
        exact cstr_of_ne_zero d hdz _
      have hlt : ((cstr (memwrite (List.replicate (n : Int).toNat 0) 0 d)).take
          (min d.length k)).length = min d.length k := by
        rw [htmp, List.length_take]
        omega
      have hcat := strncat_append_zeros acc (memwrite (List.replicate (n : Int).toNat 0) 0 d)
        k (min d.length k) hacc (by rw [hlt]; omega)
      rw [hlt, htmp] at hcat
      have hacc2 : ∀ x ∈ acc ++ d.take (min d.length k), x ≠ 0 := by
        intro x hx
        rcases List.mem_append.mp hx with h | h
        · exact hacc x h
        · exact hdz x (List.mem_of_mem_take h)
      have hlen2 : (acc ++ d.take (min d.length k)).length = acc.length + min d.length k := by
        rw [List.length_append, List.length_take]
        omega
      obtain ⟨events, he⟩ := ih (acc ++ d.take (min d.length k)) (k - min d.length k)
        (by omega) hacc2 (fun d' hd' => hd d' (List.mem_cons_of_mem d hd'))
        (by
          rw [List.flatten_cons, List.length_append] at hk
          omega)
      refine ⟨.read (acc.length : Int) :: events, ?_⟩
      rw [List.map_cons, es_read_device_data_loop, if_neg hb]
      simp only [htake, hmin, hsz, hcat]
      rw [hlen2] at he
      rw [show ((acc.length : Int) + ((min d.length k : Nat) : Int))
        = ((acc.length + min d.length k : Nat) : Int) from by push_cast; rfl, he]
      have hres : (acc ++ d.take (min d.length k) ++ rest.flatten).take (n - 1)
          = (acc ++ (d :: rest).flatten).take (n - 1) := by
        rw [List.flatten_cons]
        by_cases hle : d.length ≤ k
        · rw [Nat.min_eq_left hle, List.take_of_length_le (le_refl _), List.append_assoc]
        · have hm : min d.length k = k := by omega
          have hn1 : n - 1 = acc.length + k := by omega
          rw [hm, hn1, List.append_assoc, List.take_append, List.take_append,
            List.take_append_of_le_length (by rw [List.length_take]; omega),
            List.take_append_of_le_length (by omega), List.take_take, Nat.min_self]
      rw [hres]

theorem es_read_device_data_exit_eq (n : Nat) (buffer : List Nat) (hn2 : n < 2 ^ 31)
    (hlen : buffer.length = n) :
    es_read_device_data_exit (n : Int) buffer = List.replicate n 0 := by
  unfold es_read_device_data_exit store memset_zero
  rw [size_t_of_int_eq _ (by omega) (by omega), Int.toNat_ofNat,
    List.drop_of_length_le (by omega), hlen, Nat.min_self, List.append_nil]
  simp only [le_refl, ↓reduceIte, Int.toNat_zero]
  apply List.ext_getElem?
  intro i
  rw [List.getElem?_set]
  split
  · rename_i h
    subst h
    by_cases h0 : 0 < n
    · simp [h0]
    · have : n = 0 := by omega
      subst this
      simp
  · rfl

/-- C21, counterexample: a device that delivers the bytes 65, 0, 66 in one
reading to a call with `n = 4`. The call succeeds, the stop code is written at
count 3, and the buffer holds 65 followed by zeros: the byte 66 delivered after
the zero byte is not in it. -/
theorem es_read_device_data_zero_byte :
    es_read_device_data (working_device [[65, 0, 66]]) 4 [9, 9, 9, 9]
        = some (ES_SUCCESS, [65, 0, 0, 0],
            [.write ES_SERIAL_START_TRANSFER_CODE 0 true, .read 0,
              .write ES_SERIAL_STOP_TRANSFER_CODE 3 true])
      ∧ ([[65, 0, 66]] : List (List Nat)).flatten.take 3 ++ [0] ≠ [65, 0, 0, 0] := by
  decide

/-- C21, amended: for every `n >= 1` and every buffer of `n` bytes, whatever the
device does, a call of `es_read_device_data` that returns has written the start
code before any other call on the descriptor, has read only at counts below
`n - 1`, has written the stop code only at count `n - 1`, ends a successful
call by the stop code with a zero at index `n - 1`, and leaves the whole buffer
zero on failure. When every call succeeds and the readings consist of non-zero
bytes, at most `n` per reading and at least `n - 1` in total, the call returns
`ES_SUCCESS` and the buffer holds the first `n - 1` bytes delivered, in order,
followed by a zero. -/
theorem es_read_device_data_framing (n : Nat) (buffer : List Nat) (hn1 : 1 ≤ n)
    (hn2 : n < 2 ^ 31) (hlen : buffer.length = n) :
    (∀ (device : SerialDevice) (ret : Int) (buf : List Nat) (events : List DeviceEvent),
      es_read_device_data device (n : Int) buffer = some (ret, buf, events) →
        (events = [] ∨ ∃ ok, events.head? = some (.write ES_SERIAL_START_TRANSFER_CODE 0 ok))
        ∧ (∀ e ∈ events.tail,
            (∃ k, e = .read k ∧ 0 ≤ k ∧ k < (n : Int) - 1)
              ∨ (∃ ok, e = .write ES_SERIAL_STOP_TRANSFER_CODE ((n : Int) - 1) ok))
        ∧ (ret = ES_SUCCESS →
            events.getLast? = some (.write ES_SERIAL_STOP_TRANSFER_CODE ((n : Int) - 1) true)
              ∧ buf.length = n ∧ buf[n - 1]? = some 0)
        ∧ (ret ≠ ES_SUCCESS → buf = List.replicate n 0))
    ∧ (∀ datas : List (List Nat),
        (∀ d ∈ datas, (∀ x ∈ d, x ≠ 0) ∧ d.length ≤ n) → n - 1 ≤ datas.flatten.length →
        ∃ events, es_read_device_data (working_device datas) (n : Int) buffer
          = some (ES_SUCCESS, datas.flatten.take (n - 1) ++ [0], events)) := by
  have h01 : ES_FAILURE ≠ ES_SUCCESS := by decide
  have hsz : ¬ ((n : Int) ≤ 0) := by omega
  have hml : (memset_zero buffer (n : Int).toNat).length = n := by
    unfold memset_zero
    simp [hlen]
  have hexit : ∀ b : List Nat, b.length = n →
      es_read_device_data_exit (n : Int) b = List.replicate n 0 :=
    fun b hb => es_read_device_data_exit_eq n b hn2 hb
  constructor
  · intro device ret buf events h
    unfold es_read_device_data at h
    by_cases hd : device.descriptor_ok = true
    · by_cases hm : device.malloc_ok = true
      · by_cases hst : device.start_ok = true
        · simp only [hd, hm, hst, not_true_eq_false, ↓reduceIte, hsz] at h
          cases hl : es_read_device_data_loop (n : Int) device.stop_ok device.reads
              (memset_zero buffer (n : Int).toNat) 0 with
          | none =>
            rw [hl] at h
            cases h
          | some r =>
            obtain ⟨ret1, buf1, ev1⟩ := r
            rw [hl] at h
            simp only [Option.some.injEq, Prod.mk.injEq] at h
            obtain ⟨hr, hbuf, hev⟩ := h
            obtain ⟨i1, i2, i3, i4⟩ := es_read_device_data_loop_spec (n : Int)
              device.stop_ok (by omega) device.reads _ 0 ret1 buf1 ev1 (le_refl _)
              (by omega) (by rw [hml]) hl
            rw [hml] at i1
            subst hr hev
            refine ⟨Or.inr ⟨true, rfl⟩, ?_, ?_, ?_⟩
            · intro e he
              rcases i2 e he with ⟨k, hk1, hk2, hk3⟩ | hw
              · exact Or.inl ⟨k, hk1, hk2, hk3⟩
              · exact Or.inr hw
            · intro hs
              obtain ⟨h5, h6⟩ := i3 hs
              rw [if_neg (by rw [hs]; exact h01.symm)] at hbuf
              subst hbuf
              refine ⟨?_, i1, ?_⟩
              · rw [List.getLast?_cons, h5]
                rfl
              · have : ((n : Int) - 1).toNat = n - 1 := by omega
                rw [← this]
                exact h6
            · intro hs
              have hf : ret1 = ES_FAILURE := by
                rcases i4 with h | h
                · exact absurd h hs
                · exact h
              rw [if_pos hf] at hbuf
              rw [← hbuf]
              exact hexit buf1 i1
        · simp only [hd, hm, hst, not_true_eq_false, ↓reduceIte, hsz, not_false_eq_true, Bool.false_eq_true,
            Option.some.injEq, Prod.mk.injEq] at h
          obtain ⟨hr, hbuf, hev⟩ := h
          subst hr hev
          refine ⟨Or.inr ⟨false, rfl⟩, ?_, fun hs => absurd hs h01, ?_⟩
          · intro e he
            simp at he
          · intro _
            rw [← hbuf]
            exact hexit _ hml
      · simp only [hd, hm, not_true_eq_false, ↓reduceIte, hsz, not_false_eq_true, Bool.false_eq_true,
          Option.some.injEq, Prod.mk.injEq] at h
        obtain ⟨hr, hbuf, hev⟩ := h
        subst hr hev
        refine ⟨Or.inl rfl, ?_, fun hs => absurd hs h01, ?_⟩
        · intro e he
          simp at he
        · intro _
          rw [← hbuf]
          exact hexit _ hml
    · simp only [hd, not_false_eq_true, Bool.false_eq_true, ↓reduceIte, Option.some.injEq,
        Prod.mk.injEq] at h
      obtain ⟨hr, hbuf, hev⟩ := h
      subst hr hev
      refine ⟨Or.inl rfl, ?_, fun hs => absurd hs h01, ?_⟩
      · intro e he
        simp at he
      · intro _
        rw [← hbuf]
        exact hexit _ hlen
  · intro datas hd hk
    have hmz : memset_zero buffer (n : Int).toNat
        = ([] : List Nat) ++ List.replicate ((n - 1) + 1) 0 := by
      unfold memset_zero
      rw [Int.toNat_ofNat, List.drop_of_length_le (by omega), hlen, Nat.min_self,
        List.append_nil, List.nil_append]
      congr 1
      omega
    obtain ⟨events, he⟩ := es_read_device_data_loop_success n hn2 datas [] (n - 1)
      (by simp; omega) (by simp) hd hk
    refine ⟨.write ES_SERIAL_START_TRANSFER_CODE 0 true :: events, ?_⟩
    unfold es_read_device_data working_device
    simp only [not_true_eq_false, ↓reduceIte, hsz]
    rw [hmz]
    simp only [List.length_nil, Nat.cast_zero, List.nil_append] at he ⊢
    rw [he]
    simp [h01.symm]

/-- C21 amended, with `n = 4` on a device that delivers the bytes 65, 66 and then
67, 68, 69: the buffer holds 65, 66, 67 and a zero. -/
theorem es_read_device_data_framing_witness :
    ([9, 9, 9, 9] : List Nat).length = 4
      ∧ (∃ events, es_read_device_data (working_device [[65, 66], [67, 68, 69]])
          ((4 : Nat) : Int) [9, 9, 9, 9]
        = some (ES_SUCCESS,
            ([[65, 66], [67, 68, 69]] : List (List Nat)).flatten.take (4 - 1) ++ [0],
            events))
      ∧ ([[65, 66], [67, 68, 69]] : List (List Nat)).flatten.take (4 - 1) ++ [0]
          = [65, 66, 67, 0] :=
  ⟨by decide,
    (es_read_device_data_framing 4 [9, 9, 9, 9] (by decide) (by decide) (by decide)).2
      [[65, 66], [67, 68, 69]] (by decide) (by decide),
    by decide⟩

/-! ## Lock discipline of the worker threads -/

theorem held_after_append (held : HeldLocks) (a b : List SyncEvent) :
    held_after held (a ++ b) = held_after (held_after held a) b := by
  unfold held_after
  exact List.foldl_append _ _ _ _

theorem never_both_held_append (a b : List SyncEvent) :
    ∀ held : HeldLocks, never_both_held held (a ++ b)
      = (never_both_held held a && never_both_held (held_after held a) b) := by
  induction a with
  | nil =>
    intro held
    cases b with
    | nil => simp [never_both_held, held_after]
    | cons e es => simp [never_both_held, held_after]
  | cons e es ih =>
    intro held
    rw [List.cons_append, never_both_held, never_both_held, ih, Bool.and_assoc]
    rfl

theorem held_at_transfer_append (a b : List SyncEvent) :
    ∀ held : HeldLocks, held_at_transfer held (a ++ b)
      = held_at_transfer held a ++ held_at_transfer (held_after held a) b := by
  induction a with
  | nil =>
    intro held
    simp [held_at_transfer, held_after]
  | cons e es ih =>
    intro held
    cases e <;> simp [held_at_transfer, held_after, ih, HeldLocks.step]

theorem held_after_reads (m : Nat) (held : HeldLocks) :
    held_after held (List.replicate m SyncEvent.device_read) = held := by
  induction m with
  | zero => rfl
  | succ k ih =>
    rw [List.replicate_succ]
    unfold held_after at ih ⊢
    rw [List.foldl_cons]
    exact ih

theorem never_both_held_reads (m : Nat) (held : HeldLocks) :
    never_both_held held (List.replicate m SyncEvent.device_read) = !held.both := by
  induction m with
  | zero => rfl
  | succ k ih =>
    rw [List.replicate_succ, never_both_held]
    show (!held.both && never_both_held held (List.replicate k SyncEvent.device_read)) = _
    rw [ih, Bool.and_self]

theorem held_at_transfer_reads (m : Nat) (held : HeldLocks) :
    held_at_transfer held (List.replicate m SyncEvent.device_read) = List.replicate m held := by
  induction m with
  | zero => rfl
  | succ k ih =>
    rw [List.replicate_succ, held_at_transfer, ih, List.replicate_succ]

theorem es_clean_entropy_block_loop_events_eq (gl : GLib)
    (readings : List (Option (List Nat))) :
    ∀ block : es_entropy_block, ∃ m,
      es_clean_entropy_block_loop_events gl readings block
        = List.replicate m SyncEvent.device_read := by
  induction readings with
  | nil =>
    intro block
    exact ⟨0, rfl⟩
  | cons reading rest ih =>
    intro block
    unfold es_clean_entropy_block_loop_events
    by_cases hd : block.state = ES_DIRTY_BLOCK_STATE
    · rw [if_pos hd]
      cases reading with
      | none => exact ⟨1, rfl⟩
      | some buffer =>
        by_cases hs : (es_update_entropy_block_content gl block (some buffer)).1.status
            ≠ ES_SUCCESS
        · refine ⟨1, ?_⟩
          show SyncEvent.device_read :: (if _ then _ else _) = _
          rw [if_pos hs]
          rfl
        · obtain ⟨m, hm⟩ := ih (es_update_entropy_block_content gl block (some buffer)).2
          refine ⟨m + 1, ?_⟩
          show SyncEvent.device_read :: (if _ then _ else _) = _
          rw [if_neg hs, hm]
          rfl
    · rw [if_neg hd]
      exact ⟨0, rfl⟩

theorem es_clean_entropy_block_events_shape (gl : GLib)
    (readings : List (Option (List Nat))) (pool : es_entropy_pool) (index : Int) :
    (es_clean_entropy_block_events gl readings pool index = []
        ∧ ((es_clean_entropy_block gl readings pool index).isSome = true ∨
            (es_clean_entropy_block gl readings pool index) = none))
      ∨ (∃ m, es_clean_entropy_block_events gl readings pool index
            = .lock_block index :: List.replicate m SyncEvent.device_read
                ++ [.unlock_block index]
          ∧ (es_clean_entropy_block gl readings pool index).isSome = true)
      ∨ (∃ m, es_clean_entropy_block_events gl readings pool index
            = .lock_block index :: List.replicate m SyncEvent.device_read
          ∧ es_clean_entropy_block gl readings pool index = none) := by
  unfold es_clean_entropy_block_events es_clean_entropy_block
  by_cases hi : index < 0
  · left
    simp [hi]
  · simp only [hi, ↓reduceIte]
    cases hb : pool.block_at index with
    | none =>
      left
      simp
    | some block =>
      obtain ⟨m, hm⟩ := es_clean_entropy_block_loop_events_eq gl readings block
      simp only [hm]
      cases hl : es_clean_entropy_block_loop gl readings block with
      | none =>
        right; right
        exact ⟨m, by simp, rfl⟩
      | some r =>
        right; left
        exact ⟨m, by simp, rfl⟩

theorem es_get_entropy_block_index_events_facts (pool : es_entropy_pool) :
    never_both_held HeldLocks.none (es_get_entropy_block_index_events pool) = true
      ∧ held_after HeldLocks.none (es_get_entropy_block_index_events pool) = HeldLocks.none
      ∧ held_at_transfer HeldLocks.none (es_get_entropy_block_index_events pool) = [] := by
  unfold es_get_entropy_block_index_events
  split
  · exact ⟨rfl, rfl, rfl⟩
  · exact ⟨rfl, rfl, rfl⟩

theorem held_at_transfer_lock_block (held : HeldLocks) (index : Int) (rest : List SyncEvent) :
    held_at_transfer held (.lock_block index :: rest)
      = held_at_transfer (held.step (.lock_block index)) rest := by
  simp [held_at_transfer]

theorem es_clean_entropy_block_events_facts (gl : GLib)
    (readings : List (Option (List Nat))) (pool : es_entropy_pool) (index : Int) :
    never_both_held HeldLocks.none (es_clean_entropy_block_events gl readings pool index)
        = true
      ∧ ((es_clean_entropy_block gl readings pool index).isSome = true →
          held_after HeldLocks.none (es_clean_entropy_block_events gl readings pool index)
            = HeldLocks.none)
      ∧ (∀ held ∈ held_at_transfer HeldLocks.none
            (es_clean_entropy_block_events gl readings pool index),
          held = { pool := false, blocks := [index] }) := by
  rcases es_clean_entropy_block_events_shape gl readings pool index with
    ⟨h, _⟩ | ⟨m, h, _⟩ | ⟨m, h, hn⟩
  · rw [h]
    exact ⟨rfl, fun _ => rfl, fun held hh => by simp [held_at_transfer] at hh⟩
  · rw [h]
    refine ⟨?_, fun _ => ?_, ?_⟩
    · rw [List.cons_append, never_both_held, never_both_held_append, never_both_held_reads,
        held_after_reads]
      simp [never_both_held, HeldLocks.step, HeldLocks.both, HeldLocks.none]
    · rw [List.cons_append]
      unfold held_after
      rw [List.foldl_cons]
      have := held_after_append (HeldLocks.none.step (.lock_block index))
        (List.replicate m SyncEvent.device_read) [.unlock_block index]
      unfold held_after at this
      rw [this]
      have h2 := held_after_reads m (HeldLocks.none.step (.lock_block index))
      unfold held_after at h2
      rw [h2]
      simp [HeldLocks.step, HeldLocks.none]
    · intro held hh
      rw [List.cons_append, held_at_transfer_lock_block, held_at_transfer_append, held_at_transfer_reads,
        held_after_reads] at hh
      simp only [held_at_transfer, List.append_nil, HeldLocks.step, HeldLocks.none] at hh
      exact List.eq_of_mem_replicate hh
  · rw [h, hn]
    refine ⟨?_, fun hc => by simp at hc, ?_⟩
    · rw [never_both_held, never_both_held_reads]
      simp [HeldLocks.step, HeldLocks.both, HeldLocks.none]
    · intro held hh
      rw [held_at_transfer_lock_block, held_at_transfer_reads] at hh
      simp only [HeldLocks.step, HeldLocks.none] at hh
      exact List.eq_of_mem_replicate hh

theorem sync_events_compose (a b : List SyncEvent)
    (h1 : never_both_held HeldLocks.none a = true)
    (h2 : held_after HeldLocks.none a = HeldLocks.none) :
    never_both_held HeldLocks.none (a ++ b) = never_both_held HeldLocks.none b
      ∧ held_after HeldLocks.none (a ++ b) = held_after HeldLocks.none b
      ∧ held_at_transfer HeldLocks.none (a ++ b)
          = held_at_transfer HeldLocks.none a ++ held_at_transfer HeldLocks.none b := by
  refine ⟨?_, ?_, ?_⟩
  · rw [never_both_held_append, h1, h2, Bool.true_and]
  · rw [held_after_append, h2]
  · rw [held_at_transfer_append, h2]

theorem es_clean_entropy_pool_step_events_facts (gl : GLib)
    (readings : List (Option (List Nat))) (pool : es_entropy_pool) :
    never_both_held HeldLocks.none (es_clean_entropy_pool_step_events gl readings pool)
        = true
      ∧ ((∀ index pool1, es_get_dirty_entropy_block_index pool = (some index, pool1) →
            (es_clean_entropy_block gl readings pool1 index).isSome = true) →
          held_after HeldLocks.none (es_clean_entropy_pool_step_events gl readings pool)
            = HeldLocks.none)
      ∧ (∀ held ∈ held_at_transfer HeldLocks.none
            (es_clean_entropy_pool_step_events gl readings pool),
          held.pool = false ∧ ∃ index, held.blocks = [index]) := by
  obtain ⟨g1, g2, g3⟩ := es_get_entropy_block_index_events_facts pool
  unfold es_clean_entropy_pool_step_events
  obtain ⟨c1, c2, c3⟩ := sync_events_compose (es_get_entropy_block_index_events pool)
    (match es_get_dirty_entropy_block_index pool with
        | (none, _) => []
        | (some index, pool) =>
          es_clean_entropy_block_events gl readings pool index
            ++ (if (es_clean_entropy_block gl readings pool index).isSome then
                  [.lock_pool, .unlock_pool]
                else [])) g1 g2
  rw [c1, c2, c3, g3, List.nil_append]
  cases hg : es_get_dirty_entropy_block_index pool with
  | mk oi pool1 =>
    cases oi with
    | none =>
      simp only
      exact ⟨rfl, fun _ => rfl, fun held hh => by simp [held_at_transfer] at hh⟩
    | some index =>
      simp only
      obtain ⟨b1, b2, b3⟩ := es_clean_entropy_block_events_facts gl readings pool1 index
      cases hs : (es_clean_entropy_block gl readings pool1 index).isSome with
      | false =>
        simp only [Bool.false_eq_true, ↓reduceIte, List.append_nil]
        refine ⟨b1, fun hall => ?_, ?_⟩
        · have := hall index pool1 rfl
          rw [hs] at this
          cases this
        · intro held hh
          rw [b3 held hh]
          exact ⟨rfl, index, rfl⟩
      | true =>
        simp only [↓reduceIte]
        have b2' := b2 hs
        refine ⟨?_, fun _ => ?_, ?_⟩
        · rw [never_both_held_append, b1, b2']
          rfl
        · rw [held_after_append, b2']
          rfl
        · intro held hh
          rw [held_at_transfer_append, b2'] at hh
          simp only [held_at_transfer, List.append_nil] at hh
          rw [b3 held hh]
          exact ⟨rfl, index, rfl⟩

theorem polls_events_facts (polls : Nat) :
    never_both_held HeldLocks.none
        (List.replicate polls [SyncEvent.lock_pool, SyncEvent.unlock_pool]).flatten = true
      ∧ held_after HeldLocks.none
        (List.replicate polls [SyncEvent.lock_pool, SyncEvent.unlock_pool]).flatten
          = HeldLocks.none
      ∧ held_at_transfer HeldLocks.none
        (List.replicate polls [SyncEvent.lock_pool, SyncEvent.unlock_pool]).flatten = [] := by
  induction polls with
  | zero => exact ⟨rfl, rfl, rfl⟩
  | succ k ih =>
    rw [List.replicate_succ, List.flatten_cons]
    obtain ⟨c1, c2, c3⟩ := sync_events_compose [SyncEvent.lock_pool, SyncEvent.unlock_pool]
      (List.replicate k [SyncEvent.lock_pool, SyncEvent.unlock_pool]).flatten rfl rfl
    rw [c1, c2, c3]
    exact ⟨ih.1, ih.2.1, by rw [ih.2.2]; rfl⟩

theorem es_consume_entropy_block_events_facts (polls : Nat) (pool : es_entropy_pool) :
    never_both_held HeldLocks.none (es_consume_entropy_block_events polls pool) = true
      ∧ held_after HeldLocks.none (es_consume_entropy_block_events polls pool)
          = HeldLocks.none
      ∧ held_at_transfer HeldLocks.none (es_consume_entropy_block_events polls pool) = [] := by
  unfold es_consume_entropy_block_events
  split
  · exact ⟨rfl, rfl, rfl⟩
  · obtain ⟨p1, p2, p3⟩ := polls_events_facts polls
    obtain ⟨g1, g2, g3⟩ := es_get_entropy_block_index_events_facts pool
    rw [List.append_assoc]
    obtain ⟨c1, c2, c3⟩ := sync_events_compose
      (List.replicate polls [SyncEvent.lock_pool, SyncEvent.unlock_pool]).flatten
      (es_get_entropy_block_index_events pool ++
        (match es_get_clean_entropy_block_index pool with
          | (none, _) => []
          | (some index, pool) =>
            match pool.block_at index with
            | none => []
            | some _ =>
              [.lock_block index, .unlock_block index, .lock_pool, .unlock_pool])) p1 p2
    obtain ⟨d1, d2, d3⟩ := sync_events_compose (es_get_entropy_block_index_events pool)
      (match es_get_clean_entropy_block_index pool with
          | (none, _) => []
          | (some index, pool) =>
            match pool.block_at index with
            | none => []
            | some _ =>
              [.lock_block index, .unlock_block index, .lock_pool, .unlock_pool]) g1 g2
    rw [c1, c2, c3, d1, d2, d3, p3, g3]
    cases hg : es_get_clean_entropy_block_index pool with
    | mk oi pool1 =>
      cases oi with
      | none => exact ⟨rfl, rfl, rfl⟩
      | some index =>
        simp only
        cases pool1.block_at index with
        | none => exact ⟨rfl, rfl, rfl⟩
        | some b =>
          simp [never_both_held, held_after, held_at_transfer, HeldLocks.step, HeldLocks.both,
            HeldLocks.none]

theorem sync_events_flatten (steps : List (List SyncEvent))
    (h : ∀ t ∈ steps, never_both_held HeldLocks.none t = true
      ∧ held_after HeldLocks.none t = HeldLocks.none) :
    never_both_held HeldLocks.none steps.flatten = true
      ∧ held_after HeldLocks.none steps.flatten = HeldLocks.none := by
  induction steps with
  | nil => exact ⟨rfl, rfl⟩
  | cons t rest ih =>
    obtain ⟨h1, h2⟩ := h t (List.mem_cons_self t rest)
    obtain ⟨c1, c2, _⟩ := sync_events_compose t rest.flatten h1 h2
    rw [List.flatten_cons, c1, c2]
    exact ih (fun t' ht' => h t' (List.mem_cons_of_mem t ht'))

/-- C26 (no nested locks): along the calls of `es_get_entropy_block_index`, of
`es_clean_entropy_block`, of an iteration of `es_clean_entropy_pool` and of
`es_consume_entropy_block`, for every pool, index, sequence of readings and
number of polls, `pool->mutex` and the mutex of a block are never held
together, and when the function returns no mutex is held: every lock is
matched by an unlock, on the failure paths too. The same holds of every
sequence of such runs one after the other. -/
theorem es_worker_locks_never_nested (gl : GLib) (readings : List (Option (List Nat)))
    (pool : es_entropy_pool) (index : Int) (polls : Nat) :
    (never_both_held HeldLocks.none (es_get_entropy_block_index_events pool) = true
      ∧ held_after HeldLocks.none (es_get_entropy_block_index_events pool) = HeldLocks.none)
    ∧ (never_both_held HeldLocks.none
          (es_clean_entropy_block_events gl readings pool index) = true
      ∧ ((es_clean_entropy_block gl readings pool index).isSome = true →
          held_after HeldLocks.none (es_clean_entropy_block_events gl readings pool index)
            = HeldLocks.none))
    ∧ (never_both_held HeldLocks.none
          (es_clean_entropy_pool_step_events gl readings pool) = true
      ∧ ((∀ index pool1, es_get_dirty_entropy_block_index pool = (some index, pool1) →
            (es_clean_entropy_block gl readings pool1 index).isSome = true) →
          held_after HeldLocks.none (es_clean_entropy_pool_step_events gl readings pool)
            = HeldLocks.none))
    ∧ (never_both_held HeldLocks.none (es_consume_entropy_block_events polls pool) = true
      ∧ held_after HeldLocks.none (es_consume_entropy_block_events polls pool)
          = HeldLocks.none)
    ∧ (∀ steps : List (List SyncEvent),
        (∀ t ∈ steps, never_both_held HeldLocks.none t = true
          ∧ held_after HeldLocks.none t = HeldLocks.none) →
        never_both_held HeldLocks.none steps.flatten = true
          ∧ held_after HeldLocks.none steps.flatten = HeldLocks.none) := by
  obtain ⟨g1, g2, _⟩ := es_get_entropy_block_index_events_facts pool
  obtain ⟨b1, b2, _⟩ := es_clean_entropy_block_events_facts gl readings pool index
  obtain ⟨s1, s2, _⟩ := es_clean_entropy_pool_step_events_facts gl readings pool
  obtain ⟨c1, c2, _⟩ := es_consume_entropy_block_events_facts polls pool
  exact ⟨⟨g1, g2⟩, ⟨b1, b2⟩, ⟨s1, s2⟩, ⟨c1, c2⟩, sync_events_flatten⟩

/-- C27, counterexample: one iteration of `es_clean_entropy_pool` on a pool of
two fresh blocks with the reading "abcdefg". The call of `es_read_device_data`
is made between the lock and the unlock of the mutex of block 0. -/
theorem es_clean_entropy_block_reads_under_lock :
    es_clean_entropy_pool_step_events sample_glib [some str_abcdefg] (fresh_pool 2 8)
        = [.lock_pool, .unlock_pool, .lock_block 0, .device_read, .unlock_block 0,
            .lock_pool, .unlock_pool]
      ∧ held_at_transfer HeldLocks.none
          (es_clean_entropy_pool_step_events sample_glib [some str_abcdefg] (fresh_pool 2 8))
        = [{ pool := false, blocks := [0] }] := by
  decide!

/-- C27, amended: `pool->mutex` is never held at a call of
`es_read_device_data` or of `es_write_ssl_descriptor`. At every call of
`es_read_device_data` made by `es_clean_entropy_block`, alone or inside an
iteration of `es_clean_entropy_pool`, the thread holds the mutex of the block
it refills and no other mutex. `es_consume_entropy_block` makes no such call,
and at the write of the reply in `es_handle_ssl_request` no mutex is held. -/
theorem es_worker_locks_at_transfer (gl : GLib) (extract : ExtractFn)
    (readings : List (Option (List Nat))) (pool : es_entropy_pool) (index : Int)
    (polls : Nat) (request_ok : Bool) (out_buff : List Nat) (out_buff_size : Int) :
    (∀ held ∈ held_at_transfer HeldLocks.none
          (es_clean_entropy_block_events gl readings pool index),
        held = { pool := false, blocks := [index] })
    ∧ (∀ held ∈ held_at_transfer HeldLocks.none
          (es_clean_entropy_pool_step_events gl readings pool),
        held.pool = false ∧ ∃ index, held.blocks = [index])
    ∧ held_at_transfer HeldLocks.none (es_consume_entropy_block_events polls pool) = []
    ∧ (∀ held ∈ held_at_transfer HeldLocks.none
          (es_handle_ssl_request_events extract request_ok polls pool out_buff
            out_buff_size),
        held = HeldLocks.none) := by
  obtain ⟨_, _, b3⟩ := es_clean_entropy_block_events_facts gl readings pool index
  obtain ⟨_, _, s3⟩ := es_clean_entropy_pool_step_events_facts gl readings pool
  obtain ⟨c1, c2, c3⟩ := es_consume_entropy_block_events_facts polls pool
  refine ⟨b3, s3, c3, ?_⟩
  intro held hh
  unfold es_handle_ssl_request_events at hh
  cases request_ok with
  | false => simp [held_at_transfer] at hh
  | true =>
    simp only [not_true_eq_false, ↓reduceIte] at hh
    rw [(sync_events_compose _ _ c1 c2).2.2, c3, List.nil_append] at hh
    cases hp : process_request extract pool out_buff out_buff_size with
    | none =>
      rw [hp] at hh
      simp [held_at_transfer] at hh
    | some r =>
      obtain ⟨status, a, b, c⟩ := r
      rw [hp] at hh
      simp only at hh
      by_cases hs : status ≠ ES_SUCCESS
      · rw [if_pos hs] at hh
        simp [held_at_transfer] at hh
      · rw [if_neg hs] at hh
        simpa [held_at_transfer] using hh

end EntropySource
